import Mathlib

/-!
Species loading, move compilation and loot generation of `src/pokemons.cpp`

A shallow embedding of the functions of `pokemons.cpp`.  Collaborators that live
outside this file of the repository (the item factory, the game object, the
configuration, the random generator, the move catalogue, the XML reader) are
taken as fields of an environment record, and every function of the source is a
total Lean function over explicit state.
-/

namespace RubyServer

/-! ## Machine integers -/

/-- Value of an integer after conversion to `int32_t` (two's complement). -/
def toInt32 (n : Int) : Int :=
  if n % 4294967296 < 2147483648 then n % 4294967296 else n % 4294967296 - 4294967296

/-- Value of an integer after conversion to `uint32_t`. -/
def toUInt32 (n : Int) : Nat :=
  (n % 4294967296).toNat

/-- Result of `std::abs` on an `int32_t`: the magnitude, except at the least
`int32_t`, where the language leaves the result undefined and the two's
complement negation gives the operand back. -/
def abs32 (n : Int) : Int :=
  if n = -2147483648 then -2147483648 else |n|

/-- Lower-casing of `asLowerCaseString`: every character through `tolower`. -/
def asLowerCaseString (s : String) : String :=
  String.mk (s.data.map Char.toLower)

/-! ## Loot data -/

/-- One entry of a loot table (`LootBlock`), with its nested entries. -/
structure LootBlock where
  id : Nat := 0
  countmax : Nat := 0
  chance : Nat := 0
  subType : Int := -1
  actionId : Int := -1
  text : String := ""
  childLoot : List LootBlock

/-- Modelled from the spec: the item instance handed out by the external item
factory.  `container` says whether `getContainer()` is non-null; `itemlist` and
`capacity` are the content and the maximum size of that container; `corpseOwner`
is the creature id a corpse records for its owner. -/
structure Item where
  id : Nat
  count : Nat
  subType : Option Int := none
  actionId : Option Int := none
  text : String := ""
  container : Bool := false
  capacity : Nat := 0
  corpseOwner : Nat := 0
  itemlist : List Item

namespace Item

/-- Number of items directly inside a container (`Container::size`). -/
def size (c : Item) : Nat := c.itemlist.length

/-- Whether a container holds nothing (`Container::empty`). -/
def empty (c : Item) : Bool := c.itemlist.isEmpty

/-- Unconditional insertion at the front (`Container::internalAddThing`): no
capacity check is made. -/
def internalAddThing (c : Item) (item : Item) : Item :=
  { c with itemlist := item :: c.itemlist }

/-- Total of the counts of a list of items. -/
def totalCount (items : List Item) : Nat :=
  (items.map Item.count).sum

end Item

/-- The part of an `ItemType` record that the loot code reads. -/
structure ItemType where
  stackable : Bool := false
  isContainer : Bool := false
  charges : Nat := 0

/-- The part of a `Player` that `createLoot` reads. -/
structure Player where
  id : Nat
  staminaMinutes : Nat
  party : Option Nat := none

/-- A loot notification: a party broadcast or a direct text message. -/
inductive LootMessage where
  | partyLoot (party : Nat) (text : String)
  | textMessage (player : Nat) (text : String)
  deriving DecidableEq

/-- Ghost record of the top-level walk of `createLoot`: `roll lb k` is the call
`createLootItem(lb)` consuming draw number `k`; `offer lb item` is the call
`g_game.internalAddItem(corpse, item)` for an item made from entry `lb`. -/
inductive LootEvent where
  | roll (lb : LootBlock) (draw : Nat)
  | offer (lb : LootBlock) (item : Item)

/-- The collaborators of the loot generator. -/
structure Env where
  /-- The probability denominator `MAX_LOOTCHANCE`. -/
  MAX_LOOTCHANCE : Nat
  /-- Result of `g_config.getNumber(ConfigManager::RATE_LOOT)`. -/
  RATE_LOOT : Int
  /-- The successive results of `uniform_random(0, MAX_LOOTCHANCE)`. -/
  uniform_random : Nat → Int
  /-- The item-type table `Item::items`. -/
  items : Nat → ItemType
  /-- The factory `Item::CreateItem(id, count)`; `none` is a null pointer. -/
  CreateItem : Nat → Nat → Option Item
  /-- The call `g_game.internalAddItem(corpse, item)`: the corpse after a
  `RETURNVALUE_NOERROR`, `none` for every other return value. -/
  internalAddItem : Item → Item → Option Item
  /-- The lookup `g_game.getPlayerByID`. -/
  getPlayerByID : Nat → Option Player
  /-- The text of `Container::getContentDescription`. -/
  getContentDescription : Item → String
  /-- The identifiers that `Item::items.nameToItems` holds for a lower-cased
  name (the range of `equal_range`). -/
  nameToItems : String → List Nat

/-! ## Loot generation -/

/-- The scaled draw of `Pokemons::getLootRandom`: the `k`-th raw draw divided by
the loot rate (C++ integer division), converted to `uint32_t`. -/
def getLootRandom (env : Env) (k : Nat) : Nat :=
  toUInt32 (Int.tdiv (env.uniform_random k) env.RATE_LOOT)

/-- The quantity that `createLootItem` computes from the scaled draw
(`itemCount` before the materialisation loop). -/
def lootItemCount (env : Env) (lootBlock : LootBlock) (randvalue : Nat) : Int :=
  if randvalue < lootBlock.chance then
    if (env.items lootBlock.id).stackable then
      toInt32 ((randvalue % lootBlock.countmax + 1 : Nat) : Int)
    else 1
  else 0

/-- The attribute overrides that `createLootItem` applies to a created item. -/
def applyLootAttributes (lootBlock : LootBlock) (tmpItem : Item) : Item :=
  let i1 := if lootBlock.subType ≠ -1 then { tmpItem with subType := some lootBlock.subType } else tmpItem
  let i2 := if lootBlock.actionId ≠ -1 then { i1 with actionId := some lootBlock.actionId } else i1
  if lootBlock.text ≠ "" then { i2 with text := lootBlock.text } else i2

/-- The `while (itemCount > 0)` loop of `createLootItem`.  Every round takes at
least one unit off `itemCount`, so `bound` rounds are enough whenever
`itemCount ≤ bound`; `createLootItem` starts it with `bound = itemCount`. -/
def createLootItemLoop (env : Env) (lootBlock : LootBlock) : Nat → Int → List Item
  | 0, _ => []
  | bound + 1, itemCount =>
    if itemCount > 0 then
      let n := (min itemCount 100).toNat % 65536
      match env.CreateItem lootBlock.id n with
      | none => []
      | some tmpItem =>
        applyLootAttributes lootBlock tmpItem ::
          createLootItemLoop env lootBlock bound (itemCount - n)
    else []

/-- The items of `PokemonType::createLootItem` for the scaled draw number
`drawn`.  One draw is consumed by every call. -/
def createLootItem (env : Env) (lootBlock : LootBlock) (drawn : Nat) : List Item :=
  let itemCount := lootItemCount env lootBlock (getLootRandom env drawn)
  createLootItemLoop env lootBlock itemCount.toNat itemCount

mutual
/-- Embedding of `PokemonType::createLootContainer`: the verdict, the container
after the nested entries were resolved, and the number of draws consumed so
far. -/
def createLootContainer (env : Env) (parent : Item) (lootblock : LootBlock)
    (drawn : Nat) : Bool × Item × Nat :=
  match lootblock with
  | ⟨_, _, _, _, _, _, []⟩ => (true, parent, drawn)
  | ⟨_, _, _, _, _, _, c :: cs⟩ =>
    let r := createLootChildren env parent (c :: cs) drawn
    (!r.1.empty, r.1, r.2)
/-- The `for` loop of `createLootContainer` over the nested entries: an entry
is consulted only while the parent has free capacity. -/
def createLootChildren (env : Env) (parent : Item) (children : List LootBlock)
    (drawn : Nat) : Item × Nat :=
  match children with
  | [] => (parent, drawn)
  | c :: cs =>
    if parent.size < parent.capacity then
      let itemList := createLootItem env c drawn
      let r := itemList.foldl (fun (acc : Item × Nat) (tmpItem : Item) =>
        if tmpItem.container then
          let sub := createLootContainer env tmpItem c acc.2
          if sub.1 then (acc.1.internalAddThing sub.2.1, sub.2.2) else (acc.1, sub.2.2)
        else (acc.1.internalAddThing tmpItem, acc.2)) (parent, drawn + 1)
      createLootChildren env r.1 cs r.2
    else (parent, drawn)
end

/-- The body of the inner `for (Item* tmpItem : itemList)` loop of
`createLootContainer` for an item made from the nested entry `c`: a container
goes through `createLootContainer` first and is added only on a `true` verdict,
any other item is added as it is.  `createLootChildren` folds this step over
the items of `c` (`createLootChildren_cons`). -/
def addChildItem (env : Env) (c : LootBlock) (acc : Item × Nat) (tmpItem : Item) : Item × Nat :=
  if tmpItem.container then
    let sub := createLootContainer env tmpItem c acc.2
    if sub.1 then (acc.1.internalAddThing sub.2.1, sub.2.2) else (acc.1, sub.2.2)
  else (acc.1.internalAddThing tmpItem, acc.2)

/-- State of the top-level walk: the corpse, the draws consumed, the ghost
record of the walk. -/
structure Walk where
  corpse : Item
  drawn : Nat
  log : List LootEvent := []

/-- The inner `for (Item* item : itemList)` loop of `createLoot` for the items
made from entry `lb`. -/
def addLootItems (env : Env) (lb : LootBlock) : List Item → Walk → Walk
  | [], w => w
  | item :: rest, w =>
    if item.container then
      let sub := createLootContainer env item lb w.drawn
      if sub.1 then
        let corpse := match env.internalAddItem w.corpse sub.2.1 with
          | some c => c
          | none => w.corpse.internalAddThing sub.2.1
        addLootItems env lb rest
          { corpse := corpse, drawn := sub.2.2, log := w.log ++ [LootEvent.offer lb sub.2.1] }
      else
        addLootItems env lb rest { w with drawn := sub.2.2 }
    else
      let corpse := match env.internalAddItem w.corpse item with
        | some c => c
        | none => w.corpse.internalAddThing item
      addLootItems env lb rest
        { w with corpse := corpse, log := w.log ++ [LootEvent.offer lb item] }

/-- One round of the outer loop of `createLoot`: the call `createLootItem(lb)`,
which takes the next draw, then the inner loop over its items. -/
def walkStep (env : Env) (lb : LootBlock) (w : Walk) : Walk :=
  addLootItems env lb (createLootItem env lb w.drawn)
    { w with drawn := w.drawn + 1, log := w.log ++ [LootEvent.roll lb w.drawn] }

/-- The outer loop of `createLoot`, over the entries in the order the iterator
visits them (`createLoot` passes the table reversed, for `rbegin .. rend`). -/
def lootWalk (env : Env) : List LootBlock → Walk → Walk
  | [], w => w
  | lb :: rest, w => lootWalk env rest (walkStep env lb w)

/-- What one invocation of `createLoot` does: the corpse afterwards, the draws
consumed, the messages delivered, the number of `startDecaying` calls and the
ghost record of the walk. -/
structure LootOutcome where
  corpse : Item
  drawn : Nat
  messages : List LootMessage
  decays : Nat
  log : List LootEvent

/-- Delivery of a loot text to the owner: to the party when there is one,
otherwise to the player. -/
def deliverLoot (owner : Player) (text : String) : LootMessage :=
  match owner.party with
  | some p => LootMessage.partyLoot p text
  | none => LootMessage.textMessage owner.id text

/-- The text sent when the walk is skipped. -/
def lowStaminaText (nameDescription : String) : String :=
  "Loot of " ++ nameDescription ++ ": nothing (due to low stamina)"

/-- The text sent after the walk. -/
def lootText (env : Env) (nameDescription : String) (corpse : Item) : String :=
  "Loot of " ++ nameDescription ++ ": " ++ env.getContentDescription corpse

/-- Embedding of `PokemonType::createLoot` for a species with the given
description and loot table, started with `drawn` draws already consumed. -/
def createLoot (env : Env) (nameDescription : String) (lootItems : List LootBlock)
    (corpse : Item) (drawn : Nat) : LootOutcome :=
  if env.RATE_LOOT = 0 then
    { corpse := corpse, drawn := drawn, messages := [], decays := 1, log := [] }
  else
    match env.getPlayerByID corpse.corpseOwner with
    | none =>
      let w := lootWalk env lootItems.reverse { corpse := corpse, drawn := drawn }
      { corpse := w.corpse, drawn := w.drawn, messages := [], decays := 1, log := w.log }
    | some owner =>
      if owner.staminaMinutes > 840 then
        let w := lootWalk env lootItems.reverse { corpse := corpse, drawn := drawn }
        { corpse := w.corpse, drawn := w.drawn,
          messages := [deliverLoot owner (lootText env nameDescription w.corpse)],
          decays := 1, log := w.log }
      else
        { corpse := corpse, drawn := drawn,
          messages := [deliverLoot owner (lowStaminaText nameDescription)],
          decays := 1, log := [] }

/-- The record of a walk that rolls entry `i` with draw number `steps[i].1` and
then offers the items `steps[i].2` to the corpse, entry after entry. -/
def walkLog : List LootBlock → List (Nat × List Item) → List LootEvent
  | lb :: rest, s :: steps =>
    LootEvent.roll lb s.1 :: (s.2.map (LootEvent.offer lb) ++ walkLog rest steps)
  | _, _ => []

/-! ## Loot-table loading -/

/-- Value of an integer after conversion to `uint16_t`. -/
def toUInt16 (n : Int) : Nat :=
  (n % 65536).toNat

/-- A loot node of a species definition: the attributes `loadLootItem` reads
(numbers as `pugi::cast<int32_t>` yields them, `none` for an absent attribute)
and the child nodes. -/
structure LootNode where
  id : Option Int := none
  name : Option String := none
  countmax : Option Int := none
  chance : Option Int := none
  chance1 : Option Int := none
  subtype : Option Int := none
  actionId : Option Int := none
  text : Option String := none
  children : List LootNode

/-- The identifier `loadLootItem` resolves for a node: the `id` attribute, or
the unique item of the `name` attribute; `none` is the early `return false` for
an unknown or non-unique name.  A node with neither attribute keeps the
identifier `0` of a fresh `LootBlock`. -/
def resolveLootId (env : Env) (id : Option Int) (name : Option String) : Option Nat :=
  match id with
  | some v => some (toUInt16 v)
  | none =>
    match name with
    | some n =>
      match env.nameToItems (asLowerCaseString n) with
      | [] => none
      | [i] => some (toUInt16 i)
      | _ :: _ :: _ => none
    | none => some 0

/-- The `countmax` that `loadLootItem` stores:
`std::max<int32_t>(1, value)`, or `1` without the attribute. -/
def lootCountmax (countmax : Option Int) : Nat :=
  match countmax with
  | some v => toUInt32 (max 1 v)
  | none => 1

/-- The `chance` that `loadLootItem` stores, as the unsigned value that
`createLootItem` compares the draw with:
`std::min<int32_t>(MAX_LOOTCHANCE, value)` for the attribute `chance`, or
else `chance1`, and `MAX_LOOTCHANCE` without either. -/
def lootChance (env : Env) (chance chance1 : Option Int) : Nat :=
  match chance.orElse (fun _ => chance1) with
  | some v => toUInt32 (min (toInt32 env.MAX_LOOTCHANCE) v)
  | none => env.MAX_LOOTCHANCE

mutual
/-- Embedding of `Pokemons::loadLootItem`; `none` is the result `false`. -/
def loadLootItem (env : Env) (node : LootNode) : Option LootBlock :=
  match node with
  | ⟨id, name, countmax, chance, chance1, subtype, actionId, text, children⟩ =>
    match resolveLootId env id name with
    | none => none
    | some lid =>
      if lid = 0 then none
      else
        some {
          id := lid
          countmax := lootCountmax countmax
          chance := lootChance env chance chance1
          childLoot := if (env.items lid).isContainer then loadLootContainer env children else []
          subType := match subtype with
            | some v => v
            | none => if (env.items lid).charges ≠ 0 then toInt32 (env.items lid).charges else -1
          actionId := match actionId with
            | some v => v
            | none => -1
          text := match text with
            | some t => t
            | none => "" }
/-- Embedding of `Pokemons::loadLootContainer`: the accepted child nodes, in
order. -/
def loadLootContainer (env : Env) (children : List LootNode) : List LootBlock :=
  match children with
  | [] => []
  | sub :: rest =>
    match loadLootItem env sub with
    | some lootBlock => lootBlock :: loadLootContainer env rest
    | none => loadLootContainer env rest
end

/-- The `loot` section of `loadPokemon`: the accepted nodes, in order, appended
to the table. -/
def loadLootSection (env : Env) (nodes : List LootNode) (lootItems : List LootBlock) :
    List LootBlock :=
  lootItems ++ nodes.filterMap (loadLootItem env)

/-! ## Move compilation -/

/-- The damage categories of a combat (`CombatType_t`). -/
inductive CombatType where
  | COMBAT_NONE | COMBAT_PHYSICALDAMAGE | COMBAT_ENERGYDAMAGE | COMBAT_EARTHDAMAGE
  | COMBAT_FIREDAMAGE | COMBAT_LIFEDRAIN | COMBAT_HEALING | COMBAT_DROWNDAMAGE
  | COMBAT_ICEDAMAGE | COMBAT_HOLYDAMAGE | COMBAT_DEATHDAMAGE
  deriving DecidableEq

/-- The condition categories that `deserializeMove` uses (`ConditionType_t`). -/
inductive ConditionType where
  | CONDITION_NONE | CONDITION_POISON | CONDITION_FIRE | CONDITION_ENERGY
  | CONDITION_BLEEDING | CONDITION_HASTE | CONDITION_PARALYZE | CONDITION_OUTFIT
  | CONDITION_INVISIBLE | CONDITION_DRUNK | CONDITION_DROWN | CONDITION_FREEZING
  | CONDITION_DAZZLED | CONDITION_CURSED
  deriving DecidableEq

/-- The origins that `deserializeMove` sets. -/
inductive CombatOrigin where
  | ORIGIN_MELEE | ORIGIN_RANGED
  deriving DecidableEq

/-- The field items that `deserializeMove` places. -/
inductive FieldItem where
  | ITEM_FIREFIELD_PVP_FULL | ITEM_POISONFIELD_PVP | ITEM_ENERGYFIELD_PVP
  deriving DecidableEq

/-- The appearance record `Outfit_t`. -/
structure Outfit where
  lookType : Nat := 0
  lookTypeEx : Nat := 0
  lookHead : Nat := 0
  lookBody : Nat := 0
  lookLegs : Nat := 0
  lookFeet : Nat := 0
  lookAddons : Nat := 0
  lookMount : Nat := 0
  deriving DecidableEq

/-- Modelled from the spec: the time-based condition attached to a combat
effect (category, tick interval or duration, magnitude).  `damage` is what
`getDamageCondition` builds; `speed` carries the `speedChange` whose thousandth
is passed to `setFormulaVars`. -/
inductive Condition where
  | damage (conditionType : ConditionType) (maxDamage minDamage startDamage : Int)
      (tickInterval : Nat)
  | speed (conditionType : ConditionType) (duration : Int) (speedChange : Int)
  | outfit (duration : Int) (outfit : Outfit)
  | timed (conditionType : ConditionType) (duration : Int)
  deriving DecidableEq

/-- The area of a combat: `setupArea(length, spread)` or `setupArea(radius)`. -/
inductive AreaCombat where
  | line (length spread : Int)
  | circle (radius : Int)
  deriving DecidableEq

/-- Modelled from the spec: the combat effect (`Combat`), as far as
`deserializeMove` writes it.  `formula` holds `(mina, minb, maxa, maxb)` of
`setPlayerCombatValues(COMBAT_FORMULA_DAMAGE, ...)`. -/
structure Combat where
  area : Option AreaCombat := none
  combatType : CombatType := CombatType.COMBAT_NONE
  blockArmor : Bool := false
  blockShield : Bool := false
  aggressive : Bool := true
  origin : Option CombatOrigin := none
  createItem : Option FieldItem := none
  distanceEffect : Option Nat := none
  effect : Option Nat := none
  conditions : List Condition := []
  formula : Option (Int × Int × Int × Int) := none
  deriving DecidableEq

namespace Combat

/-- The call `setPlayerCombatValues(COMBAT_FORMULA_DAMAGE, mina, minb, maxa, maxb)`. -/
def setPlayerCombatValues (c : Combat) (mina minb maxa maxb : Int) : Combat :=
  { c with formula := some (mina, minb, maxa, maxb) }

/-- The call `addCondition`. -/
def addCondition (c : Combat) (condition : Condition) : Combat :=
  { c with conditions := condition :: c.conditions }

end Combat

/-- The move object of a binding (`CombatMove`): its combat, the two flags and
the script it was loaded from, if any. -/
structure CombatMove where
  combat : Combat
  needTarget : Bool
  needDirection : Bool
  script : Option String := none
  deriving DecidableEq

/-- What `moveBlock_t::move` points to: nothing, a move of the shared catalogue
(not owned), or a compiled move of its own. -/
inductive MoveRef where
  | null
  | shared (move : Nat)
  | owned (combatMove : CombatMove)
  deriving DecidableEq

/-- The move binding `moveBlock_t`. -/
structure moveBlock_t where
  move : MoveRef := MoveRef.null
  chance : Nat := 100
  speed : Nat := 2000
  range : Nat := 0
  minCombatValue : Int := 0
  maxCombatValue : Int := 0
  combatMove : Bool := false
  isMelee : Bool := false
  deriving DecidableEq

/-- A child node of a move descriptor: its `key` and `value` attributes. -/
structure MoveAttributeNode where
  key : Option String := none
  value : Option String := none
  deriving DecidableEq

/-- A move descriptor: the attributes `deserializeMove` reads, each as the cast
the source applies to it yields it (`none` for an absent attribute), and the
child nodes. -/
structure MoveNode where
  script : Option String := none
  name : Option String := none
  speed : Option Int := none
  interval : Option Int := none
  chance : Option Nat := none
  range : Option Nat := none
  min : Option Int := none
  max : Option Int := none
  direction : Option Bool := none
  target : Option Bool := none
  length : Option Int := none
  spread : Option Int := none
  radius : Option Int := none
  attack : Option Int := none
  skill : Option Int := none
  fire : Option Int := none
  poison : Option Int := none
  energy : Option Int := none
  drown : Option Int := none
  freeze : Option Int := none
  dazzle : Option Int := none
  curse : Option Int := none
  bleed : Option Int := none
  physical : Option Int := none
  tick : Option Int := none
  duration : Option Int := none
  speedchange : Option Int := none
  start : Option Int := none
  pokemon : Option String := none
  item : Option Nat := none
  children : List MoveAttributeNode := []
  deriving DecidableEq

/-- The collaborators of the move compiler. -/
structure MoveEnv where
  /-- The catalogue lookup `g_moves->getMoveByName`. -/
  getMoveByName : String → Option Nat
  /-- The text of `g_moves->getScriptBaseName()`. -/
  scriptBaseName : String
  /-- Whether `CombatMove::loadScript` succeeds on a path. -/
  loadScript : String → Bool
  /-- The combat that `CombatMove::loadScriptCombat` obtains from the script at
  a path; `none` is failure. -/
  loadScriptCombat : String → Option Combat
  /-- The constant `Map::maxViewportX`. -/
  maxViewportX : Nat
  /-- The state of a `new Combat`. -/
  freshCombat : Combat
  /-- The lookup `getShootType`; `none` is `CONST_ANI_NONE`. -/
  getShootType : String → Option Nat
  /-- The lookup `getMagicEffect`; `none` is `CONST_ME_NONE`. -/
  getMagicEffect : String → Option Nat

/-- Embedding of `Pokemons::getDamageCondition`. -/
def getDamageCondition (conditionType : ConditionType) (maxDamage minDamage startDamage : Int)
    (tickInterval : Nat) : Condition :=
  Condition.damage conditionType maxDamage minDamage startDamage tickInterval

/-- The attributes every descriptor may carry (`speed`/`interval`, `chance`,
`range`, `min`, `max`) written into the binding, with the normalisation that
follows the `max` attribute. -/
def readMoveAttributes (env : MoveEnv) (node : MoveNode) (sb : moveBlock_t) : moveBlock_t :=
  let sb1 := match node.speed.orElse (fun _ => node.interval) with
    | some v => { sb with speed := toUInt32 (max 1 v) }
    | none => sb
  let sb2 := match node.chance with
    | some chance => { sb1 with chance := if chance > 100 then 100 else chance }
    | none => sb1
  let sb3 := match node.range with
    | some range =>
      { sb2 with range := if range > env.maxViewportX * 2 then env.maxViewportX * 2 else range }
    | none => sb2
  let sb4 := match node.min with
    | some v => { sb3 with minCombatValue := v }
    | none => sb3
  match node.max with
  | some v =>
    if abs32 sb4.minCombatValue > abs32 v then
      { sb4 with maxCombatValue := sb4.minCombatValue, minCombatValue := v }
    else { sb4 with maxCombatValue := v }
  | none => sb4

/-- The area of a built-in move: a line for a positive `length`, replaced by a
circle when `radius` is given; with it the two flags. -/
def moveArea (node : MoveNode) (combat : Combat) : Combat × Bool × Bool :=
  let r1 : Combat × Bool := match node.length with
    | some length =>
      if length > 0 then
        let spread := match node.spread with
          | some v => max 0 v
          | none => 3
        ({ combat with area := some (AreaCombat.line length spread) }, true)
      else (combat, false)
    | none => (combat, false)
  match node.radius with
  | some radius =>
    let needTarget := match node.target with
      | some b => b
      | none => false
    ({ r1.1 with area := some (AreaCombat.circle radius) }, needTarget, r1.2)
  | none => (r1.1, false, r1.2)

/-- The tick interval after the optional `tick` attribute, which counts only
when it is greater than 0. -/
def overrideTick (tick : Option Int) (tickInterval : Nat) : Nat :=
  match tick with
  | some value => if value > 0 then value.toNat else tickInterval
  | none => tickInterval

/-- The condition a `melee` descriptor infers from its keyword attribute:
category, damage and default tick interval. -/
def meleeCondition (node : MoveNode) : ConditionType × Int × Nat :=
  match node.fire with
  | some v => (ConditionType.CONDITION_FIRE, v, 9000)
  | none =>
  match node.poison with
  | some v => (ConditionType.CONDITION_POISON, v, 4000)
  | none =>
  match node.energy with
  | some v => (ConditionType.CONDITION_ENERGY, v, 10000)
  | none =>
  match node.drown with
  | some v => (ConditionType.CONDITION_DROWN, v, 5000)
  | none =>
  match node.freeze with
  | some v => (ConditionType.CONDITION_FREEZING, v, 8000)
  | none =>
  match node.dazzle with
  | some v => (ConditionType.CONDITION_DAZZLED, v, 10000)
  | none =>
  match node.curse with
  | some v => (ConditionType.CONDITION_CURSED, v, 4000)
  | none =>
    if node.bleed.isSome ∨ node.physical.isSome then (ConditionType.CONDITION_BLEEDING, 0, 4000)
    else (ConditionType.CONDITION_NONE, 0, 2000)

/-- The `melee` branch of `deserializeMove`, its writes to the binding: the
melee flag, the range `(0, 0)` when both `attack` and `skill` are given, and
range 1. -/
def meleeBlock (node : MoveNode) (sb : moveBlock_t) : moveBlock_t :=
  let sb1 := { sb with isMelee := true }
  let sb2 := if node.attack.isSome ∧ node.skill.isSome then
      { sb1 with minCombatValue := 0, maxCombatValue := 0 }
    else sb1
  { sb2 with range := 1 }

/-- The `melee` branch of `deserializeMove`, its writes to the combat. -/
def meleeCombat (node : MoveNode) (combat : Combat) : Combat :=
  let cond := meleeCondition node
  let tickInterval := overrideTick node.tick cond.2.2
  let c1 := if cond.1 ≠ ConditionType.CONDITION_NONE then
      combat.addCondition (getDamageCondition cond.1 cond.2.1 cond.2.1 0 tickInterval)
    else combat
  { c1 with combatType := CombatType.COMBAT_PHYSICALDAMAGE, blockArmor := true,
            blockShield := true, origin := some CombatOrigin.ORIGIN_MELEE }

/-- The `speed` branch of `deserializeMove`. -/
def speedMove (node : MoveNode) (combat : Combat) : Combat :=
  let duration := match node.duration with
    | some v => v
    | none => 10000
  let speedChange := match node.speedchange with
    | some v => if v < -1000 then -1000 else v
    | none => 0
  if speedChange > 0 then
    { combat with aggressive := false }.addCondition
      (Condition.speed ConditionType.CONDITION_HASTE duration speedChange)
  else
    combat.addCondition (Condition.speed ConditionType.CONDITION_PARALYZE duration speedChange)

/-- The names of the pure-condition moves. -/
def conditionMoveNames : List String :=
  ["firecondition", "energycondition", "earthcondition", "poisoncondition", "icecondition",
   "freezecondition", "deathcondition", "cursecondition", "holycondition", "dazzlecondition",
   "drowncondition", "bleedcondition", "physicalcondition"]

/-- Category and default tick interval of a pure-condition move. -/
def conditionMoveKind (tmpName : String) : ConditionType × Nat :=
  if tmpName = "firecondition" then (ConditionType.CONDITION_FIRE, 10000)
  else if tmpName = "poisoncondition" ∨ tmpName = "earthcondition" then
    (ConditionType.CONDITION_POISON, 4000)
  else if tmpName = "energycondition" then (ConditionType.CONDITION_ENERGY, 10000)
  else if tmpName = "drowncondition" then (ConditionType.CONDITION_DROWN, 5000)
  else if tmpName = "freezecondition" ∨ tmpName = "icecondition" then
    (ConditionType.CONDITION_FREEZING, 10000)
  else if tmpName = "cursecondition" ∨ tmpName = "deathcondition" then
    (ConditionType.CONDITION_CURSED, 4000)
  else if tmpName = "dazzlecondition" ∨ tmpName = "holycondition" then
    (ConditionType.CONDITION_DAZZLED, 10000)
  else if tmpName = "physicalcondition" ∨ tmpName = "bleedcondition" then
    (ConditionType.CONDITION_BLEEDING, 4000)
  else (ConditionType.CONDITION_NONE, 2000)

/-- The pure-condition branch of `deserializeMove`. -/
def conditionMove (node : MoveNode) (tmpName : String) (sb : moveBlock_t) (combat : Combat) :
    Combat :=
  let kind := conditionMoveKind tmpName
  let tickInterval := overrideTick node.tick kind.2
  let minDamage := abs32 sb.minCombatValue
  let maxDamage := abs32 sb.maxCombatValue
  let startDamage := match node.start with
    | some v => if abs32 v ≤ minDamage then abs32 v else 0
    | none => 0
  combat.addCondition (getDamageCondition kind.1 maxDamage minDamage startDamage tickInterval)

/-- The duration of a status move: the `duration` attribute or 10000. -/
def moveDuration (node : MoveNode) : Int :=
  match node.duration with
  | some v => v
  | none => 10000

/-- The `outfit` branch of `deserializeMove`; `getPokemonType` is the registry
lookup `g_pokemons.getPokemonType`, reduced to the outfit of the species it
returns, over the registry state `σ`. -/
def outfitMove {σ : Type} (getPokemonType : String → σ → Option Outfit × σ)
    (node : MoveNode) (combat : Combat) (s : σ) : Combat × σ :=
  match node.pokemon with
  | some pokemon =>
    match getPokemonType pokemon s with
    | (some outfit, s1) =>
      ({ combat with aggressive := false }.addCondition
        (Condition.outfit (moveDuration node) outfit), s1)
    | (none, s1) => (combat, s1)
  | none =>
    match node.item with
    | some item =>
      ({ combat with aggressive := false }.addCondition
        (Condition.outfit (moveDuration node) { lookTypeEx := item }), s)
    | none => (combat, s)

/-- The keyword dispatch of `deserializeMove` for a built-in move named
`tmpName` (already lower-cased), its writes to the combat; `none` is the
"Unknown move name" failure.  `sb` is the binding the pure-condition branch
reads; the only branch that writes the binding is `melee` (`meleeBlock`). -/
def moveKeyword {σ : Type} (getPokemonType : String → σ → Option Outfit × σ)
    (node : MoveNode) (tmpName : String) (sb : moveBlock_t) (combat : Combat) (s : σ) :
    Option Combat × σ :=
  if tmpName = "melee" then (some (meleeCombat node combat), s)
  else if tmpName = "physical" then
    (some { combat with combatType := CombatType.COMBAT_PHYSICALDAMAGE, blockArmor := true,
                        origin := some CombatOrigin.ORIGIN_RANGED }, s)
  else if tmpName = "bleed" then
    (some { combat with combatType := CombatType.COMBAT_PHYSICALDAMAGE }, s)
  else if tmpName = "poison" ∨ tmpName = "earth" then
    (some { combat with combatType := CombatType.COMBAT_EARTHDAMAGE }, s)
  else if tmpName = "fire" then
    (some { combat with combatType := CombatType.COMBAT_FIREDAMAGE }, s)
  else if tmpName = "energy" then
    (some { combat with combatType := CombatType.COMBAT_ENERGYDAMAGE }, s)
  else if tmpName = "drown" then
    (some { combat with combatType := CombatType.COMBAT_DROWNDAMAGE }, s)
  else if tmpName = "ice" then
    (some { combat with combatType := CombatType.COMBAT_ICEDAMAGE }, s)
  else if tmpName = "holy" then
    (some { combat with combatType := CombatType.COMBAT_HOLYDAMAGE }, s)
  else if tmpName = "death" then
    (some { combat with combatType := CombatType.COMBAT_DEATHDAMAGE }, s)
  else if tmpName = "lifedrain" then
    (some { combat with combatType := CombatType.COMBAT_LIFEDRAIN }, s)
  else if tmpName = "healing" then
    (some { combat with combatType := CombatType.COMBAT_HEALING, aggressive := false }, s)
  else if tmpName = "speed" then (some (speedMove node combat), s)
  else if tmpName = "outfit" then
    let r := outfitMove getPokemonType node combat s
    (some r.1, r.2)
  else if tmpName = "invisible" then
    (some ({ combat with aggressive := false }.addCondition
      (Condition.timed ConditionType.CONDITION_INVISIBLE (moveDuration node))), s)
  else if tmpName = "drunk" then
    (some (combat.addCondition
      (Condition.timed ConditionType.CONDITION_DRUNK (moveDuration node))), s)
  else if tmpName = "firefield" then
    (some { combat with createItem := some FieldItem.ITEM_FIREFIELD_PVP_FULL }, s)
  else if tmpName = "poisonfield" then
    (some { combat with createItem := some FieldItem.ITEM_POISONFIELD_PVP }, s)
  else if tmpName = "energyfield" then
    (some { combat with createItem := some FieldItem.ITEM_ENERGYFIELD_PVP }, s)
  else if tmpName ∈ conditionMoveNames then (some (conditionMove node tmpName sb combat), s)
  else if tmpName = "strength" then (some combat, s)
  else if tmpName = "effect" then (some combat, s)
  else (none, s)

/-- The pass over the child nodes of a built-in move: `shooteffect` and
`areaeffect` keys set the two visual cues when the catalogue knows the value;
everything else leaves the combat as it is. -/
def moveEffects (env : MoveEnv) : List MoveAttributeNode → Combat → Combat
  | [], combat => combat
  | attributeNode :: rest, combat =>
    let c1 := match attributeNode.key with
      | some key =>
        if asLowerCaseString key = "shooteffect" then
          match attributeNode.value with
          | some value =>
            match env.getShootType (asLowerCaseString value) with
            | some shoot => { combat with distanceEffect := some shoot }
            | none => combat
          | none => combat
        else if asLowerCaseString key = "areaeffect" then
          match attributeNode.value with
          | some value =>
            match env.getMagicEffect (asLowerCaseString value) with
            | some effect => { combat with effect := some effect }
            | none => combat
          | none => combat
        else combat
      | none => combat
    moveEffects env rest c1

/-- The scripted branch of `deserializeMove`. -/
def scriptedMove (env : MoveEnv) (node : MoveNode) (scriptName : String) (sb : moveBlock_t) :
    Option moveBlock_t :=
  let needDirection := match node.direction with
    | some b => b
    | none => false
  let needTarget := match node.target with
    | some b => b
    | none => false
  let path := "data/" ++ env.scriptBaseName ++ "/scripts/" ++ scriptName
  if env.loadScript path then
    match env.loadScriptCombat path with
    | some combat =>
      some { sb with
        move := MoveRef.owned
          { combat := combat.setPlayerCombatValues sb.minCombatValue 0 sb.maxCombatValue 0,
            needTarget := needTarget, needDirection := needDirection, script := some path },
        combatMove := true }
    | none => none
  else none

/-- Embedding of `Pokemons::deserializeMove`: the binding on success (`none` is
the result `false`) and the registry state afterwards. -/
def deserializeMove {σ : Type} (env : MoveEnv)
    (getPokemonType : String → σ → Option Outfit × σ)
    (node : MoveNode) (sb : moveBlock_t) (s : σ) : Option moveBlock_t × σ :=
  if node.script.isNone ∧ node.name.isNone then (none, s)
  else
    let isScripted := node.script.isSome
    let name := match node.script, node.name with
      | none, some n => n
      | _, _ => ""
    let sb1 := readMoveAttributes env node sb
    match env.getMoveByName name with
    | some move => (some { sb1 with move := MoveRef.shared move }, s)
    | none =>
      if isScripted then
        (scriptedMove env node (node.script.getD "") sb1, s)
      else
        let a := moveArea node env.freshCombat
        let tmpName := asLowerCaseString name
        let sb2 := if tmpName = "melee" then meleeBlock node sb1 else sb1
        match moveKeyword getPokemonType node tmpName sb1 a.1 s with
        | (none, s1) => (none, s1)
        | (some combat, s1) =>
          let c1 := combat.setPlayerCombatValues sb2.minCombatValue 0 sb2.maxCombatValue 0
          let c2 := moveEffects env node.children c1
          (some { sb2 with
            move := MoveRef.owned
              { combat := c2, needTarget := a.2.1, needDirection := a.2.2 },
            combatMove := true }, s1)

/-- The names the keyword dispatch of `deserializeMove` knows. -/
def moveKeywords : List String :=
  ["melee", "physical", "bleed", "poison", "earth", "fire", "energy", "drown", "ice", "holy",
   "death", "lifedrain", "healing", "speed", "outfit", "invisible", "drunk", "firefield",
   "poisonfield", "energyfield"] ++ conditionMoveNames ++ ["strength", "effect"]

/-- Whether `deserializeMove` accepts a descriptor: its verdict with a registry
lookup that finds nothing (the verdict does not depend on the lookup, see
`deserializeMove_isSome`). -/
def moveAccepted (env : MoveEnv) (node : MoveNode) : Bool :=
  (deserializeMove env (fun (_ : String) (u : Unit) => ((none : Option Outfit), u)) node {} ()).1.isSome

/-! ## Species definitions and the registry -/

/-- The behaviour flags of a species (`info` fields written by the `flags`
section). -/
structure PokemonFlags where
  isCatchable : Bool
  isAttackable : Bool
  isHostile : Bool
  isGhost : Bool
  isIllusionable : Bool
  isConvinceable : Bool
  pushable : Bool
  canPushItems : Bool
  canPushCreatures : Bool
  staticAttackChance : Nat
  lightLevel : Nat
  lightColor : Nat
  targetDistance : Int
  runAwayHealth : Int
  hiddenHealth : Bool
  canWalkOnEnergy : Bool
  canWalkOnFire : Bool
  canWalkOnPoison : Bool
  deriving DecidableEq

/-- The part of `PokemonType::info` that the embedded sections of `loadPokemon`
write: appearance, flags, move lists, defence values and loot table. -/
structure PokemonInfo where
  outfit : Outfit
  lookcorpse : Nat
  flags : PokemonFlags
  attackMoves : List moveBlock_t
  defenseMoves : List moveBlock_t
  defense : Int
  armor : Int
  lootItems : List LootBlock

/-- A species definition (`PokemonType`). -/
structure PokemonType where
  name : String
  typeName : String
  nameDescription : String
  info : PokemonInfo

/-- A flag node: the name of its first attribute and the readings of that
attribute's value that the `flags` section takes. -/
structure FlagNode where
  attrName : String
  asBool : Bool := false
  asUInt32 : Nat := 0
  asUInt16 : Nat := 0
  asInt32 : Int := 0
  deriving DecidableEq

/-- The `look` node of a species definition. -/
structure LookNode where
  type : Option Nat := none
  head : Option Nat := none
  body : Option Nat := none
  legs : Option Nat := none
  feet : Option Nat := none
  addons : Option Nat := none
  typeex : Option Nat := none
  mount : Option Nat := none
  corpse : Option Nat := none
  deriving DecidableEq

/-- The `defenses` node of a species definition. -/
structure DefensesNode where
  defense : Option Int := none
  armor : Option Int := none
  children : List MoveNode := []

/-- The `pokemon` node of a definition file, with the sections embedded here. -/
structure PokemonNode where
  name : Option String := none
  nameDescription : Option String := none
  flags : Option (List FlagNode) := none
  look : Option LookNode := none
  attacks : Option (List MoveNode) := none
  defenses : Option DefensesNode := none
  loot : Option (List LootNode) := none

/-- The registry `Pokemons`: the loaded species and the unloaded locators, both
keyed by lower-cased name, and the `loaded` flag. -/
structure Pokemons where
  pokemons : List (String × PokemonType) := []
  unloadedPokemons : List (String × String) := []
  loaded : Bool := false

/-- The collaborators of the species loader. -/
structure SpeciesEnv where
  /-- The move compiler's collaborators. -/
  moves : MoveEnv
  /-- The loot loader's collaborators. -/
  loot : Env
  /-- The result of `doc.load_file(file)` followed by `doc.child("pokemon")`:
  `none` when the file cannot be read or parsed, `some none` when it has no
  `pokemon` node. -/
  loadFile : String → Option (Option PokemonNode)
  /-- The flags of a value-initialised `info`. -/
  freshFlags : PokemonFlags
  /-- A default-constructed `moveBlock_t`. -/
  freshMoveBlock : moveBlock_t

/-- A value-initialised `info` (`info = {}`, and the `info` of a new map entry). -/
def freshInfo (env : SpeciesEnv) : PokemonInfo :=
  { outfit := {}, lookcorpse := 0, flags := env.freshFlags, attackMoves := [],
    defenseMoves := [], defense := 0, armor := 0, lootItems := [] }

/-- A default-constructed `PokemonType` (the entry `pokemons[key]` creates). -/
def freshType (env : SpeciesEnv) : PokemonType :=
  { name := "", typeName := "", nameDescription := "", info := freshInfo env }

namespace Pokemons

/-- The lookup `pokemons.find(key)`. -/
def find (reg : Pokemons) (key : String) : Option PokemonType :=
  reg.pokemons.lookup key

/-- Replacement of the value stored under `key`, or insertion of a new entry. -/
def setEntry : List (String × PokemonType) → String → PokemonType → List (String × PokemonType)
  | [], key, t => [(key, t)]
  | (k, v) :: rest, key, t =>
    if k = key then (k, t) :: rest else (k, v) :: setEntry rest key t

/-- Assignment to the entry of `key` in the loaded map. -/
def set (reg : Pokemons) (key : String) (t : PokemonType) : Pokemons :=
  { reg with pokemons := setEntry reg.pokemons key t }

/-- In-place update of the entry of `key`, through the pointer `mType`. -/
def modify (reg : Pokemons) (key : String) (f : PokemonType → PokemonType) : Pokemons :=
  match reg.find key with
  | some t => reg.set key (f t)
  | none => reg

end Pokemons

/-- One iteration of the `flags` loop of `loadPokemon`. -/
def loadFlag (flagNode : FlagNode) (f : PokemonFlags) : PokemonFlags :=
  let attrName := asLowerCaseString flagNode.attrName
  if attrName = "catchable" then { f with isCatchable := flagNode.asBool }
  else if attrName = "attackable" then { f with isAttackable := flagNode.asBool }
  else if attrName = "hostile" then { f with isHostile := flagNode.asBool }
  else if attrName = "ghost" then { f with isGhost := flagNode.asBool }
  else if attrName = "illusionable" then { f with isIllusionable := flagNode.asBool }
  else if attrName = "convinceable" then { f with isConvinceable := flagNode.asBool }
  else if attrName = "pushable" then { f with pushable := flagNode.asBool }
  else if attrName = "canpushitems" then { f with canPushItems := flagNode.asBool }
  else if attrName = "canpushcreatures" then { f with canPushCreatures := flagNode.asBool }
  else if attrName = "staticattack" then
    { f with staticAttackChance := if flagNode.asUInt32 > 100 then 100 else flagNode.asUInt32 }
  else if attrName = "lightlevel" then { f with lightLevel := flagNode.asUInt16 }
  else if attrName = "lightcolor" then { f with lightColor := flagNode.asUInt16 }
  else if attrName = "targetdistance" then { f with targetDistance := max 1 flagNode.asInt32 }
  else if attrName = "runonhealth" then { f with runAwayHealth := flagNode.asInt32 }
  else if attrName = "hidehealth" then { f with hiddenHealth := flagNode.asBool }
  else if attrName = "canwalkonenergy" then { f with canWalkOnEnergy := flagNode.asBool }
  else if attrName = "canwalkonfire" then { f with canWalkOnFire := flagNode.asBool }
  else if attrName = "canwalkonpoison" then { f with canWalkOnPoison := flagNode.asBool }
  else f

/-- The `flags` section of `loadPokemon`: the loop over the flag nodes, then the
rule that a species which can push creatures is not pushable. -/
def loadFlags (flags : Option (List FlagNode)) (f : PokemonFlags) : PokemonFlags :=
  match flags with
  | some nodes =>
    let f1 := nodes.foldl (fun acc flagNode => loadFlag flagNode acc) f
    if f1.canPushCreatures then { f1 with pushable := false } else f1
  | none => f

/-- The `look` section of `loadPokemon`. -/
def loadLook (look : Option LookNode) (info : PokemonInfo) : PokemonInfo :=
  match look with
  | some node =>
    let o1 : Outfit := match node.type with
      | some t =>
        let a : Outfit := { info.outfit with lookType := t }
        let b : Outfit := match node.head with | some v => { a with lookHead := v } | none => a
        let c : Outfit := match node.body with | some v => { b with lookBody := v } | none => b
        let d : Outfit := match node.legs with | some v => { c with lookLegs := v } | none => c
        let e : Outfit := match node.feet with | some v => { d with lookFeet := v } | none => d
        match node.addons with | some v => { e with lookAddons := v } | none => e
      | none =>
        match node.typeex with
        | some v => { info.outfit with lookTypeEx := v }
        | none => info.outfit
    let o2 : Outfit := match node.mount with | some v => { o1 with lookMount := v } | none => o1
    { info with outfit := o2,
                lookcorpse := match node.corpse with | some v => v | none => info.lookcorpse }
  | none => info

/-- The addition of an accepted binding to the attack list (`attack = true`)
or to the defence list of a species. -/
def pushMove (attack : Bool) (sb : moveBlock_t) (t : PokemonType) : PokemonType :=
  if attack then { t with info := { t.info with attackMoves := t.info.attackMoves ++ [sb] } }
  else { t with info := { t.info with defenseMoves := t.info.defenseMoves ++ [sb] } }

/-- The loop of the `attacks` section (`attack = true`) or of the `defenses`
section over the move descriptors: every accepted binding is appended, through
`mType`, to the list of the entry `key`. -/
def loadMoveList (env : SpeciesEnv)
    (getPokemonType : String → Pokemons → Option Outfit × Pokemons)
    (key : String) (attack : Bool) : List MoveNode → Pokemons → Pokemons
  | [], reg => reg
  | node :: rest, reg =>
    match deserializeMove env.moves getPokemonType node env.freshMoveBlock reg with
    | (some sb, reg1) =>
      loadMoveList env getPokemonType key attack rest (reg1.modify key (pushMove attack sb))
    | (none, reg1) => loadMoveList env getPokemonType key attack rest reg1

/-- The `attacks` section of `loadPokemon`. -/
def loadAttacks (env : SpeciesEnv)
    (getPokemonType : String → Pokemons → Option Outfit × Pokemons)
    (key : String) (attacks : Option (List MoveNode)) (reg : Pokemons) : Pokemons :=
  match attacks with
  | some nodes => loadMoveList env getPokemonType key true nodes reg
  | none => reg

/-- The `defenses` section of `loadPokemon`: the two attributes, then the loop
over the descriptors. -/
def loadDefenses (env : SpeciesEnv)
    (getPokemonType : String → Pokemons → Option Outfit × Pokemons)
    (key : String) (defenses : Option DefensesNode) (reg : Pokemons) : Pokemons :=
  match defenses with
  | some node =>
    let r1 := reg.modify key (fun t =>
      { t with info := { t.info with
          defense := match node.defense with | some v => v | none => t.info.defense,
          armor := match node.armor with | some v => v | none => t.info.armor } })
    loadMoveList env getPokemonType key false node.children r1
  | none => reg

/-- The `loot` section of `loadPokemon`. -/
def loadLoot (env : SpeciesEnv) (key : String) (loot : Option (List LootNode))
    (reg : Pokemons) : Pokemons :=
  match loot with
  | some nodes => reg.modify key (fun t =>
      { t with info := { t.info with
          lootItems := loadLootSection env.loot nodes t.info.lootItems } })
  | none => reg

/-- The entry `mType` points to when `loadPokemon` starts filling it: the
loaded species with its `info` reset in reloading mode, the loaded species as it
is otherwise, or a new entry. -/
def targetType (env : SpeciesEnv) (reg : Pokemons) (key : String) (reloading : Bool) :
    PokemonType :=
  match reg.find key with
  | some t => if reloading then { t with info := freshInfo env } else t
  | none => freshType env

/-- The identity and the sections `flags` and `look` of `loadPokemon`, which
come before the move lists. -/
def loadHeader (pokemonNode : PokemonNode) (name pokemonName : String) (mType : PokemonType) :
    PokemonType :=
  let info1 := { mType.info with flags := loadFlags pokemonNode.flags mType.info.flags }
  { name := name, typeName := pokemonName,
    nameDescription := match pokemonNode.nameDescription with
      | some d => d
      | none => "a " ++ asLowerCaseString name,
    info := loadLook pokemonNode.look info1 }

/-- Embedding of `Pokemons::loadPokemon` for the sections `flags`, `look`,
`attacks`, `defenses` and `loot` (the other sections store attributes that no
function of this file reads back).  `getPokemonType` is the re-entrant registry
lookup that the `outfit` move makes.  The result is the species on success and
the registry afterwards. -/
def loadPokemon (env : SpeciesEnv)
    (getPokemonType : String → Pokemons → Option Outfit × Pokemons)
    (file pokemonName : String) (reloading : Bool) (reg : Pokemons) :
    Option PokemonType × Pokemons :=
  match env.loadFile file with
  | none => (none, reg)
  | some none => (none, reg)
  | some (some pokemonNode) =>
    match pokemonNode.name with
    | none => (none, reg)
    | some name =>
      let key := asLowerCaseString pokemonName
      let mType := loadHeader pokemonNode name pokemonName (targetType env reg key reloading)
      let reg1 := reg.set key mType
      let reg2 := loadAttacks env getPokemonType key pokemonNode.attacks reg1
      let reg3 := loadDefenses env getPokemonType key pokemonNode.defenses reg2
      let reg4 := loadLoot env key pokemonNode.loot reg3
      (reg4.find key, reg4)

/-- The outfit of the species that a registry lookup returns. -/
def outfitOf (r : Option PokemonType × Pokemons) : Option Outfit × Pokemons :=
  (r.1.map (fun t => t.info.outfit), r.2)

/-- Embedding of `Pokemons::getPokemonType`.  A load nests inside another when
an `outfit` move of the species being compiled names a species that is
registered but not loaded yet; `depth` bounds that nesting, and a lookup nested
deeper than `depth` loads answers from the loaded map only. -/
def getPokemonType (env : SpeciesEnv) : Nat → String → Pokemons → Option PokemonType × Pokemons
  | 0, name, reg => (reg.find (asLowerCaseString name), reg)
  | depth + 1, name, reg =>
    match reg.find (asLowerCaseString name) with
    | some t => (some t, reg)
    | none =>
      match reg.unloadedPokemons.lookup (asLowerCaseString name) with
      | none => (none, reg)
      | some file =>
        loadPokemon env (fun n r => outfitOf (getPokemonType env depth n r)) file name false reg

/-- The registry lookup as the `outfit` move uses it: the outfit of the species
that `getPokemonType` returns. -/
def lookupOutfit (env : SpeciesEnv) (depth : Nat) : String → Pokemons → Option Outfit × Pokemons :=
  fun n r => outfitOf (getPokemonType env depth n r)

/-- The number of registered names that are not loaded.  Every nested load
takes one of them into the loaded map, so no chain of nested loads is longer
(`getPokemonType_stable`). -/
def pendingLoads (reg : Pokemons) : Nat :=
  (reg.unloadedPokemons.map Prod.fst).countP (fun k => (reg.find k).isNone)

/-- An entry of the species manifest: its `name` and `file` attributes as
`as_string()` reads them (the empty text for an absent attribute). -/
structure ManifestNode where
  name : String
  file : String
  deriving DecidableEq

/-- The call `unloadedPokemons.emplace(name, file)` on the map of locators: a
name that is registered already keeps its locator. -/
def emplace (m : List (String × String)) (name file : String) : List (String × String) :=
  match m.lookup name with
  | some _ => m
  | none => m ++ [(name, file)]

/-- The body of the loop of `loadFromXml` for one manifest entry: in reloading
mode a species that is in the loaded map is loaded again in place, every other
entry is registered in the unloaded map. -/
def loadFromXmlNode (env : SpeciesEnv) (depth : Nat) (reloading : Bool) (reg : Pokemons)
    (pokemonNode : ManifestNode) : Pokemons :=
  let name := asLowerCaseString pokemonNode.name
  let file := "data/pokemons/" ++ pokemonNode.file
  if reloading = true ∧ (reg.find name).isSome then
    (loadPokemon env (lookupOutfit env depth) file name true reg).2
  else { reg with unloadedPokemons := emplace reg.unloadedPokemons name file }

/-- Embedding of `Pokemons::loadFromXml`.  `doc` is the manifest as
`doc.load_file` delivers it: `none` when the file cannot be read or parsed,
otherwise the children of its `pokemons` node.  `depth` bounds the nesting of
loads as in `getPokemonType`.  The result is the return value and the registry
afterwards. -/
def loadFromXml (env : SpeciesEnv) (depth : Nat) (doc : Option (List ManifestNode))
    (reloading : Bool) (reg : Pokemons) : Bool × Pokemons :=
  match doc with
  | none => (false, { reg with unloadedPokemons := [] })
  | some nodes =>
    (true, nodes.foldl (loadFromXmlNode env depth reloading)
      { reg with unloadedPokemons := [], loaded := true })

/-- Embedding of `Pokemons::reload`, as far as the registry goes (the script
interface it resets is not part of the embedded state). -/
def reload (env : SpeciesEnv) (depth : Nat) (doc : Option (List ManifestNode))
    (reg : Pokemons) : Bool × Pokemons :=
  loadFromXml env depth doc true { reg with loaded := false }

mutual
/-- Whether an entry of a loot table and every entry nested in it, at every
depth, has `countmax ≥ 1` (the divisor of the modulo in `createLootItem`). -/
def countmaxPositive : LootBlock → Bool
  | ⟨_, countmax, _, _, _, _, childLoot⟩ =>
    decide (1 ≤ countmax) && countmaxPositiveList childLoot
/-- Whether `countmaxPositive` holds for every entry of a list. -/
def countmaxPositiveList : List LootBlock → Bool
  | [] => true
  | c :: cs => countmaxPositive c && countmaxPositiveList cs
end

mutual
/-- Whether every `countmax` attribute of a loot node and of the nodes below it
is an `int32_t` value, as `pugi::cast<int32_t>` yields it. -/
def countmaxIsInt32 : LootNode → Bool
  | ⟨_, _, countmax, _, _, _, _, _, children⟩ =>
    (match countmax with
      | some v => decide (-2147483648 ≤ v ∧ v < 2147483648)
      | none => true) && countmaxIsInt32List children
/-- Whether `countmaxIsInt32` holds for every node of a list. -/
def countmaxIsInt32List : List LootNode → Bool
  | [] => true
  | c :: cs => countmaxIsInt32 c && countmaxIsInt32List cs
end

/-! ## Sample inputs -/

/-- A small world: every raw draw is `raw`, item `20` is stackable, the factory
always delivers, the game refuses an item when the corpse is full, and creature
`7` is a player without a party. -/
def sampleEnv (stamina : Nat) (rate : Int) (raw : Int) : Env where
  MAX_LOOTCHANCE := 100000
  RATE_LOOT := rate
  uniform_random := fun _ => raw
  items := fun id => { stackable := id = 20 }
  CreateItem := fun id n => some { id := id, count := n, itemlist := [] }
  internalAddItem := fun c i => if c.size < c.capacity then some (c.internalAddThing i) else none
  getPlayerByID := fun k => if k = 7 then some { id := 7, staminaMinutes := stamina } else none
  getContentDescription := fun c => toString c.size
  nameToItems := fun s => if s = "potion" then [20] else if s = "berry" then [30, 31] else []

/-- An empty corpse of capacity 1 owned by creature `owner`. -/
def sampleCorpse (owner : Nat) : Item :=
  { id := 3000, count := 1, container := true, capacity := 1, corpseOwner := owner, itemlist := [] }

/-- Entry `A`, declared first: item 11, certain, not stackable. -/
def entryA : LootBlock := { id := 11, countmax := 1, chance := 100000, childLoot := [] }

/-- Entry `B`, declared second: item 12, certain, not stackable. -/
def entryB : LootBlock := { id := 12, countmax := 1, chance := 100000, childLoot := [] }

/-- Entry `X` of the scenario: stackable item 20, chance `MAX_LOOTCHANCE`,
`countmax = 5`. -/
def entryX : LootBlock := { id := 20, countmax := 5, chance := 100000, childLoot := [] }

/-- The sample world with a bag: item `40` is a container of capacity 1, made
empty by the factory; everything else is as in `sampleEnv`. -/
def bagEnv (stamina : Nat) (rate : Int) (raw : Int) : Env :=
  { sampleEnv stamina rate raw with
    items := fun id => { stackable := id = 20, isContainer := id = 40 }
    CreateItem := fun id n =>
      some { id := id, count := n, container := id = 40,
             capacity := if id = 40 then 1 else 0, itemlist := [] } }

/-- An empty bag of capacity 1. -/
def sampleBag : Item :=
  { id := 40, count := 1, container := true, capacity := 1, itemlist := [] }

/-- A bag entry without nested entries. -/
def bareBagEntry : LootBlock := { id := 40, countmax := 1, chance := 100000, childLoot := [] }

/-- A stackable entry that yields up to 250 units, that is up to three items. -/
def coinEntry : LootBlock := { id := 20, countmax := 250, chance := 100000, childLoot := [] }

/-- A bag entry with the two nested entries `coinEntry` and `A`. -/
def coinBagEntry : LootBlock :=
  { id := 40, countmax := 1, chance := 100000, childLoot := [coinEntry, entryA] }

/-- A bag entry whose only nested entry never drops. -/
def emptyBagEntry : LootBlock :=
  { id := 40, countmax := 1, chance := 100000,
    childLoot := [{ id := 11, countmax := 1, chance := 0, childLoot := [] }] }

/-- A small move catalogue: `tackle` is a shared move, the script `ember.lua`
loads, the viewport is 8 wide, and the effect catalogues know one name each. -/
def sampleMoveEnv : MoveEnv where
  getMoveByName := fun n => if n = "tackle" then some 1 else none
  scriptBaseName := "moves"
  loadScript := fun path => path = "data/moves/scripts/ember.lua"
  loadScriptCombat := fun path => if path = "data/moves/scripts/ember.lua" then some {} else none
  maxViewportX := 8
  freshCombat := {}
  getShootType := fun n => if n = "fire" then some 4 else none
  getMagicEffect := fun n => if n = "firearea" then some 7 else none

/-- A registry lookup that finds no species. -/
def noLookup (σ : Type) : String → σ → Option Outfit × σ :=
  fun _ s => (none, s)

/-- The descriptor of the normalisation example: `fire` with `min = -50`,
`max = 10`. -/
def fireNode : MoveNode := { name := some "fire", min := some (-50), max := some 10 }

/-- A melee descriptor with `attack` and `skill`, and with `min`/`max` besides. -/
def meleeNode : MoveNode :=
  { name := some "Melee", attack := some 40, skill := some 30, min := some (-50), max := some 10 }

/-- A descriptor with a name that is no keyword. -/
def unknownNode : MoveNode := { name := some "splash", min := some (-5), max := some (-9) }

/-- The flags of a fresh `info` in the samples. -/
def sampleFlags : PokemonFlags :=
  { isCatchable := true, isAttackable := true, isHostile := true, isGhost := false,
    isIllusionable := false, isConvinceable := false, pushable := true, canPushItems := false,
    canPushCreatures := false, staticAttackChance := 95, lightLevel := 0, lightColor := 0,
    targetDistance := 1, runAwayHealth := 0, hiddenHealth := false, canWalkOnEnergy := true,
    canWalkOnFire := true, canWalkOnPoison := true }

/-- An `outfit` descriptor that names the species `Pidgey`. -/
def outfitNode : MoveNode := { name := some "outfit", pokemon := some "Pidgey" }

/-- A species definition that declares the attacks `fire`, `splash` (unknown),
`melee` and `outfit`, and the defence `splash`. -/
def rattataNode : PokemonNode :=
  { name := some "Rattata",
    attacks := some [fireNode, unknownNode, meleeNode, outfitNode],
    defenses := some { children := [unknownNode] } }

/-- A species definition with an appearance and no moves. -/
def pidgeyNode : PokemonNode :=
  { name := some "Pidgey", look := some { type := some 16 } }

/-- A species loader with the two files `data/pokemons/rattata.xml` and
`data/pokemons/pidgey.xml`. -/
def sampleSpeciesEnv : SpeciesEnv where
  moves := sampleMoveEnv
  loot := sampleEnv 900 1 0
  loadFile := fun file =>
    if file = "data/pokemons/rattata.xml" then some (some rattataNode)
    else if file = "data/pokemons/pidgey.xml" then some (some pidgeyNode)
    else none
  freshFlags := sampleFlags
  freshMoveBlock := {}

/-- A registry in which both sample species are registered and none is loaded. -/
def sampleRegistry : Pokemons :=
  { unloadedPokemons := [("rattata", "data/pokemons/rattata.xml"),
                         ("pidgey", "data/pokemons/pidgey.xml")],
    loaded := true }

/-- A registry in which `Rattata` is loaded, with no moves, and nothing is
registered as unloaded. -/
def loadedRegistry : Pokemons :=
  { pokemons := [("rattata", { name := "Rattata", typeName := "rattata",
                               nameDescription := "a rattata",
                               info := freshInfo sampleSpeciesEnv })],
    unloadedPokemons := [],
    loaded := true }

/-- A registry in which a species is registered whose definition file does not
exist. -/
def brokenRegistry : Pokemons :=
  { unloadedPokemons := [("missingno", "data/pokemons/missingno.xml")], loaded := true }

/-- The manifest with the two sample species. -/
def sampleManifest : List ManifestNode :=
  [{ name := "Rattata", file := "rattata.xml" }, { name := "Pidgey", file := "pidgey.xml" }]

/-- A species definition whose flags ask for a pushable species that can push
creatures, the `pushable` flag given before and after `canpushcreatures`. -/
def machopNode : PokemonNode :=
  { name := some "Machop",
    flags := some [{ attrName := "pushable", asBool := true },
                   { attrName := "canPushCreatures", asBool := true },
                   { attrName := "Pushable", asBool := true }] }

/-- The sample loader with the further file `data/pokemons/machop.xml`. -/
def flagsEnv : SpeciesEnv :=
  { sampleSpeciesEnv with
    loadFile := fun file =>
      if file = "data/pokemons/machop.xml" then some (some machopNode)
      else sampleSpeciesEnv.loadFile file }

/-- A `speed` descriptor with chance and range above their limits and a speed
change below the limit. -/
def slowNode : MoveNode :=
  { name := some "Speed", chance := some 250, range := some 99, speedchange := some (-4000),
    duration := some 6000 }

/-- A `speed` descriptor with a positive speed change and no duration. -/
def hasteNode : MoveNode := { name := some "speed", speedchange := some 300 }

/-- A pure-condition descriptor: `FireCondition` with `min = -30`, `max = -10`,
a start damage of 7 and a tick attribute that is not positive. -/
def burnNode : MoveNode :=
  { name := some "FireCondition", min := some (-30), max := some (-10), start := some 7,
    tick := some 0 }

/-- The descriptor `poisoncondition` with a start damage above the minimum and
a positive tick attribute. -/
def venomNode : MoveNode :=
  { name := some "poisoncondition", min := some 5, max := some 20, start := some (-9),
    tick := some 1500 }

/-- A stackable entry whose chance, 3, is smaller than its `countmax`, 5. -/
def rareEntry : LootBlock := { id := 20, countmax := 5, chance := 3, childLoot := [] }

/-- A loot section: a bag (item 40) with `countmax = 0` that holds potions with
`countmax = -7` and a node that is rejected, and coins without `countmax`. -/
def sampleLootNodes : List LootNode :=
  [{ id := some 40, countmax := some 0,
     children := [{ name := some "Potion", countmax := some (-7), children := [] },
                  { name := some "Berry", children := [] }] },
   { id := some 20, children := [] }]

/-- A species loader in which the file of `Rattata` has a `pokemon` node without
a name, the file of `Pidgey` has no `pokemon` node, and no other file can be
read. -/
def namelessEnv : SpeciesEnv :=
  { sampleSpeciesEnv with
    loadFile := fun file =>
      if file = "data/pokemons/rattata.xml" then some (some { look := some { type := some 99 } })
      else if file = "data/pokemons/pidgey.xml" then some none
      else none }

/-- A registry in which `Pidgey` is loaded with an old definition: another
name, a corpse and an armor value. -/
def staleRegistry : Pokemons :=
  { pokemons := [("pidgey", { name := "Old", typeName := "old", nameDescription := "an old",
                              info := ({ freshInfo sampleSpeciesEnv with
                                         lookcorpse := 77, armor := 5 }) })],
    unloadedPokemons := [],
    loaded := true }

/-! ## Theorems -/

/-! ### Draw counting and the record of the walk -/

theorem foldl_snd_le {α : Type} (f : Item × Nat → α → Item × Nat)
    (hf : ∀ acc x, acc.2 ≤ (f acc x).2) (xs : List α) (init : Item × Nat) :
    init.2 ≤ (xs.foldl f init).2 := by
  induction xs generalizing init with
  | nil => simp
  | cons x xs ih => exact le_trans (hf init x) (ih (f init x))

mutual
theorem createLootContainer_drawn_le (env : Env) (parent : Item) (lb : LootBlock)
    (drawn : Nat) : drawn ≤ (createLootContainer env parent lb drawn).2.2 := by
  match lb with
  | ⟨_, _, _, _, _, _, []⟩ => simp [createLootContainer]
  | ⟨_, _, _, _, _, _, c :: cs⟩ =>
    simp only [createLootContainer]
    exact createLootChildren_drawn_le env parent (c :: cs) drawn
theorem createLootChildren_drawn_le (env : Env) (parent : Item)
    (children : List LootBlock) (drawn : Nat) :
    drawn ≤ (createLootChildren env parent children drawn).2 := by
  match children with
  | [] => simp [createLootChildren]
  | c :: cs =>
    simp only [createLootChildren]
    split
    · refine le_trans ?_ (createLootChildren_drawn_le env _ cs _)
      refine le_trans (Nat.le_succ drawn) (foldl_snd_le _ ?_ _ (parent, drawn + 1))
      intro acc x
      dsimp only
      split
      · have h := createLootContainer_drawn_le env x c acc.2
        split <;> exact h
      · exact le_refl _
    · exact le_refl _
end

/-- The inner loop only appends offers of its own entry and never gives a draw
back. -/
theorem addLootItems_log (env : Env) (lb : LootBlock) (items : List Item) (w : Walk) :
    ∃ g : List Item, (addLootItems env lb items w).log = w.log ++ g.map (LootEvent.offer lb) ∧
      w.drawn ≤ (addLootItems env lb items w).drawn := by
  induction items generalizing w with
  | nil => exact ⟨[], by simp [addLootItems]⟩
  | cons item rest ih =>
    simp only [addLootItems]
    have hmono := createLootContainer_drawn_le env item lb w.drawn
    split
    · split
      · obtain ⟨g, hg, hd⟩ := ih
          { corpse := match env.internalAddItem w.corpse (createLootContainer env item lb w.drawn).2.1 with
              | some c => c
              | none => w.corpse.internalAddThing (createLootContainer env item lb w.drawn).2.1,
            drawn := (createLootContainer env item lb w.drawn).2.2,
            log := w.log ++ [LootEvent.offer lb (createLootContainer env item lb w.drawn).2.1] }
        refine ⟨(createLootContainer env item lb w.drawn).2.1 :: g, ?_, le_trans hmono hd⟩
        rw [hg]; simp
      · obtain ⟨g, hg, hd⟩ := ih { w with drawn := (createLootContainer env item lb w.drawn).2.2 }
        exact ⟨g, hg, le_trans hmono hd⟩
    · obtain ⟨g, hg, hd⟩ := ih
        { w with
          corpse := match env.internalAddItem w.corpse item with
            | some c => c
            | none => w.corpse.internalAddThing item,
          log := w.log ++ [LootEvent.offer lb item] }
      refine ⟨item :: g, ?_, hd⟩
      rw [hg]; simp

/-- The outer loop rolls the entries in the order it is given them, each with a
later draw than the one before. -/
theorem lootWalk_log (env : Env) (entries : List LootBlock) (w : Walk) :
    ∃ steps : List (Nat × List Item), steps.length = entries.length ∧
      (lootWalk env entries w).log = w.log ++ walkLog entries steps ∧
      (steps.map Prod.fst).Pairwise (· < ·) ∧
      (∀ k ∈ steps.map Prod.fst, w.drawn ≤ k) ∧
      w.drawn + entries.length ≤ (lootWalk env entries w).drawn := by
  induction entries generalizing w with
  | nil => exact ⟨[], by simp [lootWalk, walkLog]⟩
  | cons lb rest ih =>
    simp only [lootWalk, walkStep]
    obtain ⟨g, hg, hd⟩ := addLootItems_log env lb (createLootItem env lb w.drawn)
      { w with drawn := w.drawn + 1, log := w.log ++ [LootEvent.roll lb w.drawn] }
    obtain ⟨steps, hlen, hlog, hpw, hge, hfin⟩ := ih (addLootItems env lb (createLootItem env lb w.drawn)
      { w with drawn := w.drawn + 1, log := w.log ++ [LootEvent.roll lb w.drawn] })
    refine ⟨(w.drawn, g) :: steps, by simp [hlen], ?_, ?_, ?_, ?_⟩
    · rw [hlog, hg]; simp [walkLog]
    · simp only [List.map_cons, List.pairwise_cons]
      refine ⟨fun k hk => ?_, hpw⟩
      have := hge k hk
      simp only at hd
      omega
    · intro k hk
      simp only [List.map_cons, List.mem_cons] at hk
      rcases hk with rfl | hk
      · exact le_refl _
      · have := hge k hk
        simp only at hd
        omega
    · simp only at hd
      simp only [List.length_cons]
      omega

/-! ### The stamina gate, the notification and the order of the walk -/

/-- C1, as the code has it: with a nonzero loot rate and an existing corpse
owner, stamina at or below 840 minutes skips the walk (no entry is rolled, no
draw is consumed, the corpse is untouched) and delivers exactly the
"nothing (due to low stamina)" message; stamina above 840 minutes walks the whole
table, every entry rolled once, and sends the loot summary of the corpse. -/
theorem createLoot_stamina_gate (env : Env) (name : String) (table : List LootBlock)
    (corpse : Item) (drawn : Nat) (owner : Player)
    (hrate : env.RATE_LOOT ≠ 0)
    (howner : env.getPlayerByID corpse.corpseOwner = some owner) :
    (owner.staminaMinutes ≤ 840 →
      (createLoot env name table corpse drawn).log = [] ∧
      (createLoot env name table corpse drawn).drawn = drawn ∧
      (createLoot env name table corpse drawn).corpse = corpse ∧
      (createLoot env name table corpse drawn).messages =
        [deliverLoot owner (lowStaminaText name)]) ∧
    (840 < owner.staminaMinutes →
      (createLoot env name table corpse drawn).corpse =
        (lootWalk env table.reverse { corpse := corpse, drawn := drawn }).corpse ∧
      (createLoot env name table corpse drawn).messages =
        [deliverLoot owner (lootText env name (createLoot env name table corpse drawn).corpse)] ∧
      ∃ steps : List (Nat × List Item), steps.length = table.length ∧
        (createLoot env name table corpse drawn).log = walkLog table.reverse steps) := by
  constructor
  · intro hlow
    have : ¬ 840 < owner.staminaMinutes := by omega
    simp [createLoot, hrate, howner, this]
  · intro hhigh
    obtain ⟨steps, hlen, hlog, -, -, -⟩ :=
      lootWalk_log env table.reverse { corpse := corpse, drawn := drawn }
    simp only [createLoot, hrate, howner, hhigh, if_true, if_false, true_and]
    exact ⟨steps, by simpa using hlen, by simpa using hlog⟩

/-- Instance of C1 as the code has it: the sample player with 840 stamina
minutes. -/
theorem createLoot_stamina_gate_witness :
    (1 : Int) ≠ 0 ∧ 840 ≤ 840 ∧
      (createLoot (sampleEnv 840 1 0) "a rattata" [entryA, entryB] (sampleCorpse 7) 0).log = [] ∧
      (createLoot (sampleEnv 840 1 0) "a rattata" [entryA, entryB] (sampleCorpse 7) 0).drawn = 0 ∧
      (createLoot (sampleEnv 840 1 0) "a rattata" [entryA, entryB] (sampleCorpse 7) 0).corpse =
        sampleCorpse 7 ∧
      (createLoot (sampleEnv 840 1 0) "a rattata" [entryA, entryB] (sampleCorpse 7) 0).messages =
        [deliverLoot { id := 7, staminaMinutes := 840 } (lowStaminaText "a rattata")] :=
  ⟨by decide, by decide,
    (createLoot_stamina_gate (sampleEnv 840 1 0) "a rattata" [entryA, entryB] (sampleCorpse 7) 0
      { id := 7, staminaMinutes := 840 } (by decide) (by rfl)).1 (by decide)⟩

/-- C1 as stated fails: an owner with 841 stamina minutes gets the table rolled
(two draws, two items in the corpse, the loot summary as message), and an owner
with 840 stamina minutes gets no roll and the low-stamina message. -/
theorem createLoot_high_stamina_rolls :
    (createLoot (sampleEnv 841 1 0) "a rattata" [entryA, entryB] (sampleCorpse 7) 0).drawn = 2 ∧
    (createLoot (sampleEnv 841 1 0) "a rattata" [entryA, entryB] (sampleCorpse 7) 0).corpse.size = 2 ∧
    (createLoot (sampleEnv 841 1 0) "a rattata" [entryA, entryB] (sampleCorpse 7) 0).messages =
      [LootMessage.textMessage 7 "Loot of a rattata: 2"] ∧
    (createLoot (sampleEnv 840 1 0) "a rattata" [entryA, entryB] (sampleCorpse 7) 0).drawn = 0 ∧
    (createLoot (sampleEnv 840 1 0) "a rattata" [entryA, entryB] (sampleCorpse 7) 0).corpse.size = 0 ∧
    (createLoot (sampleEnv 840 1 0) "a rattata" [entryA, entryB] (sampleCorpse 7) 0).messages =
      [LootMessage.textMessage 7 "Loot of a rattata: nothing (due to low stamina)"] := by
  decide

/-- C2, as the code has it: an invocation with a nonzero loot rate and a
resolvable corpse owner delivers exactly one message; an invocation with loot
rate zero, or whose corpse has no resolvable owner, delivers none. -/
theorem createLoot_message_count (env : Env) (name : String) (table : List LootBlock)
    (corpse : Item) (drawn : Nat) :
    (env.RATE_LOOT ≠ 0 → (env.getPlayerByID corpse.corpseOwner).isSome →
      (createLoot env name table corpse drawn).messages.length = 1) ∧
    (env.RATE_LOOT = 0 ∨ env.getPlayerByID corpse.corpseOwner = none →
      (createLoot env name table corpse drawn).messages = []) := by
  constructor
  · intro hrate hsome
    obtain ⟨owner, howner⟩ := Option.isSome_iff_exists.mp hsome
    simp only [createLoot, hrate, howner, if_false]
    split <;> rfl
  · intro h
    by_cases hrate : env.RATE_LOOT = 0
    · simp [createLoot, hrate]
    · rcases h with h | h
      · exact absurd h hrate
      · simp [createLoot, hrate, h]

/-- Instance of C2 as the code has it: the sample player, loot rate 1. -/
theorem createLoot_message_count_witness :
    (1 : Int) ≠ 0 ∧
    (createLoot (sampleEnv 900 1 0) "a rattata" [entryA, entryB] (sampleCorpse 7) 0).messages.length
      = 1 :=
  ⟨by decide,
    (createLoot_message_count (sampleEnv 900 1 0) "a rattata" [entryA, entryB] (sampleCorpse 7) 0).1
      (by decide) (by rfl)⟩

/-- C2 as stated fails: with loot rate zero, and likewise with a corpse whose
owner cannot be resolved, no message is delivered. -/
theorem createLoot_no_message :
    (createLoot (sampleEnv 900 0 0) "a rattata" [entryA, entryB] (sampleCorpse 7) 0).messages.length
      = 0 ∧
    (createLoot (sampleEnv 900 1 0) "a rattata" [entryA, entryB] (sampleCorpse 8) 0).messages.length
      = 0 := by
  decide

/-- C3: on the roll path (nonzero loot rate; no owner, or an owner with more
than 840 stamina minutes) the record of the walk is that of the reversed table:
for a table `[e0, ..., e(n-1)]` the call `createLootItem(e(n-1))` comes first and
`createLootItem(e0)` last, each call uses a later draw than the calls before it,
and the items of an entry are offered to the corpse after that entry's call and
before the call for the next entry. -/
theorem createLoot_reverse_order (env : Env) (name : String) (table : List LootBlock)
    (corpse : Item) (drawn : Nat)
    (hrate : env.RATE_LOOT ≠ 0)
    (hroll : ∀ owner, env.getPlayerByID corpse.corpseOwner = some owner →
      840 < owner.staminaMinutes) :
    ∃ steps : List (Nat × List Item), steps.length = table.length ∧
      (createLoot env name table corpse drawn).log = walkLog table.reverse steps ∧
      (steps.map Prod.fst).Pairwise (· < ·) := by
  obtain ⟨steps, hlen, hlog, hpw, -, -⟩ :=
    lootWalk_log env table.reverse { corpse := corpse, drawn := drawn }
  refine ⟨steps, by simpa using hlen, ?_, hpw⟩
  simp only [createLoot, hrate, if_false]
  cases howner : env.getPlayerByID corpse.corpseOwner with
  | none => simpa using hlog
  | some owner =>
    have := hroll owner howner
    simp only [this, if_true]
    simpa using hlog

/-- Instance of C3: the table `[A, B]` with the sample player at 900 stamina
minutes. -/
theorem createLoot_reverse_order_witness :
    (1 : Int) ≠ 0 ∧
    ∃ steps : List (Nat × List Item), steps.length = [entryA, entryB].length ∧
      (createLoot (sampleEnv 900 1 0) "a rattata" [entryA, entryB] (sampleCorpse 7) 0).log =
        walkLog [entryA, entryB].reverse steps ∧
      (steps.map Prod.fst).Pairwise (· < ·) :=
  ⟨by decide,
    createLoot_reverse_order (sampleEnv 900 1 0) "a rattata" [entryA, entryB] (sampleCorpse 7) 0
      (by decide) (by
        intro owner h
        have h2 : owner = { id := 7, staminaMinutes := 900 } := by
          simpa [sampleEnv, sampleCorpse] using h.symm
        subst h2
        decide)⟩

/-! ### A full corpse does not stop the walk -/

/-- Items that are not containers, offered to a corpse that is already full
while the game refuses insertions into a full corpse, are all force-inserted. -/
theorem addLootItems_full (env : Env) (lb : LootBlock)
    (hfull : ∀ c i, c.capacity ≤ c.size → env.internalAddItem c i = none)
    (items : List Item) (w : Walk)
    (hplain : ∀ i ∈ items, i.container = false)
    (hw : w.corpse.capacity ≤ w.corpse.size) :
    (addLootItems env lb items w).corpse.itemlist = items.reverse ++ w.corpse.itemlist ∧
    (addLootItems env lb items w).drawn = w.drawn ∧
    (addLootItems env lb items w).log = w.log ++ items.map (LootEvent.offer lb) := by
  induction items generalizing w with
  | nil => simp [addLootItems]
  | cons item rest ih =>
    have hitem : item.container = false := hplain item (List.mem_cons_self _ _)
    have hrest : ∀ i ∈ rest, i.container = false :=
      fun i hi => hplain i (List.mem_cons_of_mem _ hi)
    simp only [addLootItems, hitem, hfull w.corpse item hw]
    have hw2 : (w.corpse.internalAddThing item).capacity ≤ (w.corpse.internalAddThing item).size := by
      simp only [Item.internalAddThing, Item.size, List.length_cons]
      simp only [Item.size] at hw
      omega
    obtain ⟨h1, h2, h3⟩ := ih
      { w with corpse := w.corpse.internalAddThing item, log := w.log ++ [LootEvent.offer lb item] }
      hrest hw2
    refine ⟨?_, ?_, ?_⟩
    · simpa [Item.internalAddThing] using h1
    · simpa using h2
    · simpa using h3

/-- C4, as the code has it: for the table `[A, B]` on the roll path, B is
resolved first and A is attempted afterwards even when B's item has filled the
corpse.  With `walkStep env B _` the state after B, a corpse that is full in
that state, a game that refuses insertions into a full corpse and plain
(non-container) items for A: the call `createLootItem(A)` is made with the next
draw, its items are offered, and every one of them ends in the corpse,
force-inserted. -/
theorem createLoot_full_corpse_still_rolls (env : Env) (name : String) (A B : LootBlock)
    (corpse : Item) (drawn : Nat)
    (hrate : env.RATE_LOOT ≠ 0)
    (hroll : ∀ owner, env.getPlayerByID corpse.corpseOwner = some owner →
      840 < owner.staminaMinutes)
    (hfull : ∀ c i, c.capacity ≤ c.size → env.internalAddItem c i = none)
    (hB : (walkStep env B { corpse := corpse, drawn := drawn }).corpse.capacity ≤
      (walkStep env B { corpse := corpse, drawn := drawn }).corpse.size)
    (hA : ∀ i ∈ createLootItem env A (walkStep env B { corpse := corpse, drawn := drawn }).drawn,
      i.container = false) :
    (createLoot env name [A, B] corpse drawn).log =
      (walkStep env B { corpse := corpse, drawn := drawn }).log ++
      LootEvent.roll A (walkStep env B { corpse := corpse, drawn := drawn }).drawn ::
      (createLootItem env A (walkStep env B { corpse := corpse, drawn := drawn }).drawn).map
        (LootEvent.offer A) ∧
    (createLoot env name [A, B] corpse drawn).corpse.itemlist =
      (createLootItem env A (walkStep env B { corpse := corpse, drawn := drawn }).drawn).reverse ++
      (walkStep env B { corpse := corpse, drawn := drawn }).corpse.itemlist ∧
    (createLoot env name [A, B] corpse drawn).drawn =
      (walkStep env B { corpse := corpse, drawn := drawn }).drawn + 1 := by
  generalize hwB : walkStep env B { corpse := corpse, drawn := drawn } = wB at hB hA ⊢
  have hwalk : lootWalk env [A, B].reverse { corpse := corpse, drawn := drawn } =
      addLootItems env A (createLootItem env A wB.drawn)
        { wB with drawn := wB.drawn + 1, log := wB.log ++ [LootEvent.roll A wB.drawn] } := by
    simp only [List.reverse_cons, List.reverse_nil, List.nil_append, List.singleton_append,
      lootWalk, hwB]
    rfl
  obtain ⟨h1, h2, h3⟩ := addLootItems_full env A hfull (createLootItem env A wB.drawn)
    { wB with drawn := wB.drawn + 1, log := wB.log ++ [LootEvent.roll A wB.drawn] } hA hB
  have hout : (createLoot env name [A, B] corpse drawn).log =
        (lootWalk env [A, B].reverse { corpse := corpse, drawn := drawn }).log ∧
      (createLoot env name [A, B] corpse drawn).corpse =
        (lootWalk env [A, B].reverse { corpse := corpse, drawn := drawn }).corpse ∧
      (createLoot env name [A, B] corpse drawn).drawn =
        (lootWalk env [A, B].reverse { corpse := corpse, drawn := drawn }).drawn := by
    simp only [createLoot, hrate, if_false]
    cases howner : env.getPlayerByID corpse.corpseOwner with
    | none => exact ⟨rfl, rfl, rfl⟩
    | some owner =>
      have := hroll owner howner
      simp [this]
  obtain ⟨o1, o2, o3⟩ := hout
  rw [o1, o2, o3, hwalk]
  refine ⟨?_, h1, h2⟩
  rw [h3]; simp

/-- Instance of C4 as the code has it: the table `[A, B]`, a corpse of
capacity 1, every roll succeeding; B's item fills the corpse and A's item is
put on top of it. -/
theorem createLoot_full_corpse_still_rolls_witness :
    (1 : Int) ≠ 0 ∧
    (walkStep (sampleEnv 900 1 0) entryB { corpse := sampleCorpse 7, drawn := 0 }).corpse.capacity ≤
      (walkStep (sampleEnv 900 1 0) entryB { corpse := sampleCorpse 7, drawn := 0 }).corpse.size ∧
    (createLoot (sampleEnv 900 1 0) "a rattata" [entryA, entryB] (sampleCorpse 7) 0).corpse.itemlist =
      (createLootItem (sampleEnv 900 1 0) entryA
        (walkStep (sampleEnv 900 1 0) entryB { corpse := sampleCorpse 7, drawn := 0 }).drawn).reverse ++
      (walkStep (sampleEnv 900 1 0) entryB { corpse := sampleCorpse 7, drawn := 0 }).corpse.itemlist ∧
    (createLoot (sampleEnv 900 1 0) "a rattata" [entryA, entryB] (sampleCorpse 7) 0).drawn =
      (walkStep (sampleEnv 900 1 0) entryB { corpse := sampleCorpse 7, drawn := 0 }).drawn + 1 :=
  ⟨by decide, by decide,
    (createLoot_full_corpse_still_rolls (sampleEnv 900 1 0) "a rattata" entryA entryB
      (sampleCorpse 7) 0 (by decide)
      (by
        intro owner h
        have h2 : owner = { id := 7, staminaMinutes := 900 } := by
          simpa [sampleEnv, sampleCorpse] using h.symm
        subst h2
        decide)
      (by
        intro c i h
        have : ¬ c.size < c.capacity := by omega
        simp [sampleEnv, this])
      (by decide) (by decide)).2⟩

/-- C4 as stated fails: with the table `[A, B]`, a corpse of capacity 1 and both
rolls succeeding, B's item fills the corpse, and still a second draw is taken
(for A) and A's item (id 11) is put into the corpse on top of B's (id 12). -/
theorem createLoot_full_corpse_counterexample :
    (sampleCorpse 7).capacity = 1 ∧
    (createLoot (sampleEnv 900 1 0) "a rattata" [entryB] (sampleCorpse 7) 0).corpse.size = 1 ∧
    (createLoot (sampleEnv 900 1 0) "a rattata" [entryA, entryB] (sampleCorpse 7) 0).drawn = 2 ∧
    (createLoot (sampleEnv 900 1 0) "a rattata" [entryA, entryB] (sampleCorpse 7) 0).corpse.itemlist.map
      Item.id = [11, 12] := by
  decide

/-! ### Quantities -/

/-- C5: for an entry with `countmax ≥ 1` (an `int32_t` value, as the loader
stores it) and a scaled draw that passes the chance test, the quantity lies in
`[1, countmax]` when the item is stackable and is `1` when it is not; a draw
that fails the chance test gives quantity `0`. -/
theorem lootItemCount_bounds (env : Env) (lb : LootBlock) (randvalue : Nat)
    (hmin : 1 ≤ lb.countmax) (hmax : lb.countmax < 2147483648) :
    (randvalue < lb.chance →
      ((env.items lb.id).stackable = true →
        1 ≤ lootItemCount env lb randvalue ∧ lootItemCount env lb randvalue ≤ lb.countmax) ∧
      ((env.items lb.id).stackable = false → lootItemCount env lb randvalue = 1)) ∧
    (¬ randvalue < lb.chance → lootItemCount env lb randvalue = 0) := by
  refine ⟨fun hpass => ⟨fun hst => ?_, fun hst => ?_⟩, fun hfail => ?_⟩
  · have hlt : randvalue % lb.countmax < lb.countmax := Nat.mod_lt _ (by omega)
    simp only [lootItemCount, hpass, hst, if_true, toInt32]
    have h1 : (((randvalue % lb.countmax + 1 : Nat) : Int)) % 4294967296 =
        ((randvalue % lb.countmax + 1 : Nat) : Int) := by
      apply Int.emod_eq_of_lt <;> omega
    rw [h1]
    split <;> omega
  · simp [lootItemCount, hpass, hst]
  · simp [lootItemCount, hfail]

/-- Instance of C5: entry `X` (`countmax = 5`) with the scaled draw 7. -/
theorem lootItemCount_bounds_witness :
    1 ≤ entryX.countmax ∧ entryX.countmax < 2147483648 ∧ 7 < entryX.chance ∧
    (1 ≤ lootItemCount (sampleEnv 900 1 0) entryX 7 ∧
      lootItemCount (sampleEnv 900 1 0) entryX 7 ≤ entryX.countmax) :=
  ⟨by decide, by decide, by decide,
    ((lootItemCount_bounds (sampleEnv 900 1 0) entryX 7 (by decide) (by decide)).1
      (by decide)).1 (by decide)⟩

/-- C6 fails on the code: with loot rate 1 and the raw draw `MAX_LOOTCHANCE`
(the largest value `uniform_random(0, MAX_LOOTCHANCE)` returns), the entry `X`
with `chance = MAX_LOOTCHANCE` and `countmax = 5` fails the test
`randvalue < chance` and yields no item at all; every smaller raw draw, here
`MAX_LOOTCHANCE - 1`, yields between 1 and 5 units. -/
theorem createLootItem_full_chance_miss :
    (sampleEnv 900 1 100000).uniform_random 0 = (sampleEnv 900 1 100000).MAX_LOOTCHANCE ∧
    entryX.chance = (sampleEnv 900 1 100000).MAX_LOOTCHANCE ∧
    (createLootItem (sampleEnv 900 1 100000) entryX 0).length = 0 ∧
    Item.totalCount (createLootItem (sampleEnv 900 1 100000) entryX 0) = 0 ∧
    Item.totalCount (createLootItem (sampleEnv 900 1 99999) entryX 0) = 5 := by
  decide

/-! ### Stored loot chance -/

/-- A chance attribute that is not negative is stored capped at
`MAX_LOOTCHANCE`. -/
theorem lootChance_of_nonneg (env : Env) (v : Int) (chance1 : Option Int)
    (hmax : env.MAX_LOOTCHANCE < 2147483648) (hv : 0 ≤ v) (hv2 : v < 2147483648) :
    lootChance env (some v) chance1 = min env.MAX_LOOTCHANCE v.toNat := by
  have h1 : toInt32 (env.MAX_LOOTCHANCE : Int) = env.MAX_LOOTCHANCE := by
    unfold toInt32
    have : ((env.MAX_LOOTCHANCE : Int)) % 4294967296 = env.MAX_LOOTCHANCE := by
      apply Int.emod_eq_of_lt <;> omega
    rw [this]
    split <;> omega
  simp only [lootChance, Option.orElse, h1, toUInt32]
  have h2 : (min (env.MAX_LOOTCHANCE : Int) v) % 4294967296 = min (env.MAX_LOOTCHANCE : Int) v := by
    apply Int.emod_eq_of_lt <;> omega
  rw [h2]
  omega

/-- C7 fails on the code: the node `id = 20, chance = -1` is accepted and its
chance is stored as `std::min<int32_t>(MAX_LOOTCHANCE, -1) = -1`, which is
`4294967295` in the unsigned comparison of `createLootItem`, above
`MAX_LOOTCHANCE`; so the entry passes the chance test for every draw up to
`MAX_LOOTCHANCE`.  Values above `MAX_LOOTCHANCE` are capped. -/
theorem loadLootItem_negative_chance :
    (loadLootItem (sampleEnv 900 1 0) { id := some 20, chance := some (-1), children := [] }).map
      LootBlock.chance = some 4294967295 ∧
    (sampleEnv 900 1 0).MAX_LOOTCHANCE < 4294967295 ∧
    (loadLootItem (sampleEnv 900 1 0) { id := some 20, chance1 := some (-1), children := [] }).map
      LootBlock.chance = some 4294967295 ∧
    (loadLootItem (sampleEnv 900 1 0) { id := some 20, chance := some 250000, children := [] }).map
      LootBlock.chance = some 100000 := by
  decide

/-! ### Combat values of a move -/

theorem moveEffects_formula (env : MoveEnv) (nodes : List MoveAttributeNode) (combat : Combat) :
    (moveEffects env nodes combat).formula = combat.formula := by
  induction nodes generalizing combat with
  | nil => rfl
  | cons a rest ih =>
    simp only [moveEffects]
    rw [ih]
    split
    · split
      · split
        · split <;> rfl
        · rfl
      · split
        · split
          · split <;> rfl
          · rfl
        · rfl
    · rfl

theorem abs32_eq_abs (v : Int) (h : -2147483648 < v) : abs32 v = |v| := by
  unfold abs32
  split
  · omega
  · rfl

/-- The normalisation that follows the `max` attribute. -/
theorem readMoveAttributes_values (env : MoveEnv) (node : MoveNode) (sb : moveBlock_t)
    (rawMin rawMax : Int) (hmin : node.min = some rawMin) (hmax : node.max = some rawMax) :
    ((readMoveAttributes env node sb).minCombatValue,
      (readMoveAttributes env node sb).maxCombatValue) =
      if abs32 rawMin > abs32 rawMax then (rawMax, rawMin) else (rawMin, rawMax) := by
  simp only [readMoveAttributes, hmin, hmax]
  split <;> rfl

/-- The normalised pair survives to the end of `deserializeMove`: only the
`melee` branch with both `attack` and `skill` overwrites it. -/
theorem deserializeMove_values {σ : Type} (env : MoveEnv)
    (cb : String → σ → Option Outfit × σ) (node : MoveNode) (sb : moveBlock_t) (s : σ)
    (mb : moveBlock_t) (h : (deserializeMove env cb node sb s).1 = some mb)
    (hno : ¬ (node.script = none ∧ asLowerCaseString (node.name.getD "") = "melee" ∧
      node.attack.isSome ∧ node.skill.isSome)) :
    mb.minCombatValue = (readMoveAttributes env node sb).minCombatValue ∧
    mb.maxCombatValue = (readMoveAttributes env node sb).maxCombatValue := by
  unfold deserializeMove at h
  split at h
  · simp at h
  · dsimp only at h
    split at h
    · simp only [Option.some.injEq] at h
      subst h
      exact ⟨rfl, rfl⟩
    · split at h
      · simp only [scriptedMove] at h
        split at h
        · split at h
          · simp only [Option.some.injEq] at h
            subst h
            exact ⟨rfl, rfl⟩
          · simp at h
        · simp at h
      · rename_i hscr
        split at h
        · simp at h
        · simp only [Option.some.injEq] at h
          subst h
          dsimp only
          split
          · rename_i hm
            have hs : node.script = none := by
              cases hn : node.script with
              | none => rfl
              | some v => simp [hn] at hscr
            have hname : (match node.script, node.name with
                | none, some n => n
                | _, _ => "") = node.name.getD "" := by
              rw [hs]
              cases node.name <;> rfl
            rw [hname] at hm
            have hno2 : ¬ (node.attack.isSome = true ∧ node.skill.isSome = true) :=
              fun hh => hno ⟨hs, hm, hh⟩
            simp only [meleeBlock, hno2, if_false]
            exact ⟨trivial, trivial⟩
          · exact ⟨rfl, rfl⟩

/-- C8: for a descriptor carrying `min` and `max` (both above the least
`int32_t`, where `std::abs` is defined), the normalisation stores
`(minCombatValue, maxCombatValue) = (raw max, raw min)` when `|min| > |max|`
and `(raw min, raw max)` otherwise, signs kept; and this pair is the one the
binding has when `deserializeMove` succeeds, the `melee` descriptor with both
`attack` and `skill` apart. -/
theorem deserializeMove_normalization {σ : Type} (env : MoveEnv)
    (cb : String → σ → Option Outfit × σ) (node : MoveNode) (sb : moveBlock_t) (s : σ)
    (rawMin rawMax : Int) (hmin : node.min = some rawMin) (hmax : node.max = some rawMax)
    (h1 : -2147483648 < rawMin) (h2 : -2147483648 < rawMax) :
    ((readMoveAttributes env node sb).minCombatValue,
      (readMoveAttributes env node sb).maxCombatValue) =
      (if |rawMin| > |rawMax| then (rawMax, rawMin) else (rawMin, rawMax)) ∧
    (∀ mb, (deserializeMove env cb node sb s).1 = some mb →
      ¬ (node.script = none ∧ asLowerCaseString (node.name.getD "") = "melee" ∧
        node.attack.isSome ∧ node.skill.isSome) →
      (mb.minCombatValue, mb.maxCombatValue) =
        (if |rawMin| > |rawMax| then (rawMax, rawMin) else (rawMin, rawMax))) := by
  have hv := readMoveAttributes_values env node sb rawMin rawMax hmin hmax
  rw [abs32_eq_abs rawMin h1, abs32_eq_abs rawMax h2] at hv
  refine ⟨hv, fun mb hmb hno => ?_⟩
  obtain ⟨e1, e2⟩ := deserializeMove_values env cb node sb s mb hmb hno
  rw [e1, e2]
  exact hv

/-- Instance of C8: raw `(min = -50, max = 10)` on a `fire` move is stored as
`(min = 10, max = -50)`. -/
theorem deserializeMove_normalization_witness :
    (-2147483648 : Int) < -50 ∧ (-2147483648 : Int) < 10 ∧
    (((readMoveAttributes sampleMoveEnv fireNode {}).minCombatValue,
      (readMoveAttributes sampleMoveEnv fireNode {}).maxCombatValue) =
      (if |(-50 : Int)| > |(10 : Int)| then ((10 : Int), (-50 : Int)) else (-50, 10))) ∧
    ((deserializeMove sampleMoveEnv (noLookup Unit) fireNode {} ()).1.map
      (fun mb => (mb.minCombatValue, mb.maxCombatValue)) = some (10, -50)) :=
  ⟨by decide, by decide,
    (deserializeMove_normalization sampleMoveEnv (noLookup Unit) fireNode {} () (-50) 10
      rfl rfl (by decide) (by decide)).1,
    by decide⟩

/-- C9: a non-scripted descriptor named `melee` (in any letter case) that is
not a shared move of the catalogue and carries both `attack` and `skill` is
accepted, and both the binding and the formula recorded in its compiled combat
have the range `(min = 0, max = 0)`, whatever `min` and `max` it carries. -/
theorem deserializeMove_melee_zero {σ : Type} (env : MoveEnv)
    (cb : String → σ → Option Outfit × σ) (node : MoveNode) (sb : moveBlock_t) (s : σ)
    (n : String) (hscript : node.script = none) (hname : node.name = some n)
    (hmelee : asLowerCaseString n = "melee") (hshared : env.getMoveByName n = none)
    (hattack : node.attack.isSome) (hskill : node.skill.isSome) :
    ∃ mb cm, (deserializeMove env cb node sb s).1 = some mb ∧
      mb.minCombatValue = 0 ∧ mb.maxCombatValue = 0 ∧
      mb.move = MoveRef.owned cm ∧ cm.combat.formula = some (0, 0, 0, 0) := by
  have hk : moveKeyword cb node "melee" (readMoveAttributes env node sb)
      (moveArea node env.freshCombat).1 s =
      (some (meleeCombat node (moveArea node env.freshCombat).1), s) := by
    simp [moveKeyword]
  have hb : (meleeBlock node (readMoveAttributes env node sb)).minCombatValue = 0 ∧
      (meleeBlock node (readMoveAttributes env node sb)).maxCombatValue = 0 := by
    simp [meleeBlock, hattack, hskill]
  have hres : (deserializeMove env cb node sb s).1 =
      some { meleeBlock node (readMoveAttributes env node sb) with
        move := MoveRef.owned
          { combat := moveEffects env node.children
              ((meleeCombat node (moveArea node env.freshCombat).1).setPlayerCombatValues
                (meleeBlock node (readMoveAttributes env node sb)).minCombatValue 0
                (meleeBlock node (readMoveAttributes env node sb)).maxCombatValue 0),
            needTarget := (moveArea node env.freshCombat).2.1,
            needDirection := (moveArea node env.freshCombat).2.2 },
        combatMove := true } := by
    simp [deserializeMove, hscript, hname, hshared, hmelee, hk]
  refine ⟨_, _, hres, hb.1, hb.2, rfl, ?_⟩
  rw [moveEffects_formula]
  simp only [Combat.setPlayerCombatValues, hb.1, hb.2]

/-- Instance of C9: the descriptor `Melee` with `attack = 40`, `skill = 30`,
`min = -50`, `max = 10`. -/
theorem deserializeMove_melee_zero_witness :
    asLowerCaseString "Melee" = "melee" ∧ sampleMoveEnv.getMoveByName "Melee" = none ∧
    ∃ mb cm, (deserializeMove sampleMoveEnv (noLookup Unit) meleeNode {} ()).1 = some mb ∧
      mb.minCombatValue = 0 ∧ mb.maxCombatValue = 0 ∧
      mb.move = MoveRef.owned cm ∧ cm.combat.formula = some (0, 0, 0, 0) :=
  ⟨by decide, by decide,
    deserializeMove_melee_zero sampleMoveEnv (noLookup Unit) meleeNode {} () "Melee"
      rfl rfl (by decide) (by decide) (by decide) (by decide)⟩

/-! ### Acceptance of a descriptor and the move lists of a species -/

theorem ite_some_isSome {α σ : Type} (p : Prop) [Decidable p] (a : α) (s : σ)
    (x : Option α × σ) :
    (if p then (some a, s) else x).1.isSome = (decide p || x.1.isSome) := by
  by_cases h : p <;> simp [h]

/-- Whether the keyword dispatch succeeds depends on the name alone. -/
theorem moveKeyword_isSome {σ τ : Type} (cb : String → σ → Option Outfit × σ)
    (cb2 : String → τ → Option Outfit × τ) (node node2 : MoveNode) (t : String)
    (sb sb2 : moveBlock_t) (c c2 : Combat) (s : σ) (s2 : τ) :
    (moveKeyword cb node t sb c s).1.isSome = (moveKeyword cb2 node2 t sb2 c2 s2).1.isSome := by
  simp only [moveKeyword, ite_some_isSome]

/-- A name outside the keyword table makes the dispatch fail. -/
theorem moveKeyword_unknown {σ : Type} (cb : String → σ → Option Outfit × σ)
    (node : MoveNode) (t : String) (sb : moveBlock_t) (c : Combat) (s : σ)
    (h : t ∉ moveKeywords) : moveKeyword cb node t sb c s = (none, s) := by
  simp only [moveKeywords, conditionMoveNames, List.cons_append, List.nil_append, List.mem_cons,
    List.mem_singleton, not_or, List.mem_nil_iff, or_false] at h
  simp only [moveKeyword, conditionMoveNames, List.mem_cons, List.mem_nil_iff, or_false, h,
    if_false, or_self]

theorem scriptedMove_isSome (env : MoveEnv) (node : MoveNode) (scriptName : String)
    (sb sb2 : moveBlock_t) :
    (scriptedMove env node scriptName sb).isSome = (scriptedMove env node scriptName sb2).isSome := by
  simp only [scriptedMove]
  split
  · split <;> rfl
  · rfl

/-- The verdict of `deserializeMove` depends on the descriptor and the move
catalogue only, not on the registry lookup, the registry state or the binding
it is given. -/
theorem deserializeMove_isSome {σ : Type} (env : MoveEnv)
    (cb : String → σ → Option Outfit × σ) (node : MoveNode) (sb : moveBlock_t) (s : σ) :
    (deserializeMove env cb node sb s).1.isSome = moveAccepted env node := by
  unfold moveAccepted deserializeMove
  split
  · rfl
  · dsimp only
    split
    · rfl
    · split
      · exact scriptedMove_isSome env node _ _ _
      · have hk := moveKeyword_isSome cb (fun (_ : String) (u : Unit) => ((none : Option Outfit), u))
          node node
          (asLowerCaseString (match node.script, node.name with
            | none, some n => n
            | _, _ => ""))
          (readMoveAttributes env node sb) (readMoveAttributes env node {})
          (moveArea node env.freshCombat).1 (moveArea node env.freshCombat).1 s ()
        revert hk
        rcases moveKeyword cb node _ (readMoveAttributes env node sb)
          (moveArea node env.freshCombat).1 s with ⟨_ | c1, s1⟩ <;>
        rcases moveKeyword (fun (_ : String) (u : Unit) => ((none : Option Outfit), u)) node _
          (readMoveAttributes env node {}) (moveArea node env.freshCombat).1 () with ⟨_ | c2, s2⟩ <;>
        simp

theorem ite_snd_preserves {α σ : Type} (P : σ → Prop) (p : Prop) [Decidable p] (y x : α × σ)
    (h1 : P y.2) (h2 : P x.2) : P (if p then y else x).2 := by
  split
  · exact h1
  · exact h2

/-- What the registry lookup preserves, `deserializeMove` preserves: the
lookup is its only access to the registry. -/
theorem deserializeMove_preserves {σ : Type} (env : MoveEnv)
    (cb : String → σ → Option Outfit × σ) (P : σ → Prop)
    (hP : ∀ n r, P r → P (cb n r).2)
    (node : MoveNode) (sb : moveBlock_t) (s : σ) (hs : P s) :
    P (deserializeMove env cb node sb s).2 := by
  have hout : ∀ c, P (outfitMove cb node c s).2 := by
    intro c
    simp only [outfitMove]
    split
    · rename_i pokemon _
      have := hP pokemon s hs
      split
      · rename_i h; rw [h] at this; exact this
      · rename_i h; rw [h] at this; exact this
    · split <;> exact hs
  have hkey : ∀ t sb1 c, P (moveKeyword cb node t sb1 c s).2 := by
    intro t sb1 c
    simp only [moveKeyword]
    repeat' apply ite_snd_preserves
    all_goals first
      | exact hs
      | exact hout c
  unfold deserializeMove
  split
  · exact hs
  · dsimp only
    split
    · exact hs
    · split
      · exact hs
      · have hk := hkey (asLowerCaseString (match node.script, node.name with
            | none, some n => n
            | _, _ => "")) (readMoveAttributes env node sb) (moveArea node env.freshCombat).1
        split
        · rename_i h
          rw [h] at hk
          exact hk
        · rename_i h
          rw [h] at hk
          exact hk

theorem lookup_setEntry_self (m : List (String × PokemonType)) (key : String) (t : PokemonType) :
    (Pokemons.setEntry m key t).lookup key = some t := by
  induction m with
  | nil => simp [Pokemons.setEntry, List.lookup]
  | cons kv rest ih =>
    obtain ⟨k, v⟩ := kv
    simp only [Pokemons.setEntry]
    by_cases h : k = key
    · simp [h, List.lookup]
    · have h2 : (key == k) = false := by
        simp only [beq_eq_false_iff_ne, ne_eq]
        exact fun e => h e.symm
      simp [h, List.lookup, h2, ih]

theorem find_set_self (reg : Pokemons) (key : String) (t : PokemonType) :
    (reg.set key t).find key = some t := by
  simp [Pokemons.set, Pokemons.find, lookup_setEntry_self]

theorem find_modify_self (reg : Pokemons) (key : String) (f : PokemonType → PokemonType)
    (t : PokemonType) (h : reg.find key = some t) :
    (reg.modify key f).find key = some (f t) := by
  simp [Pokemons.modify, h, find_set_self]

/-- The loop over the descriptors appends to the list of the entry `key`
exactly one binding for every accepted descriptor, in order, and changes nothing
else of that entry. -/
theorem loadMoveList_find (env : SpeciesEnv)
    (cb : String → Pokemons → Option Outfit × Pokemons) (key : String) (attack : Bool)
    (hframe : ∀ n r t, r.find key = some t → ((cb n r).2).find key = some t)
    (nodes : List MoveNode) (reg : Pokemons) (t : PokemonType) (ht : reg.find key = some t) :
    ∃ ms : List moveBlock_t,
      List.Forall₂ (fun node sb =>
          ∃ s, (deserializeMove env.moves cb node env.freshMoveBlock s).1 = some sb)
        (nodes.filter (moveAccepted env.moves)) ms ∧
      (loadMoveList env cb key attack nodes reg).find key =
        some (if attack then { t with info := { t.info with attackMoves := t.info.attackMoves ++ ms } }
          else { t with info := { t.info with defenseMoves := t.info.defenseMoves ++ ms } }) := by
  induction nodes generalizing reg t with
  | nil =>
    refine ⟨[], List.Forall₂.nil, ?_⟩
    cases attack <;> simp [loadMoveList, ht]
  | cons node rest ih =>
    have hacc := deserializeMove_isSome env.moves cb node env.freshMoveBlock reg
    have hfr := deserializeMove_preserves env.moves cb (fun r => r.find key = some t)
      (fun n r hr => hframe n r t hr) node env.freshMoveBlock reg ht
    simp only [loadMoveList]
    rcases hd : deserializeMove env.moves cb node env.freshMoveBlock reg with ⟨_ | sb, reg1⟩
    · rw [hd] at hacc hfr
      simp only at hfr
      have hrej : moveAccepted env.moves node = false := by simpa using hacc.symm
      obtain ⟨ms, hms, hfind⟩ := ih reg1 t hfr
      refine ⟨ms, ?_, hfind⟩
      simpa [List.filter, hrej] using hms
    · rw [hd] at hacc hfr
      simp only at hfr
      have hok : moveAccepted env.moves node = true := by simpa using hacc.symm
      have hfind1 := find_modify_self reg1 key (pushMove attack sb) t hfr
      obtain ⟨ms, hms, hfind⟩ := ih _ _ hfind1
      refine ⟨sb :: ms, ?_, ?_⟩
      · simp only [List.filter, hok]
        exact List.Forall₂.cons ⟨reg, by rw [hd]⟩ hms
      · rw [hfind]
        cases attack <;> simp [pushMove]

theorem loadLook_moves (look : Option LookNode) (info : PokemonInfo) :
    (loadLook look info).attackMoves = info.attackMoves ∧
    (loadLook look info).defenseMoves = info.defenseMoves := by
  unfold loadLook
  split <;> exact ⟨rfl, rfl⟩

/-- The entry that `loadPokemon` starts from has empty move lists when the
species is new or the call is a reload. -/
theorem loadHeader_moves (env : SpeciesEnv) (reg : Pokemons) (key : String) (reloading : Bool)
    (pn : PokemonNode) (name pokemonName : String)
    (hfresh : reloading = true ∨ reg.find key = none) :
    (loadHeader pn name pokemonName (targetType env reg key reloading)).info.attackMoves = [] ∧
    (loadHeader pn name pokemonName (targetType env reg key reloading)).info.defenseMoves = [] := by
  have h0 : (targetType env reg key reloading).info.attackMoves = [] ∧
      (targetType env reg key reloading).info.defenseMoves = [] := by
    unfold targetType
    rcases hfresh with h | h
    · cases hf : reg.find key <;> simp [h, freshType, freshInfo]
    · simp [h, freshType, freshInfo]
  simp only [loadHeader]
  obtain ⟨l1, l2⟩ := loadLook_moves pn.look
    { (targetType env reg key reloading).info with
      flags := loadFlags pn.flags (targetType env reg key reloading).info.flags }
  exact ⟨l1.trans h0.1, l2.trans h0.2⟩

theorem lookup_setEntry_ne (m : List (String × PokemonType)) (k key : String) (t : PokemonType)
    (hne : k ≠ key) : (Pokemons.setEntry m k t).lookup key = m.lookup key := by
  induction m with
  | nil =>
    have h2 : (key == k) = false := by
      simp only [beq_eq_false_iff_ne, ne_eq]
      exact fun e => hne e.symm
    simp [Pokemons.setEntry, List.lookup, h2]
  | cons kv rest ih =>
    obtain ⟨k0, v⟩ := kv
    simp only [Pokemons.setEntry]
    by_cases h : k0 = k
    · subst h
      have h2 : (key == k0) = false := by
        simp only [beq_eq_false_iff_ne, ne_eq]
        exact fun e => hne e.symm
      simp [List.lookup, h2]
    · simp only [h, if_false, List.lookup]
      cases key == k0
      · exact ih
      · rfl

theorem find_set_ne (reg : Pokemons) (k key : String) (t : PokemonType) (hne : k ≠ key) :
    (reg.set k t).find key = reg.find key := by
  simp [Pokemons.set, Pokemons.find, lookup_setEntry_ne _ _ _ _ hne]

theorem find_modify_ne (reg : Pokemons) (k key : String) (f : PokemonType → PokemonType)
    (hne : k ≠ key) : (reg.modify k f).find key = reg.find key := by
  unfold Pokemons.modify
  split
  · exact find_set_ne reg k key _ hne
  · rfl

/-- The loop over the descriptors of species `k` leaves every other loaded
species as it is. -/
theorem loadMoveList_keeps (env : SpeciesEnv)
    (cb : String → Pokemons → Option Outfit × Pokemons) (k key : String) (attack : Bool)
    (t : PokemonType) (hcb : ∀ n r, r.find key = some t → ((cb n r).2).find key = some t)
    (hne : k ≠ key) (nodes : List MoveNode) (reg : Pokemons) (h : reg.find key = some t) :
    (loadMoveList env cb k attack nodes reg).find key = some t := by
  induction nodes generalizing reg with
  | nil => simpa [loadMoveList] using h
  | cons node rest ih =>
    have hfr := deserializeMove_preserves env.moves cb (fun r => r.find key = some t) hcb node
      env.freshMoveBlock reg h
    simp only [loadMoveList]
    rcases hd : deserializeMove env.moves cb node env.freshMoveBlock reg with ⟨_ | sb, reg1⟩
    · rw [hd] at hfr
      exact ih reg1 hfr
    · rw [hd] at hfr
      exact ih _ ((find_modify_ne reg1 k key _ hne).trans hfr)

/-- Loading species `pokemonName` leaves every other loaded species as it
is. -/
theorem loadPokemon_keeps (env : SpeciesEnv)
    (cb : String → Pokemons → Option Outfit × Pokemons)
    (file pokemonName : String) (reloading : Bool) (reg : Pokemons) (key : String)
    (t : PokemonType) (hcb : ∀ n r, r.find key = some t → ((cb n r).2).find key = some t)
    (hne : asLowerCaseString pokemonName ≠ key) (h : reg.find key = some t) :
    (loadPokemon env cb file pokemonName reloading reg).2.find key = some t := by
  have hA : ∀ att r, r.find key = some t →
      (loadAttacks env cb (asLowerCaseString pokemonName) att r).find key = some t := by
    intro att r hr
    unfold loadAttacks
    split
    · exact loadMoveList_keeps env cb _ key true t hcb hne _ _ hr
    · exact hr
  have hD : ∀ dfs r, r.find key = some t →
      (loadDefenses env cb (asLowerCaseString pokemonName) dfs r).find key = some t := by
    intro dfs r hr
    unfold loadDefenses
    split
    · exact loadMoveList_keeps env cb _ key false t hcb hne _ _
        ((find_modify_ne _ _ key _ hne).trans hr)
    · exact hr
  have hL : ∀ loot r, r.find key = some t →
      (loadLoot env (asLowerCaseString pokemonName) loot r).find key = some t := by
    intro loot r hr
    unfold loadLoot
    split
    · exact (find_modify_ne _ _ key _ hne).trans hr
    · exact hr
  unfold loadPokemon
  split
  · exact h
  · exact h
  · split
    · exact h
    · dsimp only
      exact hL _ _ (hD _ _ (hA _ _ ((find_set_ne reg _ key _ hne).trans h)))

/-- A registry lookup, with whatever loads it triggers, leaves every species
that is already loaded as it is. -/
theorem getPokemonType_keeps (env : SpeciesEnv) (depth : Nat) (name : String) (reg : Pokemons)
    (key : String) (t : PokemonType) (h : reg.find key = some t) :
    (getPokemonType env depth name reg).2.find key = some t := by
  induction depth generalizing name reg with
  | zero => simpa [getPokemonType] using h
  | succ depth ih =>
    simp only [getPokemonType]
    split
    · exact h
    · rename_i hmiss
      split
      · exact h
      · refine loadPokemon_keeps env _ _ name false reg key t ?_ ?_ h
        · intro n r hr
          exact ih n r hr
        · intro e
          rw [e, h] at hmiss
          cases hmiss

/-- C10: a non-scripted descriptor whose name is neither a shared move of the
catalogue nor in the keyword table is rejected by `deserializeMove`; and a call
of `loadPokemon` on a readable definition with a name (for a species that is
not loaded yet, or in reloading mode; with a registry lookup `cb` that leaves
loaded species as they are, as `getPokemonType` does) returns the species,
leaves it in the loaded map, and its attack list and its defence list hold
exactly one binding for every descriptor that `deserializeMove` accepts, in
declaration order, each compiled from its descriptor. -/
theorem loadPokemon_move_lists (env : SpeciesEnv)
    (cb : String → Pokemons → Option Outfit × Pokemons)
    (file pokemonName : String) (reloading : Bool) (reg : Pokemons)
    (pn : PokemonNode) (nm : String)
    (hfile : env.loadFile file = some (some pn)) (hname : pn.name = some nm)
    (hfresh : reloading = true ∨ reg.find (asLowerCaseString pokemonName) = none)
    (hframe : ∀ n r t, r.find (asLowerCaseString pokemonName) = some t →
      ((cb n r).2).find (asLowerCaseString pokemonName) = some t) :
    (∀ (node : MoveNode) (n : String) (sb : moveBlock_t) (s : Pokemons),
      node.script = none → node.name = some n → env.moves.getMoveByName n = none →
      asLowerCaseString n ∉ moveKeywords →
      (deserializeMove env.moves cb node sb s).1 = none ∧ moveAccepted env.moves node = false) ∧
    ∃ t : PokemonType,
      (loadPokemon env cb file pokemonName reloading reg).1 = some t ∧
      (loadPokemon env cb file pokemonName reloading reg).2.find (asLowerCaseString pokemonName) =
        some t ∧
      List.Forall₂ (fun node sb =>
          ∃ s, (deserializeMove env.moves cb node env.freshMoveBlock s).1 = some sb)
        ((pn.attacks.getD []).filter (moveAccepted env.moves)) t.info.attackMoves ∧
      List.Forall₂ (fun node sb =>
          ∃ s, (deserializeMove env.moves cb node env.freshMoveBlock s).1 = some sb)
        (((pn.defenses.map DefensesNode.children).getD []).filter (moveAccepted env.moves))
        t.info.defenseMoves := by
  constructor
  · intro node n sb s hscript hnm hshared hkw
    have hnone : (deserializeMove env.moves cb node sb s).1 = none := by
      simp [deserializeMove, hscript, hnm, hshared, moveKeyword_unknown _ _ _ _ _ _ hkw]
    refine ⟨hnone, ?_⟩
    have := deserializeMove_isSome env.moves cb node sb s
    rw [hnone] at this
    simpa using this.symm
  · generalize hkey : asLowerCaseString pokemonName = key at hfresh hframe
    obtain ⟨ha0, hd0⟩ := loadHeader_moves env reg key reloading pn nm pokemonName hfresh
    simp only [loadPokemon, hfile, hname, hkey]
    generalize loadHeader pn nm pokemonName (targetType env reg key reloading) = tA at ha0 hd0 ⊢
    have h1 : (reg.set key tA).find key = some tA := find_set_self reg key tA
    -- the `attacks` section
    obtain ⟨msA, hmsA, h2⟩ : ∃ msA : List moveBlock_t,
        List.Forall₂ (fun node sb =>
            ∃ s, (deserializeMove env.moves cb node env.freshMoveBlock s).1 = some sb)
          ((pn.attacks.getD []).filter (moveAccepted env.moves)) msA ∧
        (loadAttacks env cb key pn.attacks (reg.set key tA)).find key =
          some { tA with info := { tA.info with attackMoves := msA } } := by
      unfold loadAttacks
      cases hat : pn.attacks with
      | none => exact ⟨[], by simp, by simp [h1, ← ha0]⟩
      | some nodes =>
        obtain ⟨ms, hms, hfind⟩ := loadMoveList_find env cb key true hframe nodes _ _ h1
        exact ⟨ms, by simpa using hms, by simpa [ha0] using hfind⟩
    generalize loadAttacks env cb key pn.attacks (reg.set key tA) = reg2 at h2 ⊢
    -- the `defenses` section
    obtain ⟨msD, hmsD, tD, h3, hDa, hDd⟩ : ∃ msD : List moveBlock_t,
        List.Forall₂ (fun node sb =>
            ∃ s, (deserializeMove env.moves cb node env.freshMoveBlock s).1 = some sb)
          (((pn.defenses.map DefensesNode.children).getD []).filter (moveAccepted env.moves))
          msD ∧
        ∃ tD : PokemonType, (loadDefenses env cb key pn.defenses reg2).find key = some tD ∧
          tD.info.attackMoves = msA ∧ tD.info.defenseMoves = msD := by
      unfold loadDefenses
      cases hdf : pn.defenses with
      | none => exact ⟨[], by simp, _, h2, rfl, hd0⟩
      | some node =>
        have hm := find_modify_self reg2 key (fun t =>
          { t with info := { t.info with
              defense := match node.defense with | some v => v | none => t.info.defense,
              armor := match node.armor with | some v => v | none => t.info.armor } }) _ h2
        obtain ⟨ms, hms, hfind⟩ := loadMoveList_find env cb key false hframe node.children _ _ hm
        refine ⟨ms, by simpa using hms, _, hfind, ?_, ?_⟩
        · simp
        · simp [hd0]
    generalize loadDefenses env cb key pn.defenses reg2 = reg3 at h3 ⊢
    -- the `loot` section
    obtain ⟨tL, h4, hLa, hLd⟩ : ∃ tL : PokemonType,
        (loadLoot env key pn.loot reg3).find key = some tL ∧
          tL.info.attackMoves = msA ∧ tL.info.defenseMoves = msD := by
      unfold loadLoot
      cases pn.loot with
      | none => exact ⟨tD, h3, hDa, hDd⟩
      | some nodes => exact ⟨_, find_modify_self reg3 key _ tD h3, hDa, hDd⟩
    refine ⟨tL, h4, h4, ?_, ?_⟩
    · rw [hLa]; exact hmsA
    · rw [hLd]; exact hmsD

/-- Instance of C10: the sample definition of `Rattata`, loaded into a registry
where nothing is loaded yet, with the registry's own lookup for the `outfit`
move.  Of its four attacks the unknown `splash` is the one left out, its only
defence, `splash` again, is left out too, and the lookup of the `outfit` move
has loaded `Pidgey` on the way. -/
theorem loadPokemon_move_lists_witness :
    (asLowerCaseString "splash" ∉ moveKeywords) ∧
    ((deserializeMove sampleMoveEnv (lookupOutfit sampleSpeciesEnv 2) unknownNode {}
        sampleRegistry).1 = none ∧
      moveAccepted sampleMoveEnv unknownNode = false) ∧
    ((loadPokemon sampleSpeciesEnv (lookupOutfit sampleSpeciesEnv 2) "data/pokemons/rattata.xml"
        "Rattata" false sampleRegistry).1.map
      (fun t => (t.info.attackMoves.map moveBlock_t.isMelee, t.info.defenseMoves.length)) =
      some ([false, true, false], 0)) ∧
    ((loadPokemon sampleSpeciesEnv (lookupOutfit sampleSpeciesEnv 2) "data/pokemons/rattata.xml"
        "Rattata" false sampleRegistry).2.pokemons.map Prod.fst = ["rattata", "pidgey"]) ∧
    ∃ t : PokemonType,
      (loadPokemon sampleSpeciesEnv (lookupOutfit sampleSpeciesEnv 2) "data/pokemons/rattata.xml"
        "Rattata" false sampleRegistry).1 = some t ∧
      (loadPokemon sampleSpeciesEnv (lookupOutfit sampleSpeciesEnv 2) "data/pokemons/rattata.xml"
        "Rattata" false sampleRegistry).2.find (asLowerCaseString "Rattata") = some t ∧
      List.Forall₂ (fun node sb =>
          ∃ s, (deserializeMove sampleSpeciesEnv.moves (lookupOutfit sampleSpeciesEnv 2) node
            sampleSpeciesEnv.freshMoveBlock s).1 = some sb)
        ((rattataNode.attacks.getD []).filter (moveAccepted sampleSpeciesEnv.moves))
        t.info.attackMoves ∧
      List.Forall₂ (fun node sb =>
          ∃ s, (deserializeMove sampleSpeciesEnv.moves (lookupOutfit sampleSpeciesEnv 2) node
            sampleSpeciesEnv.freshMoveBlock s).1 = some sb)
        (((rattataNode.defenses.map DefensesNode.children).getD []).filter
          (moveAccepted sampleSpeciesEnv.moves))
        t.info.defenseMoves :=
  ⟨by decide,
    (loadPokemon_move_lists sampleSpeciesEnv (lookupOutfit sampleSpeciesEnv 2)
      "data/pokemons/rattata.xml" "Rattata" false sampleRegistry rattataNode "Rattata" rfl rfl
      (Or.inr rfl)
      (fun n r t h => getPokemonType_keeps sampleSpeciesEnv 2 n r _ t h)).1
      unknownNode "splash" {} sampleRegistry rfl rfl (by decide) (by decide),
    by decide,
    by decide,
    (loadPokemon_move_lists sampleSpeciesEnv (lookupOutfit sampleSpeciesEnv 2)
      "data/pokemons/rattata.xml" "Rattata" false sampleRegistry rattataNode "Rattata" rfl rfl
      (Or.inr rfl)
      (fun n r t h => getPokemonType_keeps sampleSpeciesEnv 2 n r _ t h)).2⟩

/-! ### Nested containers -/

/-- The loop over the nested entries, one entry unfolded. -/
theorem createLootChildren_cons (env : Env) (parent : Item) (c : LootBlock)
    (cs : List LootBlock) (drawn : Nat) :
    createLootChildren env parent (c :: cs) drawn =
      if parent.size < parent.capacity then
        createLootChildren env
          ((createLootItem env c drawn).foldl (addChildItem env c) (parent, drawn + 1)).1 cs
          ((createLootItem env c drawn).foldl (addChildItem env c) (parent, drawn + 1)).2
      else (parent, drawn) := by
  simp only [createLootChildren]
  rfl

/-- The verdict of `createLootContainer` for an entry with nested entries is
whether the container holds something afterwards; for an entry without nested
entries it is `true` and the container is left as it is. -/
theorem createLootContainer_verdict (env : Env) (parent : Item) (lb : LootBlock) (drawn : Nat) :
    (lb.childLoot ≠ [] →
      (createLootContainer env parent lb drawn).1 =
        !(createLootContainer env parent lb drawn).2.1.empty) ∧
    (lb.childLoot = [] → createLootContainer env parent lb drawn = (true, parent, drawn)) := by
  obtain ⟨id, countmax, chance, subType, actionId, text, childLoot⟩ := lb
  cases childLoot with
  | nil => simp [createLootContainer]
  | cons c cs => simp [createLootContainer]

/-- C11, as the code has it: for a container made from an entry that has at
least one nested entry, whatever the draws: when the container holds no item
after its nested entries have been resolved, the verdict is `false`, and the
container is neither offered to the corpse (the corpse and the record of the
walk stay as they are) nor added to its parent container. -/
theorem createLootContainer_empty_discarded (env : Env) (lb : LootBlock) (item : Item)
    (drawn : Nat) (hc : item.container = true) (hne : lb.childLoot ≠ [])
    (hempty : (createLootContainer env item lb drawn).2.1.empty = true) :
    (createLootContainer env item lb drawn).1 = false ∧
    (∀ (rest : List Item) (w : Walk), w.drawn = drawn →
      addLootItems env lb (item :: rest) w =
        addLootItems env lb rest { w with drawn := (createLootContainer env item lb drawn).2.2 }) ∧
    (∀ parent : Item, addChildItem env lb (parent, drawn) item =
      (parent, (createLootContainer env item lb drawn).2.2)) := by
  have hv : (createLootContainer env item lb drawn).1 = false := by
    rw [(createLootContainer_verdict env item lb drawn).1 hne, hempty]
    rfl
  refine ⟨hv, ?_, ?_⟩
  · intro rest w hw
    subst hw
    simp only [addLootItems, hc, if_true, hv]
    rfl
  · intro parent
    simp only [addChildItem, hc, if_true, hv]
    rfl

/-- Instance of C11 as the code has it: a bag whose only nested entry never
drops is made, stays empty and is not offered to the corpse. -/
theorem createLootContainer_empty_discarded_witness :
    sampleBag.container = true ∧ emptyBagEntry.childLoot ≠ [] ∧
    (createLootContainer (bagEnv 900 1 0) sampleBag emptyBagEntry 1).2.1.empty = true ∧
    (createLootContainer (bagEnv 900 1 0) sampleBag emptyBagEntry 1).1 = false ∧
    (createLoot (bagEnv 900 1 0) "a rattata" [emptyBagEntry] (sampleCorpse 7) 0).corpse.size = 0 :=
  ⟨by decide, by simp [emptyBagEntry], by decide,
    (createLootContainer_empty_discarded (bagEnv 900 1 0) emptyBagEntry sampleBag 1
      (by decide) (by simp [emptyBagEntry]) (by decide)).1,
    by decide⟩

/-- C11 as stated fails for an entry without nested entries: the bag made from
`bareBagEntry` holds no item, gets the verdict `true` and is put into the
corpse. -/
theorem createLootContainer_bare_inserted :
    bareBagEntry.childLoot = [] ∧
    (createLootContainer (bagEnv 900 1 0) sampleBag bareBagEntry 1).1 = true ∧
    (createLootContainer (bagEnv 900 1 0) sampleBag bareBagEntry 1).2.1.empty = true ∧
    (createLoot (bagEnv 900 1 0) "a rattata" [bareBagEntry] (sampleCorpse 7) 0).corpse.itemlist.map
      (fun i => (i.id, i.container, i.size)) = [(40, true, 0)] :=
  ⟨rfl, by decide, by decide, by decide⟩

/-- One item adds at most one item to the parent and leaves its capacity. -/
theorem addChildItem_size (env : Env) (c : LootBlock) (acc : Item × Nat) (item : Item) :
    (addChildItem env c acc item).1.size ≤ acc.1.size + 1 ∧
    (addChildItem env c acc item).1.capacity = acc.1.capacity := by
  unfold addChildItem
  split
  · dsimp only
    split
    · simp [Item.internalAddThing, Item.size]
    · simp
  · simp [Item.internalAddThing, Item.size]

/-- When every nested entry yields at most one item per roll, the loop over the
nested entries keeps a container within its capacity. -/
theorem createLootChildren_size_le (env : Env) (children : List LootBlock)
    (hone : ∀ c ∈ children, ∀ k, (createLootItem env c k).length ≤ 1)
    (parent : Item) (drawn : Nat) (hp : parent.size ≤ parent.capacity) :
    (createLootChildren env parent children drawn).1.size ≤ parent.capacity ∧
    (createLootChildren env parent children drawn).1.capacity = parent.capacity := by
  induction children generalizing parent drawn with
  | nil => simpa [createLootChildren] using hp
  | cons c cs ih =>
    rw [createLootChildren_cons]
    split
    · rename_i hlt
      have hlen := hone c (List.mem_cons_self _ _) drawn
      have hstep : ((createLootItem env c drawn).foldl (addChildItem env c) (parent, drawn + 1)).1.size
            ≤ parent.capacity ∧
          ((createLootItem env c drawn).foldl (addChildItem env c) (parent, drawn + 1)).1.capacity
            = parent.capacity := by
        rcases hl : createLootItem env c drawn with _ | ⟨i, rest⟩
        · simpa using hp
        · rw [hl] at hlen
          have hrest : rest = [] := by
            cases rest with
            | nil => rfl
            | cons _ _ => simp at hlen
          subst hrest
          obtain ⟨h1, h2⟩ := addChildItem_size env c (parent, drawn + 1) i
          simp only [List.foldl_cons, List.foldl_nil]
          simp only at h1 h2
          exact ⟨by omega, h2⟩
      obtain ⟨i1, i2⟩ := ih (fun c' hc' => hone c' (List.mem_cons_of_mem _ hc')) _
        ((createLootItem env c drawn).foldl (addChildItem env c) (parent, drawn + 1)).2
        (by rw [hstep.2]; exact hstep.1)
      rw [hstep.2] at i1 i2
      exact ⟨i1, i2⟩
    · exact ⟨hp, rfl⟩

/-- C12 fails on the code: a bag of capacity 1, empty at the start, with the two
nested entries `coinEntry` (stackable, `countmax = 250`) and `A`.  The scaled
draw 249 gives the quantity 250 for `coinEntry`, which is materialised as three
items of 100, 100 and 50 units, and all three are put into the bag: it ends with
3 items, above its capacity.  The capacity is tested once per nested entry, not
per item. -/
theorem createLootContainer_overfills :
    sampleBag.size = 0 ∧ sampleBag.capacity = 1 ∧
    (createLootContainer (bagEnv 900 1 249) sampleBag coinBagEntry 1).2.1.size = 3 ∧
    (createLootContainer (bagEnv 900 1 249) sampleBag coinBagEntry 1).2.1.itemlist.map
      (fun i => (i.id, i.count)) = [(20, 50), (20, 100), (20, 100)] ∧
    (createLoot (bagEnv 900 1 249) "a rattata" [coinBagEntry] (sampleCorpse 7) 0).corpse.itemlist.map
      (fun i => (i.id, i.capacity, i.size)) = [(40, 1, 3)] := by
  decide

/-! ### Corpse decay -/

/-- C13: every invocation of `createLoot`, whatever the loot rate, the owner and
the stamina, schedules the corpse decay exactly once; and with loot rate zero no
draw is taken and the corpse is left as it is, no item added. -/
theorem createLoot_decay (env : Env) (name : String) (table : List LootBlock)
    (corpse : Item) (drawn : Nat) :
    (createLoot env name table corpse drawn).decays = 1 ∧
    (env.RATE_LOOT = 0 →
      (createLoot env name table corpse drawn).corpse = corpse ∧
      (createLoot env name table corpse drawn).drawn = drawn ∧
      (createLoot env name table corpse drawn).log = []) := by
  constructor
  · unfold createLoot
    split
    · rfl
    · split
      · rfl
      · split <;> rfl
  · intro h
    simp [createLoot, h]

/-- Instance of C13: loot rate zero with a table whose rolls would all
succeed. -/
theorem createLoot_decay_witness :
    (sampleEnv 900 0 0).RATE_LOOT = 0 ∧
    (createLoot (sampleEnv 900 0 0) "a rattata" [entryA, entryB] (sampleCorpse 7) 0).decays = 1 ∧
    (createLoot (sampleEnv 900 0 0) "a rattata" [entryA, entryB] (sampleCorpse 7) 0).corpse =
      sampleCorpse 7 :=
  ⟨rfl, (createLoot_decay (sampleEnv 900 0 0) "a rattata" [entryA, entryB] (sampleCorpse 7) 0).1,
    ((createLoot_decay (sampleEnv 900 0 0) "a rattata" [entryA, entryB] (sampleCorpse 7) 0).2
      rfl).1⟩

/-! ### The registry: loading on demand, the manifest, reloading -/

theorem modify_preserves (P : Pokemons → Prop) (key : String)
    (hset : ∀ r t, P r → P (r.set key t)) (f : PokemonType → PokemonType) (reg : Pokemons)
    (h : P reg) : P (reg.modify key f) := by
  unfold Pokemons.modify
  split
  · exact hset _ _ h
  · exact h

theorem loadMoveList_preserves (env : SpeciesEnv)
    (cb : String → Pokemons → Option Outfit × Pokemons) (key : String) (attack : Bool)
    (P : Pokemons → Prop) (hcb : ∀ n r, P r → P (cb n r).2)
    (hset : ∀ r t, P r → P (r.set key t))
    (nodes : List MoveNode) (reg : Pokemons) (h : P reg) :
    P (loadMoveList env cb key attack nodes reg) := by
  induction nodes generalizing reg with
  | nil => simpa [loadMoveList] using h
  | cons node rest ih =>
    have hfr := deserializeMove_preserves env.moves cb P hcb node env.freshMoveBlock reg h
    simp only [loadMoveList]
    rcases hd : deserializeMove env.moves cb node env.freshMoveBlock reg with ⟨_ | sb, reg1⟩
    · rw [hd] at hfr
      exact ih reg1 hfr
    · rw [hd] at hfr
      exact ih _ (modify_preserves P key hset _ reg1 hfr)

/-- Whatever the registry lookup and the assignments to the entry of the
species being loaded preserve, `loadPokemon` preserves. -/
theorem loadPokemon_preserves (env : SpeciesEnv)
    (cb : String → Pokemons → Option Outfit × Pokemons)
    (file pokemonName : String) (reloading : Bool) (reg : Pokemons)
    (P : Pokemons → Prop) (hcb : ∀ n r, P r → P (cb n r).2)
    (hset : ∀ r t, P r → P (r.set (asLowerCaseString pokemonName) t)) (h : P reg) :
    P (loadPokemon env cb file pokemonName reloading reg).2 := by
  have hA : ∀ att r, P r → P (loadAttacks env cb (asLowerCaseString pokemonName) att r) := by
    intro att r hr
    unfold loadAttacks
    split
    · exact loadMoveList_preserves env cb _ true P hcb hset _ _ hr
    · exact hr
  have hD : ∀ dfs r, P r → P (loadDefenses env cb (asLowerCaseString pokemonName) dfs r) := by
    intro dfs r hr
    unfold loadDefenses
    split
    · exact loadMoveList_preserves env cb _ false P hcb hset _ _
        (modify_preserves P _ hset _ r hr)
    · exact hr
  have hL : ∀ loot r, P r → P (loadLoot env (asLowerCaseString pokemonName) loot r) := by
    intro loot r hr
    unfold loadLoot
    split
    · exact modify_preserves P _ hset _ r hr
    · exact hr
  unfold loadPokemon
  split
  · exact h
  · exact h
  · split
    · exact h
    · dsimp only
      exact hL _ _ (hD _ _ (hA _ _ (hset _ _ h)))

/-- A registry lookup, with whatever loads it triggers, leaves the unloaded map
and the `loaded` flag as they are. -/
theorem getPokemonType_unloaded (env : SpeciesEnv) (depth : Nat) (name : String)
    (reg : Pokemons) (U : List (String × String)) (b : Bool)
    (h : reg.unloadedPokemons = U ∧ reg.loaded = b) :
    (getPokemonType env depth name reg).2.unloadedPokemons = U ∧
    (getPokemonType env depth name reg).2.loaded = b := by
  induction depth generalizing name reg with
  | zero => simpa [getPokemonType] using h
  | succ depth ih =>
    simp only [getPokemonType]
    split
    · exact h
    · split
      · exact h
      · exact loadPokemon_preserves env _ _ name false reg
          (fun r => r.unloadedPokemons = U ∧ r.loaded = b)
          (fun n r hr => ih n r hr) (fun r t hr => hr) h

/-- A definition file that cannot be read, has no `pokemon` node or has no
`name` attribute makes `loadPokemon` return nothing and leave the registry as it
is. -/
theorem loadPokemon_unreadable (env : SpeciesEnv)
    (cb : String → Pokemons → Option Outfit × Pokemons)
    (file pokemonName : String) (reloading : Bool) (reg : Pokemons)
    (h : env.loadFile file = none ∨ env.loadFile file = some none ∨
      ∃ pn, env.loadFile file = some (some pn) ∧ pn.name = none) :
    loadPokemon env cb file pokemonName reloading reg = (none, reg) := by
  unfold loadPokemon
  rcases h with h | h | ⟨pn, h, hn⟩
  · simp [h]
  · simp [h]
  · simp [h, hn]

theorem loadLook_flags (look : Option LookNode) (info : PokemonInfo) :
    (loadLook look info).flags = info.flags := by
  unfold loadLook
  split <;> rfl

/-- A readable definition with a name is compiled: `loadPokemon` returns the
species, which is then the entry of its key in the loaded map, with the name
and the flags of the definition. -/
theorem loadPokemon_compiled (env : SpeciesEnv)
    (cb : String → Pokemons → Option Outfit × Pokemons)
    (file pokemonName : String) (reloading : Bool) (reg : Pokemons)
    (pn : PokemonNode) (nm : String)
    (hfile : env.loadFile file = some (some pn)) (hname : pn.name = some nm)
    (hframe : ∀ n r t, r.find (asLowerCaseString pokemonName) = some t →
      ((cb n r).2).find (asLowerCaseString pokemonName) = some t) :
    ∃ t : PokemonType,
      (loadPokemon env cb file pokemonName reloading reg).1 = some t ∧
      (loadPokemon env cb file pokemonName reloading reg).2.find (asLowerCaseString pokemonName) =
        some t ∧
      t.name = nm ∧ t.typeName = pokemonName ∧
      t.info.flags = loadFlags pn.flags
        (targetType env reg (asLowerCaseString pokemonName) reloading).info.flags := by
  generalize hkey : asLowerCaseString pokemonName = key at hframe
  simp only [loadPokemon, hfile, hname, hkey]
  have hQ0 : (loadHeader pn nm pokemonName (targetType env reg key reloading)).name = nm ∧
      (loadHeader pn nm pokemonName (targetType env reg key reloading)).typeName = pokemonName ∧
      (loadHeader pn nm pokemonName (targetType env reg key reloading)).info.flags =
        loadFlags pn.flags (targetType env reg key reloading).info.flags := by
    refine ⟨rfl, rfl, ?_⟩
    simp only [loadHeader]
    exact loadLook_flags _ _
  generalize loadFlags pn.flags (targetType env reg key reloading).info.flags = F at hQ0 ⊢
  generalize loadHeader pn nm pokemonName (targetType env reg key reloading) = tA at hQ0 ⊢
  have h1 : (reg.set key tA).find key = some tA := find_set_self reg key tA
  obtain ⟨tB, h2, hQ2⟩ : ∃ tB : PokemonType,
      (loadAttacks env cb key pn.attacks (reg.set key tA)).find key = some tB ∧
      (tB.name = nm ∧ tB.typeName = pokemonName ∧ tB.info.flags = F) := by
    unfold loadAttacks
    cases pn.attacks with
    | none => exact ⟨tA, h1, hQ0⟩
    | some nodes =>
      obtain ⟨ms, -, hfind⟩ := loadMoveList_find env cb key true hframe nodes _ _ h1
      exact ⟨_, hfind, by simpa using hQ0⟩
  generalize loadAttacks env cb key pn.attacks (reg.set key tA) = reg2 at h2 ⊢
  obtain ⟨tD, h3, hQ3⟩ : ∃ tD : PokemonType,
      (loadDefenses env cb key pn.defenses reg2).find key = some tD ∧
      (tD.name = nm ∧ tD.typeName = pokemonName ∧ tD.info.flags = F) := by
    unfold loadDefenses
    cases pn.defenses with
    | none => exact ⟨tB, h2, hQ2⟩
    | some node =>
      have hm := find_modify_self reg2 key (fun t =>
        { t with info := { t.info with
            defense := match node.defense with | some v => v | none => t.info.defense,
            armor := match node.armor with | some v => v | none => t.info.armor } }) _ h2
      obtain ⟨ms, -, hfind⟩ := loadMoveList_find env cb key false hframe node.children _ _ hm
      exact ⟨_, hfind, by simpa using hQ2⟩
  generalize loadDefenses env cb key pn.defenses reg2 = reg3 at h3 ⊢
  obtain ⟨tL, h4, hQ4⟩ : ∃ tL : PokemonType,
      (loadLoot env key pn.loot reg3).find key = some tL ∧
      (tL.name = nm ∧ tL.typeName = pokemonName ∧ tL.info.flags = F) := by
    unfold loadLoot
    cases pn.loot with
    | none => exact ⟨tD, h3, hQ3⟩
    | some nodes => exact ⟨_, find_modify_self reg3 key _ tD h3, hQ3⟩
  exact ⟨tL, h4, h4, hQ4.1, hQ4.2.1, hQ4.2.2⟩

/-- C15, as the code has it: `getPokemonType(name)` works on the lower-cased
name.  A name in the loaded map gives that entry, with both maps unchanged and
nothing compiled.  A name in neither map gives nothing, with both maps
unchanged.  A name that is only in the unloaded map has its definition file
loaded: a readable definition with a name is compiled, put into the loaded map
under that key and returned, with the unloaded map and every species loaded
before as they are; a file that cannot be read, or has no `pokemon` node or no
name, gives nothing and leaves both maps unchanged. -/
theorem getPokemonType_cases (env : SpeciesEnv) (depth : Nat) (name : String) (reg : Pokemons) :
    (∀ t, reg.find (asLowerCaseString name) = some t →
      getPokemonType env depth name reg = (some t, reg)) ∧
    (reg.find (asLowerCaseString name) = none →
      reg.unloadedPokemons.lookup (asLowerCaseString name) = none →
      getPokemonType env depth name reg = (none, reg)) ∧
    (∀ file, reg.find (asLowerCaseString name) = none →
      reg.unloadedPokemons.lookup (asLowerCaseString name) = some file →
      (∀ pn nm, env.loadFile file = some (some pn) → pn.name = some nm →
        ∃ t : PokemonType,
          (getPokemonType env (depth + 1) name reg).1 = some t ∧
          (getPokemonType env (depth + 1) name reg).2.find (asLowerCaseString name) = some t ∧
          t.name = nm ∧
          (getPokemonType env (depth + 1) name reg).2.unloadedPokemons = reg.unloadedPokemons ∧
          ∀ k t0, reg.find k = some t0 →
            (getPokemonType env (depth + 1) name reg).2.find k = some t0) ∧
      ((env.loadFile file = none ∨ env.loadFile file = some none ∨
          ∃ pn, env.loadFile file = some (some pn) ∧ pn.name = none) →
        getPokemonType env (depth + 1) name reg = (none, reg))) := by
  refine ⟨?_, ?_, ?_⟩
  · intro t ht
    cases depth with
    | zero => simp [getPokemonType, ht]
    | succ d => simp [getPokemonType, ht]
  · intro hmiss hun
    cases depth with
    | zero => simp [getPokemonType, hmiss]
    | succ d => simp [getPokemonType, hmiss, hun]
  · intro file hmiss hun
    have hload : getPokemonType env (depth + 1) name reg =
        loadPokemon env (fun n r => outfitOf (getPokemonType env depth n r)) file name false reg := by
      simp [getPokemonType, hmiss, hun]
    constructor
    · intro pn nm hfile hname
      obtain ⟨t, h1, h2, h3, -, -⟩ := loadPokemon_compiled env
        (fun n r => outfitOf (getPokemonType env depth n r)) file name false reg pn nm hfile hname
        (fun n r t h => getPokemonType_keeps env depth n r _ t h)
      refine ⟨t, by rw [hload]; exact h1, by rw [hload]; exact h2, h3, ?_, ?_⟩
      · exact (getPokemonType_unloaded env (depth + 1) name reg _ _ ⟨rfl, rfl⟩).1
      · intro k t0 hk
        exact getPokemonType_keeps env (depth + 1) name reg k t0 hk
    · intro hbad
      rw [hload]
      exact loadPokemon_unreadable env _ file name false reg hbad

/-- Instance of C15 as the code has it: `Rattata` is registered in the sample
registry and not loaded; the lookup compiles it and puts it into the loaded
map. -/
theorem getPokemonType_cases_witness :
    sampleRegistry.find (asLowerCaseString "Rattata") = none ∧
    sampleRegistry.unloadedPokemons.lookup (asLowerCaseString "Rattata") =
      some "data/pokemons/rattata.xml" ∧
    ∃ t : PokemonType,
      (getPokemonType sampleSpeciesEnv (1 + 1) "Rattata" sampleRegistry).1 = some t ∧
      (getPokemonType sampleSpeciesEnv (1 + 1) "Rattata" sampleRegistry).2.find
        (asLowerCaseString "Rattata") = some t ∧
      t.name = "Rattata" ∧
      (getPokemonType sampleSpeciesEnv (1 + 1) "Rattata" sampleRegistry).2.unloadedPokemons =
        sampleRegistry.unloadedPokemons ∧
      ∀ k t0, sampleRegistry.find k = some t0 →
        (getPokemonType sampleSpeciesEnv (1 + 1) "Rattata" sampleRegistry).2.find k = some t0 :=
  ⟨rfl, by decide,
    ((getPokemonType_cases sampleSpeciesEnv 1 "Rattata" sampleRegistry).2.2
      "data/pokemons/rattata.xml" rfl (by decide)).1 rattataNode "Rattata" rfl rfl⟩

/-- C15 as stated fails when the registered definition cannot be loaded: the
name `missingno` is in the unloaded map and not in the loaded map, its file does
not exist, and the lookup returns nothing and inserts nothing into the loaded
map. -/
theorem getPokemonType_unreadable_counterexample :
    brokenRegistry.find (asLowerCaseString "MissingNo") = none ∧
    brokenRegistry.unloadedPokemons.lookup (asLowerCaseString "MissingNo") =
      some "data/pokemons/missingno.xml" ∧
    (getPokemonType sampleSpeciesEnv 3 "MissingNo" brokenRegistry).1.isSome = false ∧
    (getPokemonType sampleSpeciesEnv 3 "MissingNo" brokenRegistry).2.pokemons.length = 0 :=
  ⟨rfl, by decide, by decide, by decide⟩

theorem lookup_append_single (m : List (String × String)) (k name file : String) :
    (m ++ [(name, file)]).lookup k =
      match m.lookup k with
      | some v => some v
      | none => if k = name then some file else none := by
  induction m with
  | nil =>
    by_cases h : k = name
    · simp [List.lookup, h]
    · have : (k == name) = false := by simpa using h
      simp [List.lookup, h, this]
  | cons kv rest ih =>
    obtain ⟨k0, v0⟩ := kv
    simp only [List.cons_append, List.lookup]
    cases k == k0
    · exact ih
    · rfl

/-- After `emplace` the name is registered, with the locator it had before if
it had one, and every other registration is as before. -/
theorem lookup_emplace (m : List (String × String)) (k name file : String) :
    (emplace m name file).lookup k =
      match m.lookup k with
      | some v => some v
      | none => if k = name then some file else none := by
  unfold emplace
  cases hn : m.lookup name with
  | some v =>
    dsimp only
    cases hk : m.lookup k with
    | some w => rfl
    | none =>
      dsimp only
      split
      · rename_i e
        rw [e, hn] at hk
        cases hk
      · rfl
  | none => exact lookup_append_single m k name file

/-- In the mode that is not reloading, the loop of `loadFromXml` leaves the
loaded map as it is and registers every manifest name. -/
theorem loadFromXml_fold_register (env : SpeciesEnv) (depth : Nat) (nodes : List ManifestNode)
    (reg : Pokemons) :
    (nodes.foldl (loadFromXmlNode env depth false) reg).pokemons = reg.pokemons ∧
    (nodes.foldl (loadFromXmlNode env depth false) reg).loaded = reg.loaded ∧
    (∀ k, (reg.unloadedPokemons.lookup k).isSome →
      ((nodes.foldl (loadFromXmlNode env depth false) reg).unloadedPokemons.lookup k).isSome) ∧
    (∀ node ∈ nodes,
      ((nodes.foldl (loadFromXmlNode env depth false) reg).unloadedPokemons.lookup
        (asLowerCaseString node.name)).isSome) := by
  induction nodes generalizing reg with
  | nil => simp
  | cons node rest ih =>
    have hstep : loadFromXmlNode env depth false reg node =
        { reg with unloadedPokemons := (emplace reg.unloadedPokemons
            (asLowerCaseString node.name) ("data/pokemons/" ++ node.file)) } := by
      simp [loadFromXmlNode]
    obtain ⟨i1, i2, i3, i4⟩ := ih (loadFromXmlNode env depth false reg node)
    simp only [List.foldl_cons]
    rw [hstep] at i1 i2 i3 i4 ⊢
    refine ⟨i1, i2, ?_, ?_⟩
    · intro k hk
      apply i3
      simp only [lookup_emplace]
      cases hl : reg.unloadedPokemons.lookup k with
      | some v => rfl
      | none => rw [hl] at hk; cases hk
    · intro n hn
      rcases List.mem_cons.mp hn with rfl | hn
      · apply i3
        simp only [lookup_emplace]
        cases reg.unloadedPokemons.lookup (asLowerCaseString n.name) <;> simp
      · exact i4 n hn

/-- C14, as the code has it.  `loadFromXml` on a readable manifest returns
`true` and runs `loadFromXmlNode` over the entries in order, from the registry
with the unloaded map emptied.  In reloading mode an entry whose lower-cased
name is in the loaded map at its turn is loaded again in place, with
`loadPokemon` in reloading mode, and the unloaded map is left as it is.  Every
other entry, and in the mode that is not reloading every entry, also one whose
species is loaded, is registered in the unloaded map under its lower-cased name
(keeping the locator of an earlier entry of the same name) with the loaded map
left as it is. -/
theorem loadFromXml_entries (env : SpeciesEnv) (depth : Nat) (reloading : Bool)
    (reg : Pokemons) (nodes : List ManifestNode) (node : ManifestNode) :
    loadFromXml env depth (some nodes) reloading reg =
      (true, nodes.foldl (loadFromXmlNode env depth reloading)
        { reg with unloadedPokemons := [], loaded := true }) ∧
    (reloading = true → (reg.find (asLowerCaseString node.name)).isSome →
      loadFromXmlNode env depth reloading reg node =
        (loadPokemon env (lookupOutfit env depth) ("data/pokemons/" ++ node.file)
          (asLowerCaseString node.name) true reg).2 ∧
      (loadFromXmlNode env depth reloading reg node).unloadedPokemons = reg.unloadedPokemons) ∧
    (reloading = false ∨ reg.find (asLowerCaseString node.name) = none →
      (loadFromXmlNode env depth reloading reg node).pokemons = reg.pokemons ∧
      (loadFromXmlNode env depth reloading reg node).unloadedPokemons =
        emplace reg.unloadedPokemons (asLowerCaseString node.name)
          ("data/pokemons/" ++ node.file) ∧
      ((loadFromXmlNode env depth reloading reg node).unloadedPokemons.lookup
        (asLowerCaseString node.name)).isSome) ∧
    (reloading = false →
      (loadFromXml env depth (some nodes) reloading reg).2.pokemons = reg.pokemons ∧
      ∀ n ∈ nodes, ((loadFromXml env depth (some nodes) reloading reg).2.unloadedPokemons.lookup
        (asLowerCaseString n.name)).isSome) := by
  refine ⟨rfl, ?_, ?_, ?_⟩
  · intro hr hl
    have hstep : loadFromXmlNode env depth reloading reg node =
        (loadPokemon env (lookupOutfit env depth) ("data/pokemons/" ++ node.file)
          (asLowerCaseString node.name) true reg).2 := by
      simp [loadFromXmlNode, hr, hl]
    refine ⟨hstep, ?_⟩
    rw [hstep]
    exact loadPokemon_preserves env _ _ _ true reg
      (fun r => r.unloadedPokemons = reg.unloadedPokemons)
      (fun n r hr => (getPokemonType_unloaded env depth n r _ r.loaded ⟨hr, rfl⟩).1)
      (fun r t hr => hr) rfl
  · intro h
    have hstep : loadFromXmlNode env depth reloading reg node =
        { reg with unloadedPokemons := (emplace reg.unloadedPokemons
            (asLowerCaseString node.name) ("data/pokemons/" ++ node.file)) } := by
      rcases h with h | h
      · simp [loadFromXmlNode, h]
      · simp [loadFromXmlNode, h]
    rw [hstep]
    refine ⟨rfl, rfl, ?_⟩
    simp only [lookup_emplace]
    cases reg.unloadedPokemons.lookup (asLowerCaseString node.name) <;> simp
  · intro hr
    subst hr
    obtain ⟨i1, -, -, i4⟩ := loadFromXml_fold_register env depth nodes
      { reg with unloadedPokemons := [], loaded := true }
    exact ⟨i1, i4⟩

/-- Instance of C14 as the code has it: the sample manifest read in the mode
that is not reloading while `Rattata` is loaded. -/
theorem loadFromXml_entries_witness :
    (false = false ∨ loadedRegistry.find (asLowerCaseString "Rattata") = none) ∧
    (loadFromXmlNode sampleSpeciesEnv 2 false loadedRegistry
        { name := "Rattata", file := "rattata.xml" }).pokemons = loadedRegistry.pokemons ∧
    (loadFromXmlNode sampleSpeciesEnv 2 false loadedRegistry
        { name := "Rattata", file := "rattata.xml" }).unloadedPokemons =
      emplace loadedRegistry.unloadedPokemons (asLowerCaseString "Rattata")
        ("data/pokemons/" ++ "rattata.xml") ∧
    ((loadFromXmlNode sampleSpeciesEnv 2 false loadedRegistry
        { name := "Rattata", file := "rattata.xml" }).unloadedPokemons.lookup
      (asLowerCaseString "Rattata")).isSome :=
  ⟨Or.inl rfl,
    (loadFromXml_entries sampleSpeciesEnv 2 false loadedRegistry sampleManifest
      { name := "Rattata", file := "rattata.xml" }).2.2.1 (Or.inl rfl)⟩

/-- C14 as stated fails in the mode that is not reloading: `Rattata` is in the
loaded map (with no moves), and `loadFromXml(false)` registers it in the
unloaded map and does not load it again (its entry still has no moves), while
`loadFromXml(true)` loads it again (three moves) and does not register it. -/
theorem loadFromXml_not_reloading_counterexample :
    (loadedRegistry.find "rattata").isSome = true ∧
    (loadFromXml sampleSpeciesEnv 2 (some sampleManifest) false loadedRegistry).2.unloadedPokemons =
      [("rattata", "data/pokemons/rattata.xml"), ("pidgey", "data/pokemons/pidgey.xml")] ∧
    (loadFromXml sampleSpeciesEnv 2 (some sampleManifest) false loadedRegistry).2.pokemons.map
      (fun e => (e.1, e.2.info.attackMoves.length)) = [("rattata", 0)] ∧
    (loadFromXml sampleSpeciesEnv 2 (some sampleManifest) true loadedRegistry).2.unloadedPokemons =
      [("pidgey", "data/pokemons/pidgey.xml")] ∧
    (loadFromXml sampleSpeciesEnv 2 (some sampleManifest) true loadedRegistry).2.pokemons.map
      (fun e => (e.1, e.2.info.attackMoves.length)) = [("rattata", 3)] := by
  decide

/-- C16, as the code has it: with a manifest that cannot be read or parsed,
`loadFromXml` and `reload` return `false` and leave the loaded map as it is;
the unloaded map is emptied by both; `loadFromXml` leaves the `loaded` flag as
it is and `reload` leaves it `false`. -/
theorem loadFromXml_unreadable (env : SpeciesEnv) (depth : Nat) (reloading : Bool)
    (reg : Pokemons) :
    (loadFromXml env depth none reloading reg).1 = false ∧
    (loadFromXml env depth none reloading reg).2.pokemons = reg.pokemons ∧
    (loadFromXml env depth none reloading reg).2.loaded = reg.loaded ∧
    (loadFromXml env depth none reloading reg).2.unloadedPokemons = [] ∧
    (reload env depth none reg).1 = false ∧
    (reload env depth none reg).2.pokemons = reg.pokemons ∧
    (reload env depth none reg).2.loaded = false ∧
    (reload env depth none reg).2.unloadedPokemons = [] :=
  ⟨rfl, rfl, rfl, rfl, rfl, rfl, rfl, rfl⟩

/-- C16 as stated fails: in the sample registry two species are registered as
unloaded and the `loaded` flag is set; after a `loadFromXml` or a `reload` with
an unreadable manifest nothing is registered any more, and after the `reload`
the flag is `false`. -/
theorem loadFromXml_unreadable_counterexample :
    sampleRegistry.unloadedPokemons.length = 2 ∧ sampleRegistry.loaded = true ∧
    (loadFromXml sampleSpeciesEnv 2 none false sampleRegistry).2.unloadedPokemons.length = 0 ∧
    (reload sampleSpeciesEnv 2 none sampleRegistry).2.unloadedPokemons.length = 0 ∧
    (reload sampleSpeciesEnv 2 none sampleRegistry).2.loaded = false := by
  decide

/-! ### Loot-table loading -/

/-- The nested entries of a container entry are the accepted child nodes, in
order. -/
theorem loadLootContainer_eq_filterMap (env : Env) (children : List LootNode) :
    loadLootContainer env children = children.filterMap (loadLootItem env) := by
  induction children with
  | nil => simp [loadLootContainer]
  | cons sub rest ih =>
    rw [loadLootContainer]
    cases h : loadLootItem env sub with
    | none => simp [List.filterMap_cons, h, ih]
    | some lb => simp [List.filterMap_cons, h, ih]

/-- A node is accepted exactly when it resolves to a nonzero identifier, and
then the entry has that identifier, the stored `countmax` and the stored
`chance`. -/
theorem loadLootItem_eq (env : Env) (node : LootNode) :
    (∀ lid, resolveLootId env node.id node.name = some lid → lid ≠ 0 →
      ∃ lb, loadLootItem env node = some lb ∧ lb.id = lid ∧
        lb.countmax = lootCountmax node.countmax ∧
        lb.chance = lootChance env node.chance node.chance1) ∧
    (resolveLootId env node.id node.name = none ∨
      resolveLootId env node.id node.name = some 0 → loadLootItem env node = none) := by
  obtain ⟨id, name, countmax, chance, chance1, subtype, actionId, text, children⟩ := node
  constructor
  · intro lid hres hnz
    simp only at hres
    simp only [loadLootItem, hres, hnz, if_false]
    exact ⟨_, rfl, rfl, rfl, rfl⟩
  · intro h
    simp only at h
    rcases h with h | h
    · simp [loadLootItem, h]
    · simp [loadLootItem, h]

/-- C17: a loot node whose item resolves to a nonzero identifier is accepted by
`loadLootItem`, with `countmax = 1` when no `countmax` attribute is given and
`max(1, v)` when it is given as `v` (an `int32_t`), and with
`chance = MAX_LOOTCHANCE` when neither `chance` nor `chance1` is given.  A node
without `id` whose name is unknown or not unique, and a node that resolves to
the identifier 0, is rejected, and a rejected node is dropped from the table
and from the nested entries of a container with every other entry kept, in
order. -/
theorem loadLootItem_defaults (env : Env) (node : LootNode) :
    (∀ lid, resolveLootId env node.id node.name = some lid → lid ≠ 0 →
      ∃ lb, loadLootItem env node = some lb ∧ lb.id = lid ∧
        (node.countmax = none → lb.countmax = 1) ∧
        (∀ v, node.countmax = some v → v < 2147483648 → (lb.countmax : Int) = max 1 v) ∧
        (node.chance = none → node.chance1 = none → lb.chance = env.MAX_LOOTCHANCE)) ∧
    ((node.id = none ∧ ∃ n, node.name = some n ∧
        (env.nameToItems (asLowerCaseString n)).length ≠ 1) ∨
      resolveLootId env node.id node.name = some 0 →
      loadLootItem env node = none ∧
      ∀ (pre post : List LootNode) (items : List LootBlock),
        loadLootSection env (pre ++ node :: post) items =
          loadLootSection env (pre ++ post) items ∧
        loadLootContainer env (pre ++ node :: post) = loadLootContainer env (pre ++ post)) := by
  constructor
  · intro lid hres hnz
    obtain ⟨lb, hlb, hid, hcm, hch⟩ := (loadLootItem_eq env node).1 lid hres hnz
    refine ⟨lb, hlb, hid, ?_, ?_, ?_⟩
    · intro hnone
      rw [hcm, hnone]
      rfl
    · intro v hv hlt
      rw [hcm, hv]
      simp only [lootCountmax, toUInt32]
      have h1 : (max 1 v) % 4294967296 = max 1 v := by
        apply Int.emod_eq_of_lt <;> omega
      rw [h1]
      omega
    · intro h1 h2
      rw [hch, h1, h2]
      rfl
  · intro hbad
    have hrej : loadLootItem env node = none := by
      apply (loadLootItem_eq env node).2
      rcases hbad with ⟨hid, n, hn, hlen⟩ | h0
      · left
        simp only [resolveLootId, hid, hn]
        rcases hl : env.nameToItems (asLowerCaseString n) with _ | ⟨a, _ | ⟨b, rest⟩⟩
        · rfl
        · rw [hl] at hlen
          simp at hlen
        · rfl
      · right
        exact h0
    refine ⟨hrej, fun pre post items => ⟨?_, ?_⟩⟩
    · simp [loadLootSection, List.filterMap_append, List.filterMap_cons, hrej]
    · simp [loadLootContainer_eq_filterMap, List.filterMap_append, List.filterMap_cons, hrej]

/-- Instance of C17: the node `id = 20` without further attributes, and the
node named `berry`, a name that two items share. -/
theorem loadLootItem_defaults_witness :
    (resolveLootId (sampleEnv 900 1 0) (some 20) none = some 20 ∧ (20 : Nat) ≠ 0 ∧
      ∃ lb, loadLootItem (sampleEnv 900 1 0) { id := some 20, children := [] } = some lb ∧
        lb.id = 20 ∧ lb.countmax = 1 ∧ lb.chance = (sampleEnv 900 1 0).MAX_LOOTCHANCE) ∧
    (((sampleEnv 900 1 0).nameToItems (asLowerCaseString "Berry")).length ≠ 1 ∧
      loadLootItem (sampleEnv 900 1 0) { name := some "Berry", children := [] } = none) :=
  ⟨⟨rfl, by decide, by
      obtain ⟨lb, h1, h2, h3, -, h5⟩ :=
        (loadLootItem_defaults (sampleEnv 900 1 0) { id := some 20, children := [] }).1 20 rfl
          (by decide)
      exact ⟨lb, h1, h2, h3 rfl, h5 rfl rfl⟩⟩,
    ⟨by decide,
      ((loadLootItem_defaults (sampleEnv 900 1 0) { name := some "Berry", children := [] }).2
        (Or.inl ⟨rfl, "Berry", rfl, by decide⟩)).1⟩⟩

/-! ### Flags -/

/-- After a `flags` section a species that can push creatures is not pushable,
whatever the flag nodes and their order. -/
theorem loadFlags_push_rule (nodes : List FlagNode) (f : PokemonFlags) :
    (loadFlags (some nodes) f).canPushCreatures = true →
      (loadFlags (some nodes) f).pushable = false := by
  simp only [loadFlags]
  split
  · intro _
    rfl
  · rename_i h
    intro h2
    exact absurd h2 h

/-- C18: a species that `loadPokemon` returns satisfies "`canPushCreatures`
implies `pushable = false`".  With a `flags` section this holds for every
combination and order of flag nodes.  Without one the flags are those the entry
starts with, so it holds when a value-initialised `info` satisfies the rule and
the species that was loaded under the name before, if any, satisfies it. -/
theorem loadPokemon_push_rule (env : SpeciesEnv) (depth : Nat) (file pokemonName : String)
    (reloading : Bool) (reg : Pokemons) (t : PokemonType)
    (hres : (loadPokemon env (lookupOutfit env depth) file pokemonName reloading reg).1 = some t) :
    (∀ pn, env.loadFile file = some (some pn) → pn.flags.isSome →
      (t.info.flags.canPushCreatures = true → t.info.flags.pushable = false)) ∧
    ((env.freshFlags.canPushCreatures = true → env.freshFlags.pushable = false) →
      (∀ t0, reg.find (asLowerCaseString pokemonName) = some t0 →
        (t0.info.flags.canPushCreatures = true → t0.info.flags.pushable = false)) →
      (t.info.flags.canPushCreatures = true → t.info.flags.pushable = false)) := by
  -- the definition was readable and had a name, or nothing would have been returned
  obtain ⟨pn, nm, hfile, hname⟩ : ∃ pn nm, env.loadFile file = some (some pn) ∧ pn.name = some nm := by
    rcases hf : env.loadFile file with _ | _ | pn
    · rw [loadPokemon_unreadable env _ file pokemonName reloading reg (Or.inl hf)] at hres
      cases hres
    · rw [loadPokemon_unreadable env _ file pokemonName reloading reg (Or.inr (Or.inl hf))] at hres
      cases hres
    · rcases hn : pn.name with _ | nm
      · rw [loadPokemon_unreadable env _ file pokemonName reloading reg
          (Or.inr (Or.inr ⟨pn, hf, hn⟩))] at hres
        cases hres
      · exact ⟨pn, nm, rfl, hn⟩
  obtain ⟨t', h1, -, -, -, hflags⟩ := loadPokemon_compiled env (lookupOutfit env depth) file
    pokemonName reloading reg pn nm hfile hname
    (fun n r t h => getPokemonType_keeps env depth n r _ t h)
  rw [hres] at h1
  cases h1
  constructor
  · intro pn2 hfile2 hsome
    rw [hfile] at hfile2
    cases hfile2
    rw [hflags]
    obtain ⟨nodes, hn⟩ := Option.isSome_iff_exists.mp hsome
    rw [hn]
    exact loadFlags_push_rule nodes _
  · intro hfresh hreg
    rw [hflags]
    cases hfl : pn.flags with
    | some nodes => exact loadFlags_push_rule nodes _
    | none =>
      simp only [loadFlags, targetType]
      cases hfind : reg.find (asLowerCaseString pokemonName) with
      | none => exact hfresh
      | some t0 =>
        dsimp only
        split
        · exact hfresh
        · exact hreg t0 hfind

/-- Instance of C18: the definition of `Machop` sets `pushable`, then
`canPushCreatures`, then `pushable` again; the species is loaded as one that
can push creatures and is not pushable. -/
theorem loadPokemon_push_rule_witness :
    (loadPokemon flagsEnv (lookupOutfit flagsEnv 2) "data/pokemons/machop.xml" "Machop" false
      sampleRegistry).1.map (fun t => (t.info.flags.canPushCreatures, t.info.flags.pushable)) =
      some (true, false) ∧
    ∃ t, (loadPokemon flagsEnv (lookupOutfit flagsEnv 2) "data/pokemons/machop.xml" "Machop" false
        sampleRegistry).1 = some t ∧
      (t.info.flags.canPushCreatures = true → t.info.flags.pushable = false) :=
  ⟨by decide,
    (Option.isSome_iff_exists.mp (by decide :
      (loadPokemon flagsEnv (lookupOutfit flagsEnv 2) "data/pokemons/machop.xml" "Machop" false
        sampleRegistry).1.isSome = true)).elim
      (fun t ht => ⟨t, ht,
        (loadPokemon_push_rule flagsEnv 2 "data/pokemons/machop.xml" "Machop" false sampleRegistry
          t ht).1 machopNode rfl rfl⟩)⟩

/-! ### Trigger chance and range of a move -/

/-- The trigger chance of an accepted binding is the one read from the
descriptor, and its range is the one read from the descriptor or, for a built-in
`melee` move, 1. -/
theorem deserializeMove_chance_range {σ : Type} (env : MoveEnv)
    (cb : String → σ → Option Outfit × σ) (node : MoveNode) (sb : moveBlock_t) (s : σ)
    (mb : moveBlock_t) (h : (deserializeMove env cb node sb s).1 = some mb) :
    mb.chance = (readMoveAttributes env node sb).chance ∧
    (mb.range = (readMoveAttributes env node sb).range ∨ mb.range = 1) := by
  unfold deserializeMove at h
  split at h
  · simp at h
  · dsimp only at h
    split at h
    · simp only [Option.some.injEq] at h
      subst h
      exact ⟨rfl, Or.inl rfl⟩
    · split at h
      · simp only [scriptedMove] at h
        split at h
        · split at h
          · simp only [Option.some.injEq] at h
            subst h
            exact ⟨rfl, Or.inl rfl⟩
          · simp at h
        · simp at h
      · split at h
        · simp at h
        · simp only [Option.some.injEq] at h
          subst h
          dsimp only
          split
          · refine ⟨?_, Or.inr ?_⟩
            · unfold meleeBlock
              split <;> rfl
            · unfold meleeBlock
              split <;> rfl
          · exact ⟨rfl, Or.inl rfl⟩

theorem readMoveAttributes_chance_range (env : MoveEnv) (node : MoveNode) (sb : moveBlock_t) :
    (readMoveAttributes env node sb).chance =
      (match node.chance with
        | some v => min v 100
        | none => sb.chance) ∧
    (readMoveAttributes env node sb).range =
      (match node.range with
        | some r => min r (env.maxViewportX * 2)
        | none => sb.range) := by
  have hc : (readMoveAttributes env node sb).chance =
      (match node.chance with
        | some v => if v > 100 then 100 else v
        | none => sb.chance) := by
    simp only [readMoveAttributes]
    cases node.speed.orElse (fun _ => node.interval) <;> cases node.chance <;> cases node.range <;>
      cases node.min <;> cases node.max <;> dsimp only <;> (try split) <;> rfl
  have hr : (readMoveAttributes env node sb).range =
      (match node.range with
        | some r => if r > env.maxViewportX * 2 then env.maxViewportX * 2 else r
        | none => sb.range) := by
    simp only [readMoveAttributes]
    cases node.speed.orElse (fun _ => node.interval) <;> cases node.chance <;> cases node.range <;>
      cases node.min <;> cases node.max <;> dsimp only <;> (try split) <;> rfl
  constructor
  · rw [hc]
    cases node.chance with
    | none => rfl
    | some v =>
      dsimp only
      split <;> omega
  · rw [hr]
    cases node.range with
    | none => rfl
    | some r =>
      dsimp only
      split <;> omega

/-- C19: a descriptor with a `chance` attribute of unsigned value `v` that
`deserializeMove` accepts is stored with the trigger chance `min(v, 100)`, which
lies in `[0, 100]`; a `range` attribute `r` is stored as
`min(r, 2 * Map::maxViewportX)` unless the built-in `melee` branch sets the
range to 1; and so the stored range of every accepted descriptor is at most
`2 * Map::maxViewportX`, given that the viewport constant is at least 1 and the
binding does not start above that bound. -/
theorem deserializeMove_chance_clamped {σ : Type} (env : MoveEnv)
    (cb : String → σ → Option Outfit × σ) (node : MoveNode) (sb : moveBlock_t) (s : σ)
    (mb : moveBlock_t) (h : (deserializeMove env cb node sb s).1 = some mb) :
    (∀ v, node.chance = some v → mb.chance = min v 100 ∧ mb.chance ≤ 100) ∧
    (∀ r, node.range = some r → mb.range = min r (2 * env.maxViewportX) ∨ mb.range = 1) ∧
    (1 ≤ env.maxViewportX → sb.range ≤ 2 * env.maxViewportX →
      mb.range ≤ 2 * env.maxViewportX) := by
  obtain ⟨hc, hr⟩ := deserializeMove_chance_range env cb node sb s mb h
  obtain ⟨ec, er⟩ := readMoveAttributes_chance_range env node sb
  refine ⟨?_, ?_, ?_⟩
  · intro v hv
    rw [hc, ec, hv]
    exact ⟨rfl, Nat.min_le_right v 100⟩
  · intro r hrng
    rcases hr with hr | hr
    · left
      rw [hr, er, hrng, Nat.mul_comm]
    · right
      exact hr
  · intro hM hsb
    rcases hr with hr | hr
    · rw [hr, er]
      cases node.range with
      | none => exact hsb
      | some r =>
        dsimp only
        omega
    · omega

/-- Instance of C19: the sample `speed` descriptor with `chance = 250` and
`range = 99`, with a viewport constant of 8. -/
theorem deserializeMove_chance_clamped_witness :
    (1 ≤ sampleMoveEnv.maxViewportX ∧
      ({} : moveBlock_t).range ≤ 2 * sampleMoveEnv.maxViewportX) ∧
    (deserializeMove sampleMoveEnv (noLookup Unit) slowNode {} ()).1.map
      (fun mb => (mb.chance, mb.range)) = some (100, 16) ∧
    ∃ mb, (deserializeMove sampleMoveEnv (noLookup Unit) slowNode {} ()).1 = some mb ∧
      (mb.chance = min 250 100 ∧ mb.chance ≤ 100) ∧ mb.range ≤ 2 * sampleMoveEnv.maxViewportX :=
  ⟨by decide, by decide,
    (Option.isSome_iff_exists.mp (by decide :
      (deserializeMove sampleMoveEnv (noLookup Unit) slowNode {} ()).1.isSome = true)).elim
      (fun mb hmb => ⟨mb, hmb,
        (deserializeMove_chance_clamped sampleMoveEnv (noLookup Unit) slowNode {} () mb hmb).1
          250 rfl,
        (deserializeMove_chance_clamped sampleMoveEnv (noLookup Unit) slowNode {} () mb hmb).2.2
          (by decide) (by decide)⟩)⟩

/-! ### Built-in moves: the speed move -/

theorem moveEffects_conditions (env : MoveEnv) (nodes : List MoveAttributeNode) (combat : Combat) :
    (moveEffects env nodes combat).conditions = combat.conditions ∧
    (moveEffects env nodes combat).aggressive = combat.aggressive := by
  induction nodes generalizing combat with
  | nil => exact ⟨rfl, rfl⟩
  | cons a rest ih =>
    simp only [moveEffects]
    obtain ⟨i1, i2⟩ := ih (match a.key with
      | some key =>
        if asLowerCaseString key = "shooteffect" then
          match a.value with
          | some value =>
            match env.getShootType (asLowerCaseString value) with
            | some shoot => { combat with distanceEffect := some shoot }
            | none => combat
          | none => combat
        else if asLowerCaseString key = "areaeffect" then
          match a.value with
          | some value =>
            match env.getMagicEffect (asLowerCaseString value) with
            | some effect => { combat with effect := some effect }
            | none => combat
          | none => combat
        else combat
      | none => combat)
    rw [i1, i2]
    split
    · split
      · split
        · split <;> exact ⟨rfl, rfl⟩
        · exact ⟨rfl, rfl⟩
      · split
        · split
          · split <;> exact ⟨rfl, rfl⟩
          · exact ⟨rfl, rfl⟩
        · exact ⟨rfl, rfl⟩
    · exact ⟨rfl, rfl⟩

theorem moveArea_conditions (node : MoveNode) (combat : Combat) :
    (moveArea node combat).1.conditions = combat.conditions ∧
    (moveArea node combat).1.aggressive = combat.aggressive := by
  unfold moveArea
  cases node.length with
  | none => cases node.radius <;> exact ⟨rfl, rfl⟩
  | some l =>
    by_cases hl : l > 0
    · simp only [hl, if_true]
      cases node.radius <;> exact ⟨rfl, rfl⟩
    · simp only [hl, if_false]
      cases node.radius <;> exact ⟨rfl, rfl⟩

/-- The binding that `deserializeMove` builds for a built-in move, given the
combat that the keyword dispatch delivers. -/
theorem deserializeMove_builtin {σ : Type} (env : MoveEnv)
    (cb : String → σ → Option Outfit × σ) (node : MoveNode) (sb : moveBlock_t) (s : σ)
    (n : String) (hscript : node.script = none) (hname : node.name = some n)
    (hshared : env.getMoveByName n = none) (c : Combat) (s1 : σ)
    (hk : moveKeyword cb node (asLowerCaseString n) (readMoveAttributes env node sb)
      (moveArea node env.freshCombat).1 s = (some c, s1)) :
    ∃ mb cm, deserializeMove env cb node sb s = (some mb, s1) ∧
      mb.move = MoveRef.owned cm ∧ mb.combatMove = true ∧
      mb.minCombatValue = (if asLowerCaseString n = "melee"
        then meleeBlock node (readMoveAttributes env node sb)
        else readMoveAttributes env node sb).minCombatValue ∧
      mb.maxCombatValue = (if asLowerCaseString n = "melee"
        then meleeBlock node (readMoveAttributes env node sb)
        else readMoveAttributes env node sb).maxCombatValue ∧
      cm.combat = moveEffects env node.children
        (c.setPlayerCombatValues mb.minCombatValue 0 mb.maxCombatValue 0) ∧
      cm.needTarget = (moveArea node env.freshCombat).2.1 ∧
      cm.needDirection = (moveArea node env.freshCombat).2.2 := by
  refine ⟨{ (if asLowerCaseString n = "melee" then meleeBlock node (readMoveAttributes env node sb)
        else readMoveAttributes env node sb) with
      move := MoveRef.owned
        { combat := moveEffects env node.children
            (c.setPlayerCombatValues
              (if asLowerCaseString n = "melee" then meleeBlock node (readMoveAttributes env node sb)
                else readMoveAttributes env node sb).minCombatValue 0
              (if asLowerCaseString n = "melee" then meleeBlock node (readMoveAttributes env node sb)
                else readMoveAttributes env node sb).maxCombatValue 0),
          needTarget := (moveArea node env.freshCombat).2.1,
          needDirection := (moveArea node env.freshCombat).2.2 },
      combatMove := true },
    { combat := moveEffects env node.children
        (c.setPlayerCombatValues
          (if asLowerCaseString n = "melee" then meleeBlock node (readMoveAttributes env node sb)
            else readMoveAttributes env node sb).minCombatValue 0
          (if asLowerCaseString n = "melee" then meleeBlock node (readMoveAttributes env node sb)
            else readMoveAttributes env node sb).maxCombatValue 0),
      needTarget := (moveArea node env.freshCombat).2.1,
      needDirection := (moveArea node env.freshCombat).2.2 },
    ?_, rfl, rfl, rfl, rfl, rfl, rfl, rfl⟩
  simp only [deserializeMove, hscript, hname, hshared, hk]
  simp

/-- C20: a non-scripted descriptor named `speed` (in any letter case, not a
shared move of the catalogue) is accepted with one condition added to the fresh
combat.  With `s` its `speedchange` attribute (0 when absent) the speed change
of the condition is `max(s, -1000)`; when that is greater than 0 the condition
is a haste condition and the effect is not aggressive; otherwise it is a
paralyze condition and the aggressive flag is the one of a fresh combat. -/
theorem deserializeMove_speed {σ : Type} (env : MoveEnv)
    (cb : String → σ → Option Outfit × σ) (node : MoveNode) (sb : moveBlock_t) (s : σ)
    (n : String) (hscript : node.script = none) (hname : node.name = some n)
    (hspeed : asLowerCaseString n = "speed") (hshared : env.getMoveByName n = none) :
    ∃ mb cm, (deserializeMove env cb node sb s).1 = some mb ∧ mb.move = MoveRef.owned cm ∧
      (0 < max (node.speedchange.getD 0) (-1000) →
        cm.combat.conditions =
          Condition.speed ConditionType.CONDITION_HASTE (moveDuration node)
            (max (node.speedchange.getD 0) (-1000)) :: env.freshCombat.conditions ∧
        cm.combat.aggressive = false) ∧
      (max (node.speedchange.getD 0) (-1000) ≤ 0 →
        cm.combat.conditions =
          Condition.speed ConditionType.CONDITION_PARALYZE (moveDuration node)
            (max (node.speedchange.getD 0) (-1000)) :: env.freshCombat.conditions ∧
        cm.combat.aggressive = env.freshCombat.aggressive) := by
  have hk : moveKeyword cb node (asLowerCaseString n) (readMoveAttributes env node sb)
      (moveArea node env.freshCombat).1 s =
      (some (speedMove node (moveArea node env.freshCombat).1), s) := by
    rw [hspeed]
    simp [moveKeyword]
  obtain ⟨mb, cm, hres, hmove, -, -, -, hcombat, -, -⟩ :=
    deserializeMove_builtin env cb node sb s n hscript hname hshared _ _ hk
  obtain ⟨e1, e2⟩ := moveEffects_conditions env node.children
    ((speedMove node (moveArea node env.freshCombat).1).setPlayerCombatValues
      mb.minCombatValue 0 mb.maxCombatValue 0)
  obtain ⟨a1, a2⟩ := moveArea_conditions node env.freshCombat
  have hsc : (match node.speedchange with
      | some v => if v < -1000 then -1000 else v
      | none => (0 : Int)) = max (node.speedchange.getD 0) (-1000) := by
    cases node.speedchange with
    | none => simp
    | some v =>
      simp only [Option.getD_some]
      split <;> omega
  refine ⟨mb, cm, by rw [hres], hmove, ?_, ?_⟩
  · intro hpos
    rw [hcombat, e1, e2]
    simp only [Combat.setPlayerCombatValues, speedMove, hsc, hpos, if_true, Combat.addCondition,
      a1, moveDuration]
    exact ⟨trivial, trivial⟩
  · intro hneg
    have hnot : ¬ (0 < max (node.speedchange.getD 0) (-1000)) := by omega
    rw [hcombat, e1, e2]
    simp only [Combat.setPlayerCombatValues, speedMove, hsc, gt_iff_lt, hnot, if_false,
      Combat.addCondition, a1, a2, moveDuration]
    exact ⟨trivial, trivial⟩

/-- The descriptor `speed` with `speedchange = 300` and no duration gets one
haste condition of 10000 ms and is not aggressive. -/
theorem deserializeMove_haste_example :
    (deserializeMove sampleMoveEnv (noLookup Unit) hasteNode {} ()).1.map
      (fun mb => match mb.move with
        | MoveRef.owned cm => (cm.combat.conditions, cm.combat.aggressive)
        | _ => ([], true)) =
      some ([Condition.speed ConditionType.CONDITION_HASTE 10000 300], false) := by
  decide

/-- Instance of C20: the descriptor `Speed` with `speedchange = -4000` and
`duration = 6000` gets one paralyze condition with the speed change `-1000` and
stays aggressive. -/
theorem deserializeMove_speed_witness :
    asLowerCaseString "Speed" = "speed" ∧ sampleMoveEnv.getMoveByName "Speed" = none ∧
    max (slowNode.speedchange.getD 0) (-1000) ≤ 0 ∧
    (deserializeMove sampleMoveEnv (noLookup Unit) slowNode {} ()).1.map
      (fun mb => match mb.move with
        | MoveRef.owned cm => (cm.combat.conditions, cm.combat.aggressive)
        | _ => ([], false)) =
      some ([Condition.speed ConditionType.CONDITION_PARALYZE 6000 (-1000)], true) ∧
    ∃ mb cm, (deserializeMove sampleMoveEnv (noLookup Unit) slowNode {} ()).1 = some mb ∧
      mb.move = MoveRef.owned cm ∧
      cm.combat.conditions =
        Condition.speed ConditionType.CONDITION_PARALYZE (moveDuration slowNode)
          (max (slowNode.speedchange.getD 0) (-1000)) :: sampleMoveEnv.freshCombat.conditions ∧
      cm.combat.aggressive = sampleMoveEnv.freshCombat.aggressive :=
  ⟨by decide, by decide, by decide, by decide,
    (deserializeMove_speed sampleMoveEnv (noLookup Unit) slowNode {} () "Speed" rfl rfl
      (by decide) (by decide)).elim
      (fun mb h => h.elim (fun cm hcm => ⟨mb, cm, hcm.1, hcm.2.1, hcm.2.2.2 (by decide)⟩))⟩

/-! ### The bound on nested loads -/

/-- `deserializeMove` uses the registry lookup at the state it is given only. -/
theorem deserializeMove_congr {σ : Type} (env : MoveEnv)
    (cb1 cb2 : String → σ → Option Outfit × σ) (node : MoveNode) (sb : moveBlock_t) (s : σ)
    (h : ∀ n, cb1 n s = cb2 n s) :
    deserializeMove env cb1 node sb s = deserializeMove env cb2 node sb s := by
  have hk : ∀ t sb1 c, moveKeyword cb1 node t sb1 c s = moveKeyword cb2 node t sb1 c s := by
    intro t sb1 c
    simp only [moveKeyword, outfitMove, h]
  simp only [deserializeMove, hk]

theorem loadMoveList_congr (env : SpeciesEnv)
    (cb1 cb2 : String → Pokemons → Option Outfit × Pokemons) (key : String) (attack : Bool)
    (P : Pokemons → Prop) (hcb : ∀ n r, P r → P (cb1 n r).2)
    (hset : ∀ r t, P r → P (r.set key t))
    (hagree : ∀ n r, P r → cb1 n r = cb2 n r)
    (nodes : List MoveNode) (reg : Pokemons) (h : P reg) :
    loadMoveList env cb1 key attack nodes reg = loadMoveList env cb2 key attack nodes reg := by
  induction nodes generalizing reg with
  | nil => rfl
  | cons node rest ih =>
    have hfr := deserializeMove_preserves env.moves cb1 P hcb node env.freshMoveBlock reg h
    have hc := deserializeMove_congr env.moves cb1 cb2 node env.freshMoveBlock reg
      (fun n => hagree n reg h)
    simp only [loadMoveList]
    rw [← hc]
    rcases hd : deserializeMove env.moves cb1 node env.freshMoveBlock reg with ⟨_ | sb, reg1⟩
    · rw [hd] at hfr
      exact ih reg1 hfr
    · rw [hd] at hfr
      exact ih _ (modify_preserves P key hset _ reg1 hfr)

/-- Two registry lookups that agree on every registry the load can reach give
the same load. -/
theorem loadPokemon_congr (env : SpeciesEnv)
    (cb1 cb2 : String → Pokemons → Option Outfit × Pokemons)
    (file pokemonName : String) (reloading : Bool) (reg : Pokemons)
    (P : Pokemons → Prop) (hcb : ∀ n r, P r → P (cb1 n r).2)
    (hset : ∀ r t, P r → P (r.set (asLowerCaseString pokemonName) t))
    (hagree : ∀ n r, P r → cb1 n r = cb2 n r)
    (hstart : ∀ t, P (reg.set (asLowerCaseString pokemonName) t)) :
    loadPokemon env cb1 file pokemonName reloading reg =
      loadPokemon env cb2 file pokemonName reloading reg := by
  have hA : ∀ att r, P r →
      loadAttacks env cb1 (asLowerCaseString pokemonName) att r =
        loadAttacks env cb2 (asLowerCaseString pokemonName) att r ∧
      P (loadAttacks env cb1 (asLowerCaseString pokemonName) att r) := by
    intro att r hr
    unfold loadAttacks
    cases att with
    | none => exact ⟨rfl, hr⟩
    | some nodes =>
      exact ⟨loadMoveList_congr env cb1 cb2 _ true P hcb hset hagree nodes r hr,
        loadMoveList_preserves env cb1 _ true P hcb hset nodes r hr⟩
  have hD : ∀ dfs r, P r →
      loadDefenses env cb1 (asLowerCaseString pokemonName) dfs r =
        loadDefenses env cb2 (asLowerCaseString pokemonName) dfs r := by
    intro dfs r hr
    unfold loadDefenses
    cases dfs with
    | none => rfl
    | some node =>
      exact loadMoveList_congr env cb1 cb2 _ false P hcb hset hagree node.children _
        (modify_preserves P _ hset _ r hr)
  unfold loadPokemon
  split
  · rfl
  · rfl
  · split
    · rfl
    · dsimp only
      obtain ⟨e1, p1⟩ := hA _ _ (hstart _)
      rw [← e1, ← hD _ _ p1]

theorem countP_lt_of_flip (l : List String) (p q : String → Bool) (key : String)
    (hpq : ∀ k, p k = true → q k = true) (hmem : key ∈ l) (hq : q key = true)
    (hp : p key = false) : l.countP p < l.countP q := by
  induction l with
  | nil => cases hmem
  | cons a rest ih =>
    have hle : rest.countP p ≤ rest.countP q :=
      List.countP_mono_left (fun k _ hk => hpq k hk)
    rcases List.mem_cons.mp hmem with rfl | hm
    · rw [List.countP_cons_of_pos _ _ hq, List.countP_cons_of_neg _ _ (by simp [hp])]
      omega
    · have := ih hm
      by_cases hpa : p a = true
      · rw [List.countP_cons_of_pos _ _ hpa, List.countP_cons_of_pos _ _ (hpq a hpa)]
        omega
      · by_cases hqa : q a = true
        · rw [List.countP_cons_of_neg _ _ hpa, List.countP_cons_of_pos _ _ hqa]
          omega
        · rw [List.countP_cons_of_neg _ _ hpa, List.countP_cons_of_neg _ _ hqa]
          exact this

theorem lookup_mem_keys (m : List (String × String)) (key file : String)
    (h : m.lookup key = some file) : key ∈ m.map Prod.fst := by
  induction m with
  | nil => cases h
  | cons kv rest ih =>
    obtain ⟨k0, v0⟩ := kv
    rw [List.lookup_cons] at h
    cases hb : key == k0 with
    | true =>
      have : key = k0 := by simpa using hb
      simp [this]
    | false =>
      rw [hb] at h
      simp only [List.map_cons, List.mem_cons]
      exact Or.inr (ih h)

/-- A registry that has the same unloaded map, keeps every loaded species and
has loaded one more registered name has fewer pending loads. -/
theorem pendingLoads_lt (reg r : Pokemons) (key file : String)
    (hun : r.unloadedPokemons = reg.unloadedPokemons)
    (hkeep : ∀ k, (reg.find k).isSome → (r.find k).isSome)
    (hreg : reg.unloadedPokemons.lookup key = some file) (hmiss : reg.find key = none)
    (hnow : (r.find key).isSome) : pendingLoads r < pendingLoads reg := by
  unfold pendingLoads
  rw [hun]
  apply countP_lt_of_flip _ _ _ key
  · intro k hk
    cases hf : reg.find k with
    | none => rfl
    | some t =>
      have := hkeep k (by rw [hf]; rfl)
      cases hr : r.find k with
      | none => rw [hr] at this; cases this
      | some t2 => rw [hr] at hk; cases hk
  · exact lookup_mem_keys _ key file hreg
  · rw [hmiss]; rfl
  · cases hr : r.find key with
    | none => rw [hr] at hnow; cases hnow
    | some t => rfl

/-- The bound on the nesting of loads is met by the number of pending loads:
from that depth on, a larger bound does not change the answer of
`getPokemonType` nor the registry it leaves. -/
theorem getPokemonType_stable (env : SpeciesEnv) (depth : Nat) :
    ∀ (name : String) (reg : Pokemons), pendingLoads reg ≤ depth →
      getPokemonType env (depth + 1) name reg = getPokemonType env depth name reg := by
  induction depth with
  | zero =>
    intro name reg hp
    simp only [getPokemonType]
    cases hf : reg.find (asLowerCaseString name) with
    | some t => rfl
    | none =>
      dsimp only
      cases hu : reg.unloadedPokemons.lookup (asLowerCaseString name) with
      | none => rfl
      | some file =>
        exfalso
        have hlt := pendingLoads_lt reg (reg.set (asLowerCaseString name) (freshType env))
          (asLowerCaseString name) file rfl
          (fun k hk => by
            by_cases e : asLowerCaseString name = k
            · rw [← e, find_set_self]; rfl
            · rw [find_set_ne _ _ _ _ e]; exact hk)
          hu hf (by rw [find_set_self]; rfl)
        omega
  | succ d ih =>
    intro name reg hp
    rw [getPokemonType]
    conv => rhs; rw [getPokemonType]
    cases hf : reg.find (asLowerCaseString name) with
    | some t => rfl
    | none =>
      dsimp only
      cases hu : reg.unloadedPokemons.lookup (asLowerCaseString name) with
      | none => rfl
      | some file =>
        dsimp only
        apply loadPokemon_congr env _ _ file name false reg
          (fun r => r.unloadedPokemons = reg.unloadedPokemons ∧
            (r.find (asLowerCaseString name)).isSome ∧
            ∀ k, (reg.find k).isSome → (r.find k).isSome)
        · intro n r ⟨h1, h2, h3⟩
          refine ⟨(getPokemonType_unloaded env (d + 1) n r _ r.loaded ⟨h1, rfl⟩).1, ?_, ?_⟩
          · obtain ⟨t, ht⟩ := Option.isSome_iff_exists.mp h2
            show ((getPokemonType env (d + 1) n r).2.find (asLowerCaseString name)).isSome
            rw [getPokemonType_keeps env (d + 1) n r _ t ht]; rfl
          · intro k hk
            obtain ⟨t, ht⟩ := Option.isSome_iff_exists.mp (h3 k hk)
            show ((getPokemonType env (d + 1) n r).2.find k).isSome
            rw [getPokemonType_keeps env (d + 1) n r _ t ht]; rfl
        · intro r t ⟨h1, _, h3⟩
          refine ⟨h1, by rw [find_set_self]; rfl, ?_⟩
          intro k hk
          by_cases e : asLowerCaseString name = k
          · rw [← e, find_set_self]; rfl
          · rw [find_set_ne _ _ _ _ e]; exact h3 k hk
        · intro n r ⟨h1, h2, h3⟩
          have hlt := pendingLoads_lt reg r (asLowerCaseString name) file h1 h3 hu hf h2
          show outfitOf (getPokemonType env (d + 1) n r) = outfitOf (getPokemonType env d n r)
          rw [ih n r (by omega)]
        · intro t
          refine ⟨rfl, by rw [find_set_self]; rfl, ?_⟩
          intro k hk
          by_cases e : asLowerCaseString name = k
          · rw [← e, find_set_self]; rfl
          · rw [find_set_ne _ _ _ _ e]; exact hk

/-- With a bound of at least the number of pending loads, `getPokemonType` is
the same function whatever the bound. -/
theorem getPokemonType_enough (env : SpeciesEnv) (name : String) (reg : Pokemons) (extra : Nat) :
    getPokemonType env (pendingLoads reg + extra) name reg =
      getPokemonType env (pendingLoads reg) name reg := by
  induction extra with
  | zero => rfl
  | succ k ih =>
    rw [← ih]
    exact getPokemonType_stable env (pendingLoads reg + k) name reg (by omega)

/-- In the sample registry two loads are pending, and the lookup of `Rattata`
with the bound 2 loads both sample species. -/
theorem getPokemonType_enough_example :
    pendingLoads sampleRegistry = 2 ∧
    (getPokemonType sampleSpeciesEnv 2 "Rattata" sampleRegistry).2.pokemons.map Prod.fst =
      ["rattata", "pidgey"] := by
  decide

/-! ### Built-in moves: the pure-condition moves -/

/-- Every pure-condition keyword has a damage category of its own, and none of
them is the keyword `melee`. -/
theorem conditionMoveKind_known :
    ∀ t ∈ conditionMoveNames,
      (conditionMoveKind t).1 ≠ ConditionType.CONDITION_NONE ∧ t ≠ "melee" := by
  decide

/-- The keyword dispatch takes a pure-condition keyword to the pure-condition
branch. -/
theorem moveKeyword_condition {σ : Type} (cb : String → σ → Option Outfit × σ)
    (node : MoveNode) (t : String) (sb : moveBlock_t) (combat : Combat) (s : σ)
    (ht : t ∈ conditionMoveNames) :
    moveKeyword cb node t sb combat s = (some (conditionMove node t sb combat), s) := by
  simp only [conditionMoveNames, List.mem_cons, List.mem_singleton, List.not_mem_nil,
    or_false] at ht
  rcases ht with h | h | h | h | h | h | h | h | h | h | h | h | h <;>
    (subst h; simp [moveKeyword, conditionMoveNames])

/-- C21: a non-scripted descriptor whose name is one of the pure-condition
keywords (in any letter case, not a shared move of the catalogue) is accepted
with one damage condition of the keyword's category added to the fresh combat.
The binding keeps the normalised range, and (for values above the least
`int32_t`, where `std::abs` is defined) `minDamage = |stored min|` and
`maxDamage = |stored max|`; `startDamage` is `|start|` when a `start` attribute
is given with `|start| ≤ minDamage` and 0 otherwise, so that
`startDamage ≤ minDamage`; the tick interval is the `tick` attribute when that
is greater than 0 and the default of the category otherwise. -/
theorem deserializeMove_condition {σ : Type} (env : MoveEnv)
    (cb : String → σ → Option Outfit × σ) (node : MoveNode) (sb : moveBlock_t) (s : σ)
    (n : String) (hscript : node.script = none) (hname : node.name = some n)
    (hcond : asLowerCaseString n ∈ conditionMoveNames) (hshared : env.getMoveByName n = none) :
    ∃ mb cm maxDamage minDamage startDamage tickInterval,
      (deserializeMove env cb node sb s).1 = some mb ∧ mb.move = MoveRef.owned cm ∧
      mb.minCombatValue = (readMoveAttributes env node sb).minCombatValue ∧
      mb.maxCombatValue = (readMoveAttributes env node sb).maxCombatValue ∧
      cm.combat.conditions =
        Condition.damage (conditionMoveKind (asLowerCaseString n)).1 maxDamage minDamage
          startDamage tickInterval :: env.freshCombat.conditions ∧
      (-2147483648 < mb.minCombatValue → minDamage = |mb.minCombatValue|) ∧
      (-2147483648 < mb.maxCombatValue → maxDamage = |mb.maxCombatValue|) ∧
      (node.start = none → startDamage = 0) ∧
      (∀ v, node.start = some v → -2147483648 < v →
        (|v| ≤ minDamage → startDamage = |v|) ∧ (minDamage < |v| → startDamage = 0)) ∧
      (-2147483648 < mb.minCombatValue → startDamage ≤ minDamage) ∧
      (node.tick = none → tickInterval = (conditionMoveKind (asLowerCaseString n)).2) ∧
      (∀ v, node.tick = some v →
        (0 < v → (tickInterval : Int) = v) ∧
        (v ≤ 0 → tickInterval = (conditionMoveKind (asLowerCaseString n)).2)) := by
  have hk := moveKeyword_condition cb node (asLowerCaseString n) (readMoveAttributes env node sb)
    (moveArea node env.freshCombat).1 s hcond
  have hnm : asLowerCaseString n ≠ "melee" := (conditionMoveKind_known _ hcond).2
  obtain ⟨mb, cm, hres, hmove, -, hmin, hmax, hcombat, -, -⟩ :=
    deserializeMove_builtin env cb node sb s n hscript hname hshared _ _ hk
  simp only [hnm, if_false] at hmin hmax
  obtain ⟨e1, -⟩ := moveEffects_conditions env node.children
    ((conditionMove node (asLowerCaseString n) (readMoveAttributes env node sb)
      (moveArea node env.freshCombat).1).setPlayerCombatValues
      mb.minCombatValue 0 mb.maxCombatValue 0)
  obtain ⟨a1, -⟩ := moveArea_conditions node env.freshCombat
  refine ⟨mb, cm, abs32 mb.maxCombatValue, abs32 mb.minCombatValue,
    (match node.start with
      | some v => if abs32 v ≤ abs32 mb.minCombatValue then abs32 v else 0
      | none => 0),
    overrideTick node.tick (conditionMoveKind (asLowerCaseString n)).2,
    by rw [hres], hmove, hmin, hmax, ?_, ?_, ?_, ?_, ?_, ?_, ?_, ?_⟩
  · rw [hcombat, e1]
    simp only [Combat.setPlayerCombatValues, conditionMove, Combat.addCondition,
      getDamageCondition, a1, hmin, hmax]
  · exact fun h => abs32_eq_abs _ h
  · exact fun h => abs32_eq_abs _ h
  · intro h
    rw [h]
  · intro v hv hlow
    rw [hv]
    simp only [abs32_eq_abs v hlow]
    constructor
    · intro hle
      simp [hle]
    · intro hlt
      have : ¬ (|v| ≤ abs32 mb.minCombatValue) := by omega
      simp [this]
  · intro hlow
    have hnn : 0 ≤ abs32 mb.minCombatValue := by
      rw [abs32_eq_abs _ hlow]
      exact abs_nonneg _
    cases node.start with
    | none => exact hnn
    | some v =>
      simp only
      split
      · assumption
      · exact hnn
  · intro h
    rw [h]
    rfl
  · intro v hv
    rw [hv]
    constructor
    · intro hpos
      simp only [overrideTick, gt_iff_lt, hpos, if_true]
      omega
    · intro hneg
      have : ¬ (0 < v) := by omega
      simp only [overrideTick, gt_iff_lt, this, if_false]

/-- The descriptor `poisoncondition` with `min = 5`, `max = 20`, `start = -9`
and `tick = 1500` gets a poison condition with the damages 20 and 5, no start
damage (9 is above the minimum) and the tick interval 1500. -/
theorem deserializeMove_venom_example :
    (deserializeMove sampleMoveEnv (noLookup Unit) venomNode {} ()).1.map
      (fun mb => match mb.move with
        | MoveRef.owned cm => cm.combat.conditions
        | _ => []) =
      some [Condition.damage ConditionType.CONDITION_POISON 20 5 0 1500] := by
  decide

/-- Instance of C21: the descriptor `FireCondition` with `min = -30`,
`max = -10`, `start = 7` and `tick = 0` is stored with the range
`(min = -10, max = -30)` and gets a fire condition with the damages 30 and 10,
the start damage 7 and the default tick interval 10000. -/
theorem deserializeMove_condition_witness :
    asLowerCaseString "FireCondition" ∈ conditionMoveNames ∧
    sampleMoveEnv.getMoveByName "FireCondition" = none ∧
    (deserializeMove sampleMoveEnv (noLookup Unit) burnNode {} ()).1.map
      (fun mb => match mb.move with
        | MoveRef.owned cm => (mb.minCombatValue, mb.maxCombatValue, cm.combat.conditions)
        | _ => (0, 0, [])) =
      some (-10, -30, [Condition.damage ConditionType.CONDITION_FIRE 30 10 7 10000]) ∧
    ∃ mb cm maxDamage minDamage startDamage tickInterval,
      (deserializeMove sampleMoveEnv (noLookup Unit) burnNode {} ()).1 = some mb ∧
      mb.move = MoveRef.owned cm ∧
      cm.combat.conditions =
        Condition.damage (conditionMoveKind (asLowerCaseString "FireCondition")).1 maxDamage
          minDamage startDamage tickInterval :: sampleMoveEnv.freshCombat.conditions ∧
      (-2147483648 < mb.minCombatValue → startDamage ≤ minDamage) :=
  ⟨by decide, by decide, by decide,
    (deserializeMove_condition sampleMoveEnv (noLookup Unit) burnNode {} () "FireCondition"
      rfl rfl (by decide) (by decide)).elim
      (fun mb h1 => h1.elim (fun cm h2 => h2.elim (fun a h3 => h3.elim (fun b h4 =>
        h4.elim (fun c h5 => h5.elim (fun d h =>
          ⟨mb, cm, a, b, c, d, h.1, h.2.1, h.2.2.2.2.1, h.2.2.2.2.2.2.2.2.2.1⟩))))))⟩

/-! ### Materialisation in chunks -/

/-- The attribute overrides leave the count of an item as the factory set it. -/
theorem applyLootAttributes_count (lb : LootBlock) (item : Item) :
    (applyLootAttributes lb item).count = item.count := by
  unfold applyLootAttributes
  split_ifs <;> rfl

/-- One more round than the rounds the quantity needs changes nothing: the
loop has ended by its test `itemCount > 0` (or by a failed creation) before. -/
theorem createLootItemLoop_succ (env : Env) (lb : LootBlock) (bound : Nat) :
    ∀ q : Int, (q.toNat + 99) / 100 ≤ bound →
      createLootItemLoop env lb (bound + 1) q = createLootItemLoop env lb bound q := by
  induction bound with
  | zero =>
    intro q hq
    have hq0 : ¬ (q > 0) := by omega
    simp [createLootItemLoop, hq0]
  | succ b ih =>
    intro q hq
    rw [createLootItemLoop]
    conv_rhs => rw [createLootItemLoop]
    by_cases hpos : q > 0
    · simp only [hpos, if_true]
      cases hc : env.CreateItem lb.id ((min q 100).toNat % 65536) with
      | none => rfl
      | some item =>
        simp only
        rw [ih]
        omega
    · simp only [hpos, if_false]

/-- The result of the loop is the same for every number of rounds that is at
least the number of chunks of the quantity. -/
theorem createLootItemLoop_enough (env : Env) (lb : LootBlock) (q : Int) (bound extra : Nat)
    (hq : (q.toNat + 99) / 100 ≤ bound) :
    createLootItemLoop env lb (bound + extra) q = createLootItemLoop env lb bound q := by
  induction extra with
  | zero => rfl
  | succ k ih =>
    rw [← ih]
    exact createLootItemLoop_succ env lb (bound + k) q (by omega)

/-- With a factory that always delivers an item with the count it is asked for,
the counts of the items of the loop are as many times 100 as fit into the
quantity, followed by the rest when there is one. -/
theorem createLootItemLoop_counts (env : Env) (lb : LootBlock)
    (hcreate : ∀ n, ∃ item, env.CreateItem lb.id n = some item ∧ item.count = n)
    (bound : Nat) :
    ∀ q : Nat, (q + 99) / 100 ≤ bound →
      (createLootItemLoop env lb bound (q : Int)).map Item.count =
        List.replicate (q / 100) 100 ++ (if q % 100 = 0 then [] else [q % 100]) := by
  induction bound with
  | zero =>
    intro q hq
    have hq0 : q = 0 := by omega
    subst hq0
    simp [createLootItemLoop]
  | succ b ih =>
    intro q hq
    rw [createLootItemLoop]
    by_cases hpos : (q : Int) > 0
    · simp only [hpos, if_true]
      by_cases hbig : 100 ≤ q
      · have hn : (min (q : Int) 100).toNat % 65536 = 100 := by omega
        obtain ⟨item, hitem, hcount⟩ := hcreate 100
        rw [hn, hitem]
        simp only [List.map_cons, applyLootAttributes_count, hcount]
        have hrest : (q : Int) - ((100 : Nat) : Int) = ((q - 100 : Nat) : Int) := by omega
        rw [hrest, ih (q - 100) (by omega)]
        have h1 : q / 100 = (q - 100) / 100 + 1 := by omega
        have h2 : q % 100 = (q - 100) % 100 := by omega
        rw [h1, h2, List.replicate_succ, List.cons_append]
      · have hn : (min (q : Int) 100).toNat % 65536 = q := by omega
        obtain ⟨item, hitem, hcount⟩ := hcreate q
        rw [hn, hitem]
        simp only [List.map_cons, applyLootAttributes_count, hcount]
        have hrest : (q : Int) - (q : Int) = ((0 : Nat) : Int) := by omega
        rw [hrest, ih 0 (by omega)]
        have h1 : q / 100 = 0 := by omega
        have h2 : q % 100 = q := by omega
        have h3 : q ≠ 0 := by omega
        simp [h1, h2, h3]
    · have hq0 : q = 0 := by omega
      subst hq0
      simp

/-- The list of chunk sizes of a quantity: its length, its members, its members
before the last, its total. -/
theorem chunkSizes_facts (q : Nat) :
    (List.replicate (q / 100) 100 ++ (if q % 100 = 0 then [] else [q % 100])).length =
      (q + 99) / 100 ∧
    (∀ c ∈ List.replicate (q / 100) 100 ++ (if q % 100 = 0 then [] else [q % 100]),
      1 ≤ c ∧ c ≤ 100) ∧
    (∀ c ∈ (List.replicate (q / 100) 100 ++ (if q % 100 = 0 then [] else [q % 100])).dropLast,
      c = 100) ∧
    (List.replicate (q / 100) 100 ++ (if q % 100 = 0 then [] else [q % 100])).sum = q := by
  by_cases hr : q % 100 = 0
  · simp only [hr, if_true, List.append_nil, List.length_replicate, List.sum_replicate,
      smul_eq_mul]
    refine ⟨by omega, ?_, ?_, by omega⟩
    · intro c hc
      rw [List.eq_of_mem_replicate hc]
      omega
    · intro c hc
      exact List.eq_of_mem_replicate (List.mem_of_mem_dropLast hc)
  · simp only [hr, if_false, List.length_append, List.length_replicate, List.length_singleton,
      List.sum_append, List.sum_replicate, smul_eq_mul, List.sum_singleton]
    refine ⟨by omega, ?_, ?_, by omega⟩
    · intro c hc
      rcases List.mem_append.mp hc with h | h
      · rw [List.eq_of_mem_replicate h]
        omega
      · rw [List.mem_singleton.mp h]
        omega
    · intro c hc
      rw [List.dropLast_concat] at hc
      exact List.eq_of_mem_replicate hc

/-- C22: for a quantity `q ≥ 0` and a factory that always delivers an item
with the count it is asked for, the materialisation loop of `createLootItem`
comes to its end: every number of rounds that is at least `⌈q / 100⌉` gives the
result of `createLootItem`.  That result has exactly `⌈q / 100⌉` items, each
created with a count in `[1, 100]`, every one before the last with the count
100, and the counts add up to `q`. -/
theorem createLootItem_chunks (env : Env) (lb : LootBlock) (q : Int) (bound : Nat)
    (hq : 0 ≤ q)
    (hcreate : ∀ n, ∃ item, env.CreateItem lb.id n = some item ∧ item.count = n)
    (hbound : (q.toNat + 99) / 100 ≤ bound) :
    createLootItemLoop env lb bound q = createLootItemLoop env lb q.toNat q ∧
    (∀ drawn, lootItemCount env lb (getLootRandom env drawn) = q →
      createLootItem env lb drawn = createLootItemLoop env lb bound q) ∧
    (createLootItemLoop env lb bound q).length = (q.toNat + 99) / 100 ∧
    (∀ item ∈ createLootItemLoop env lb bound q, 1 ≤ item.count ∧ item.count ≤ 100) ∧
    (∀ item ∈ (createLootItemLoop env lb bound q).dropLast, item.count = 100) ∧
    Item.totalCount (createLootItemLoop env lb bound q) = q.toNat := by
  have hcast : ((q.toNat : Nat) : Int) = q := Int.toNat_of_nonneg hq
  have hsame : createLootItemLoop env lb bound q = createLootItemLoop env lb q.toNat q := by
    have e1 := createLootItemLoop_enough env lb q ((q.toNat + 99) / 100)
      (bound - (q.toNat + 99) / 100) (le_refl _)
    have e2 := createLootItemLoop_enough env lb q ((q.toNat + 99) / 100)
      (q.toNat - (q.toNat + 99) / 100) (le_refl _)
    have b1 : (q.toNat + 99) / 100 + (bound - (q.toNat + 99) / 100) = bound := by omega
    have b2 : (q.toNat + 99) / 100 + (q.toNat - (q.toNat + 99) / 100) = q.toNat := by omega
    rw [b1] at e1
    rw [b2] at e2
    rw [e1, e2]
  have hcounts := createLootItemLoop_counts env lb hcreate bound q.toNat hbound
  rw [hcast] at hcounts
  obtain ⟨f1, f2, f3, f4⟩ := chunkSizes_facts q.toNat
  rw [← hcounts] at f1 f2 f3 f4
  refine ⟨hsame, ?_, ?_, ?_, ?_, ?_⟩
  · intro drawn hd
    rw [hsame]
    simp only [createLootItem, hd]
  · simpa using f1
  · intro item hitem
    exact f2 item.count (List.mem_map_of_mem Item.count hitem)
  · intro item hitem
    apply f3
    rw [← List.map_dropLast]
    exact List.mem_map_of_mem Item.count hitem
  · exact f4

/-- Instance of C22: the quantity 250 is handed out as three items with the
counts 100, 100 and 50. -/
theorem createLootItem_chunks_witness :
    (createLootItemLoop (sampleEnv 900 1 0) coinEntry 250 250).map Item.count = [100, 100, 50] ∧
    (createLootItemLoop (sampleEnv 900 1 0) coinEntry 3 250).length = (250 + 99) / 100 ∧
    Item.totalCount (createLootItemLoop (sampleEnv 900 1 0) coinEntry 3 250) = 250 :=
  ⟨by decide,
    (createLootItem_chunks (sampleEnv 900 1 0) coinEntry 250 3 (by decide)
      (fun n => ⟨_, rfl, rfl⟩) (by decide)).2.2.1,
    (createLootItem_chunks (sampleEnv 900 1 0) coinEntry 250 3 (by decide)
      (fun n => ⟨_, rfl, rfl⟩) (by decide)).2.2.2.2.2⟩

/-! ### The draw is used twice -/

/-- The conversion to `int32_t` never raises a value that is not negative. -/
theorem toInt32_le (x : Nat) : toInt32 (x : Int) ≤ x := by
  unfold toInt32
  split <;> omega

/-- With a factory that always delivers an item with the count it is asked for,
the counts of the items of `createLootItem` add up to the quantity. -/
theorem createLootItem_totalCount (env : Env) (lb : LootBlock) (drawn : Nat)
    (hcreate : ∀ n, ∃ item, env.CreateItem lb.id n = some item ∧ item.count = n) :
    Item.totalCount (createLootItem env lb drawn) =
      (lootItemCount env lb (getLootRandom env drawn)).toNat := by
  by_cases hq : 0 ≤ lootItemCount env lb (getLootRandom env drawn)
  · have hcounts := createLootItemLoop_counts env lb hcreate
      (lootItemCount env lb (getLootRandom env drawn)).toNat
      (lootItemCount env lb (getLootRandom env drawn)).toNat (by omega)
    rw [Int.toNat_of_nonneg hq] at hcounts
    simp only [createLootItem, Item.totalCount, hcounts]
    exact (chunkSizes_facts _).2.2.2
  · have h0 : (lootItemCount env lb (getLootRandom env drawn)).toNat = 0 := by omega
    simp only [createLootItem, h0, createLootItemLoop, Item.totalCount, List.map_nil,
      List.sum_nil]

/-- C23: for an entry with `countmax ≥ 1` the quantity is at most
`min(countmax, chance)`.  On a successful roll of a stackable entry the
quantity is `(d mod countmax) + 1` for the same scaled draw `d` that passed the
test `d < chance`, so an entry whose chance is smaller than its `countmax`
gives a quantity below `countmax`, for every draw; and the items that a factory
delivering the requested counts hands out hold no more than that. -/
theorem lootItemCount_le_chance (env : Env) (lb : LootBlock) (hmin : 1 ≤ lb.countmax) :
    (∀ randvalue, lootItemCount env lb randvalue ≤ ((min lb.countmax lb.chance : Nat) : Int)) ∧
    (∀ randvalue, (env.items lb.id).stackable = true → randvalue < lb.chance →
      lootItemCount env lb randvalue = toInt32 ((randvalue % lb.countmax + 1 : Nat) : Int) ∧
      randvalue % lb.countmax + 1 ≤ min lb.countmax lb.chance) ∧
    (lb.chance < lb.countmax →
      ∀ randvalue, lootItemCount env lb randvalue < (lb.countmax : Int)) ∧
    ((∀ n, ∃ item, env.CreateItem lb.id n = some item ∧ item.count = n) →
      ∀ drawn, Item.totalCount (createLootItem env lb drawn) ≤ min lb.countmax lb.chance) := by
  have hbound : ∀ randvalue,
      lootItemCount env lb randvalue ≤ ((min lb.countmax lb.chance : Nat) : Int) := by
    intro randvalue
    unfold lootItemCount
    by_cases hpass : randvalue < lb.chance
    · simp only [hpass, if_true]
      have hlt : randvalue % lb.countmax < lb.countmax := Nat.mod_lt _ (by omega)
      have hle : randvalue % lb.countmax ≤ randvalue := Nat.mod_le _ _
      split
      · have := toInt32_le (randvalue % lb.countmax + 1)
        omega
      · omega
    · simp only [hpass, if_false]
      omega
  refine ⟨hbound, ?_, ?_, ?_⟩
  · intro randvalue hst hpass
    have hlt : randvalue % lb.countmax < lb.countmax := Nat.mod_lt _ (by omega)
    have hle : randvalue % lb.countmax ≤ randvalue := Nat.mod_le _ _
    refine ⟨?_, by omega⟩
    simp only [lootItemCount, hpass, hst, if_true]
  · intro hlt randvalue
    have := hbound randvalue
    omega
  · intro hcreate drawn
    rw [createLootItem_totalCount env lb drawn hcreate]
    have := hbound (getLootRandom env drawn)
    omega

/-- Instance of C23: the stackable entry with `countmax = 5` and `chance = 3`
gives at most 3 units; the scaled draw 2, the largest that passes, gives 3. -/
theorem lootItemCount_le_chance_witness :
    1 ≤ rareEntry.countmax ∧ rareEntry.chance < rareEntry.countmax ∧
    lootItemCount (sampleEnv 900 1 2) rareEntry 2 = 3 ∧
    lootItemCount (sampleEnv 900 1 2) rareEntry 2 ≤
      ((min rareEntry.countmax rareEntry.chance : Nat) : Int) ∧
    lootItemCount (sampleEnv 900 1 2) rareEntry 2 < (rareEntry.countmax : Int) ∧
    Item.totalCount (createLootItem (sampleEnv 900 1 2) rareEntry 0) ≤
      min rareEntry.countmax rareEntry.chance :=
  ⟨by decide, by decide, by decide,
    (lootItemCount_le_chance (sampleEnv 900 1 2) rareEntry (by decide)).1 2,
    (lootItemCount_le_chance (sampleEnv 900 1 2) rareEntry (by decide)).2.2.1 (by decide) 2,
    (lootItemCount_le_chance (sampleEnv 900 1 2) rareEntry (by decide)).2.2.2
      (fun n => ⟨_, rfl, rfl⟩) 0⟩

/-! ### No division by zero -/

/-- The stored `countmax` of an `int32_t` attribute is at least 1. -/
theorem lootCountmax_pos (countmax : Option Int)
    (h : ∀ v, countmax = some v → v < 2147483648) : 1 ≤ lootCountmax countmax := by
  cases countmax with
  | none => simp [lootCountmax]
  | some v =>
    have hv := h v rfl
    simp only [lootCountmax, toUInt32]
    have h1 : (max 1 v) % 4294967296 = max 1 v := by
      apply Int.emod_eq_of_lt <;> omega
    rw [h1]
    omega

theorem countmaxPositiveList_iff (l : List LootBlock) :
    countmaxPositiveList l = true ↔ ∀ c ∈ l, countmaxPositive c = true := by
  induction l with
  | nil => simp [countmaxPositiveList]
  | cons c cs ih => simp [countmaxPositiveList, ih]

/-- The meaning of `countmaxPositive`: the entry has `countmax ≥ 1` and so has
every entry nested in it. -/
theorem countmaxPositive_iff (lb : LootBlock) :
    countmaxPositive lb = true ↔
      1 ≤ lb.countmax ∧ ∀ c ∈ lb.childLoot, countmaxPositive c = true := by
  obtain ⟨id, countmax, chance, subType, actionId, text, childLoot⟩ := lb
  simp [countmaxPositive, countmaxPositiveList_iff]

theorem countmaxIsInt32List_iff (l : List LootNode) :
    countmaxIsInt32List l = true ↔ ∀ c ∈ l, countmaxIsInt32 c = true := by
  induction l with
  | nil => simp [countmaxIsInt32List]
  | cons c cs ih => simp [countmaxIsInt32List, ih]

mutual
/-- An entry that `loadLootItem` accepts has `countmax ≥ 1`, and so has every
entry nested in it. -/
theorem loadLootItem_countmax (env : Env) (node : LootNode)
    (hn : countmaxIsInt32 node = true) (lb : LootBlock)
    (h : loadLootItem env node = some lb) : countmaxPositive lb = true := by
  match node with
  | ⟨id, name, countmax, chance, chance1, subtype, actionId, text, children⟩ =>
    simp only [countmaxIsInt32, Bool.and_eq_true] at hn
    simp only [loadLootItem] at h
    cases hres : resolveLootId env id name with
    | none =>
      rw [hres] at h
      simp at h
    | some lid =>
      rw [hres] at h
      simp only at h
      by_cases hz : lid = 0
      · simp [hz] at h
      · simp only [hz, if_false, Option.some.injEq] at h
        subst h
        simp only [countmaxPositive, Bool.and_eq_true, decide_eq_true_eq]
        constructor
        · apply lootCountmax_pos
          intro v hv
          have h1 := hn.1
          rw [hv] at h1
          simp only [decide_eq_true_eq] at h1
          exact h1.2
        · split
          · exact loadLootContainer_countmax env children hn.2
          · rfl
/-- The nested entries that `loadLootContainer` collects all have
`countmax ≥ 1`, at every depth. -/
theorem loadLootContainer_countmax (env : Env) (children : List LootNode)
    (hc : countmaxIsInt32List children = true) :
    countmaxPositiveList (loadLootContainer env children) = true := by
  match children with
  | [] => simp [loadLootContainer, countmaxPositiveList]
  | sub :: rest =>
    simp only [countmaxIsInt32List, Bool.and_eq_true] at hc
    rw [loadLootContainer]
    cases h : loadLootItem env sub with
    | none => exact loadLootContainer_countmax env rest hc.2
    | some lb =>
      simp only [countmaxPositiveList, Bool.and_eq_true]
      exact ⟨loadLootItem_countmax env sub hc.1 lb h, loadLootContainer_countmax env rest hc.2⟩
end

/-- C24: in a loot table that the loader builds from nodes whose `countmax`
attributes are `int32_t` values, every entry that `loadLootItem` accepts, at top
level and at every nesting depth, has `countmax ≥ 1`, so that the remainder
`randvalue % countmax` of `createLootItem` has a divisor that is not zero; and
with the loot rate 0 `createLoot` takes no draw at all, so that the division by
the loot rate in `getLootRandom` is reached with a rate that is not zero only. -/
theorem loot_division_defined (env : Env) (nodes : List LootNode)
    (hnodes : countmaxIsInt32List nodes = true) :
    (∀ node ∈ nodes, ∀ lb, loadLootItem env node = some lb → countmaxPositive lb = true) ∧
    countmaxPositiveList (loadLootSection env nodes []) = true ∧
    (∀ lb ∈ loadLootSection env nodes [],
      1 ≤ lb.countmax ∧ (∀ randvalue, randvalue % lb.countmax < lb.countmax) ∧
      ∀ c ∈ lb.childLoot, countmaxPositive c = true) ∧
    (∀ (name : String) (table : List LootBlock) (corpse : Item) (drawn : Nat),
      ((createLoot env name table corpse drawn).drawn ≠ drawn ∨
        (createLoot env name table corpse drawn).log ≠ []) → env.RATE_LOOT ≠ 0) := by
  have hnode : ∀ node ∈ nodes, ∀ lb, loadLootItem env node = some lb →
      countmaxPositive lb = true :=
    fun node hmem lb hlb =>
      loadLootItem_countmax env node ((countmaxIsInt32List_iff nodes).mp hnodes node hmem) lb hlb
  have hall : ∀ lb ∈ loadLootSection env nodes [], countmaxPositive lb = true := by
    intro lb hlb
    simp only [loadLootSection, List.nil_append, List.mem_filterMap] at hlb
    obtain ⟨node, hmem, hload⟩ := hlb
    exact hnode node hmem lb hload
  refine ⟨hnode, (countmaxPositiveList_iff _).mpr hall, ?_, ?_⟩
  · intro lb hlb
    obtain ⟨h1, h2⟩ := (countmaxPositive_iff lb).mp (hall lb hlb)
    exact ⟨h1, fun randvalue => Nat.mod_lt _ (by omega), h2⟩
  · intro name table corpse drawn hdraw hrate
    simp only [createLoot, hrate, if_true] at hdraw
    rcases hdraw with h | h <;> exact h rfl

/-- Instance of C24: a bag node with `countmax = 0` that holds a potion node
with `countmax = -7` and a rejected node, and a coin node without `countmax`,
are stored with `countmax = 1` throughout; and with the loot rate 0 no draw is
taken. -/
theorem loot_division_defined_witness :
    countmaxIsInt32List sampleLootNodes = true ∧
    (loadLootSection (bagEnv 900 1 0) sampleLootNodes []).map
      (fun lb => (lb.id, lb.countmax, lb.childLoot.map (fun c => (c.id, c.countmax)))) =
      [(40, 1, [(20, 1)]), (20, 1, [])] ∧
    countmaxPositiveList (loadLootSection (bagEnv 900 1 0) sampleLootNodes []) = true ∧
    (createLoot (bagEnv 900 0 0) "a rattata" [entryX] (sampleCorpse 7) 0).drawn = 0 :=
  ⟨by decide, by decide,
    (loot_division_defined (bagEnv 900 1 0) sampleLootNodes (by decide)).2.1,
    by decide⟩

/-! ### A definition that cannot be loaded -/

/-- C25: when the definition file cannot be read, has no `pokemon` node or has
no `name` attribute, `loadPokemon` returns nothing and leaves the registry, the
loaded map with it, as it was, whether it is reloading or not; so the species
of that name, when it is loaded, keeps its definition, its `info` included, and
the step of a reload for a manifest entry with such a file changes nothing. -/
theorem loadPokemon_failure_atomic (env : SpeciesEnv)
    (cb : String → Pokemons → Option Outfit × Pokemons)
    (file pokemonName : String) (reloading : Bool) (reg : Pokemons)
    (hfail : env.loadFile file = none ∨ env.loadFile file = some none ∨
      ∃ pokemonNode, env.loadFile file = some (some pokemonNode) ∧ pokemonNode.name = none) :
    (loadPokemon env cb file pokemonName reloading reg).1 = none ∧
    (loadPokemon env cb file pokemonName reloading reg).2 = reg ∧
    (loadPokemon env cb file pokemonName reloading reg).2.pokemons = reg.pokemons ∧
    (∀ t, reg.find (asLowerCaseString pokemonName) = some t →
      (loadPokemon env cb file pokemonName true reg).2.find (asLowerCaseString pokemonName) =
        some t) ∧
    (∀ (depth : Nat) (entry : ManifestNode), "data/pokemons/" ++ entry.file = file →
      (reg.find (asLowerCaseString entry.name)).isSome = true →
      loadFromXmlNode env depth true reg entry = reg) := by
  have hall : ∀ (c : String → Pokemons → Option Outfit × Pokemons) (n : String) (b : Bool),
      loadPokemon env c file n b reg = (none, reg) :=
    fun c n b => loadPokemon_unreadable env c file n b reg hfail
  refine ⟨by rw [hall], by rw [hall], by rw [hall], ?_, ?_⟩
  · intro t ht
    rw [hall]
    exact ht
  · intro depth entry hfile hloaded
    simp only [loadFromXmlNode, hloaded, and_self, if_true, hfile, hall]

/-- When the definition can be read, reloading does reset the `info` of the
loaded species before it is filled again: the reloaded `Pidgey` of the sample
loader has the appearance of its file and the flags of a fresh `info`. -/
theorem loadPokemon_reload_resets_example :
    (loadPokemon sampleSpeciesEnv (noLookup Pokemons) "data/pokemons/pidgey.xml" "Pidgey" true
      staleRegistry).1.map
      (fun t => (t.name, t.info.outfit.lookType, t.info.lookcorpse, t.info.armor)) =
      some ("Pidgey", 16, 0, 0) := by
  decide

/-- Instance of C25: reloading `Rattata` from a file whose `pokemon` node has
no name returns nothing and leaves the registry with the loaded `Rattata` as it
was. -/
theorem loadPokemon_failure_atomic_witness :
    (∃ pokemonNode, namelessEnv.loadFile "data/pokemons/rattata.xml" = some (some pokemonNode) ∧
      pokemonNode.name = none) ∧
    (loadPokemon namelessEnv (noLookup Pokemons) "data/pokemons/rattata.xml" "Rattata" true
      loadedRegistry).1 = none ∧
    (loadPokemon namelessEnv (noLookup Pokemons) "data/pokemons/rattata.xml" "Rattata" true
      loadedRegistry).2 = loadedRegistry :=
  ⟨⟨_, rfl, rfl⟩,
    (loadPokemon_failure_atomic namelessEnv (noLookup Pokemons) "data/pokemons/rattata.xml"
      "Rattata" true loadedRegistry (Or.inr (Or.inr ⟨_, rfl, rfl⟩))).1,
    (loadPokemon_failure_atomic namelessEnv (noLookup Pokemons) "data/pokemons/rattata.xml"
      "Rattata" true loadedRegistry (Or.inr (Or.inr ⟨_, rfl, rfl⟩))).2.1⟩

/-! ### The loot rate -/

/-- The scaled draw for a raw draw in `[0, MAX_LOOTCHANCE]` and a positive loot
rate is the quotient of the two. -/
theorem getLootRandom_eq_div (env : Env) (k : Nat) (d r : Nat)
    (hd : env.uniform_random k = d) (hr : env.RATE_LOOT = r) (hpos : 0 < r)
    (hmax : d < 4294967296) : getLootRandom env k = d / r := by
  have hle : d / r ≤ d := Nat.div_le_self d r
  have hdiv : Int.tdiv (d : Int) (r : Int) = ((d / r : Nat) : Int) := by
    rw [Int.tdiv_eq_ediv (by omega) (by omega)]
    rfl
  simp only [getLootRandom, hd, hr, hdiv, toUInt32]
  generalize d / r = x at hle
  have h1 : (x : Int) % 4294967296 = (x : Int) := by
    apply Int.emod_eq_of_lt <;> omega
  rw [h1]
  rfl

/-- C26: for a raw draw in `[0, MAX_LOOTCHANCE]` and positive loot rates
`r ≤ r2`, the scaled draw of `getLootRandom` with the rate `r2` is not above
the one with the rate `r`; so a draw that passes the test `randvalue < chance`
of `createLootItem` with the rate `r` passes it with the rate `r2`. -/
theorem getLootRandom_rate_monotone (env : Env) (k : Nat) (r r2 : Int) (chance : Nat)
    (hd0 : 0 ≤ env.uniform_random k) (hd1 : env.uniform_random k ≤ env.MAX_LOOTCHANCE)
    (hmax : env.MAX_LOOTCHANCE < 4294967296) (hr : 0 < r) (hrr : r ≤ r2) :
    getLootRandom { env with RATE_LOOT := r2 } k ≤ getLootRandom { env with RATE_LOOT := r } k ∧
    (getLootRandom { env with RATE_LOOT := r } k < chance →
      getLootRandom { env with RATE_LOOT := r2 } k < chance) := by
  have hd : env.uniform_random k = ((env.uniform_random k).toNat : Int) :=
    (Int.toNat_of_nonneg hd0).symm
  have hr1 : ((r.toNat : Nat) : Int) = r := Int.toNat_of_nonneg (by omega)
  have hr2 : ((r2.toNat : Nat) : Int) = r2 := Int.toNat_of_nonneg (by omega)
  have e1 := getLootRandom_eq_div { env with RATE_LOOT := r } k (env.uniform_random k).toNat
    r.toNat hd hr1.symm (by omega) (by omega)
  have e2 := getLootRandom_eq_div { env with RATE_LOOT := r2 } k (env.uniform_random k).toNat
    r2.toNat hd hr2.symm (by omega) (by omega)
  have hmono : (env.uniform_random k).toNat / r2.toNat ≤ (env.uniform_random k).toNat / r.toNat :=
    Nat.div_le_div_left (by omega) (by omega)
  rw [e1, e2]
  exact ⟨hmono, fun h => lt_of_le_of_lt hmono h⟩

/-- Instance of C26: the raw draw 7 passes the chance 3 with the loot rate 3
(scaled draw 2) and with the loot rate 5 (scaled draw 1); with the loot rate 2
(scaled draw 3) it fails. -/
theorem getLootRandom_rate_monotone_witness :
    getLootRandom (sampleEnv 900 3 7) 0 = 2 ∧ getLootRandom (sampleEnv 900 5 7) 0 = 1 ∧
    getLootRandom (sampleEnv 900 2 7) 0 = 3 ∧
    getLootRandom { sampleEnv 900 1 7 with RATE_LOOT := 3 } 0 < 3 ∧
    getLootRandom { sampleEnv 900 1 7 with RATE_LOOT := 5 } 0 < 3 :=
  ⟨by decide, by decide, by decide, by decide,
    (getLootRandom_rate_monotone (sampleEnv 900 1 7) 0 3 5 3 (by decide) (by decide) (by decide)
      (by decide) (by decide)).2 (by decide)⟩

/-! ### The loot table of a loaded species -/

theorem loadLook_lootItems (look : Option LookNode) (info : PokemonInfo) :
    (loadLook look info).lootItems = info.lootItems := by
  unfold loadLook
  cases look <;> rfl

/-- The loot table of a species that `loadPokemon` has loaded: the accepted
nodes of the `loot` section, appended to the table the entry had when the load
began (with a registry lookup `cb` that leaves loaded species as they are). -/
theorem loadPokemon_lootItems (env : SpeciesEnv)
    (cb : String → Pokemons → Option Outfit × Pokemons)
    (file pokemonName : String) (reloading : Bool) (reg : Pokemons)
    (pn : PokemonNode) (nm : String)
    (hfile : env.loadFile file = some (some pn)) (hname : pn.name = some nm)
    (hframe : ∀ n r t, r.find (asLowerCaseString pokemonName) = some t →
      ((cb n r).2).find (asLowerCaseString pokemonName) = some t) :
    ∃ t : PokemonType,
      (loadPokemon env cb file pokemonName reloading reg).1 = some t ∧
      t.info.lootItems = loadLootSection env.loot (pn.loot.getD [])
        (targetType env reg (asLowerCaseString pokemonName) reloading).info.lootItems := by
  generalize hkey : asLowerCaseString pokemonName = key at hframe
  simp only [loadPokemon, hfile, hname, hkey]
  have hQ0 : (loadHeader pn nm pokemonName (targetType env reg key reloading)).info.lootItems =
      (targetType env reg key reloading).info.lootItems := by
    simp only [loadHeader]
    exact loadLook_lootItems _ _
  generalize (targetType env reg key reloading).info.lootItems = L at hQ0 ⊢
  generalize loadHeader pn nm pokemonName (targetType env reg key reloading) = tA at hQ0 ⊢
  have h1 : (reg.set key tA).find key = some tA := find_set_self reg key tA
  obtain ⟨tB, h2, hQ2⟩ : ∃ tB : PokemonType,
      (loadAttacks env cb key pn.attacks (reg.set key tA)).find key = some tB ∧
      tB.info.lootItems = L := by
    unfold loadAttacks
    cases pn.attacks with
    | none => exact ⟨tA, h1, hQ0⟩
    | some nodes =>
      obtain ⟨ms, -, hfind⟩ := loadMoveList_find env cb key true hframe nodes _ _ h1
      exact ⟨_, hfind, by simpa using hQ0⟩
  generalize loadAttacks env cb key pn.attacks (reg.set key tA) = reg2 at h2 ⊢
  obtain ⟨tD, h3, hQ3⟩ : ∃ tD : PokemonType,
      (loadDefenses env cb key pn.defenses reg2).find key = some tD ∧
      tD.info.lootItems = L := by
    unfold loadDefenses
    cases pn.defenses with
    | none => exact ⟨tB, h2, hQ2⟩
    | some node =>
      have hm := find_modify_self reg2 key (fun t =>
        { t with info := { t.info with
            defense := match node.defense with | some v => v | none => t.info.defense,
            armor := match node.armor with | some v => v | none => t.info.armor } }) _ h2
      obtain ⟨ms, -, hfind⟩ := loadMoveList_find env cb key false hframe node.children _ _ hm
      exact ⟨_, hfind, by simpa using hQ2⟩
  generalize loadDefenses env cb key pn.defenses reg2 = reg3 at h3 ⊢
  unfold loadLoot
  cases pn.loot with
  | none =>
    refine ⟨tD, h3, ?_⟩
    simp [loadLootSection, hQ3]
  | some nodes =>
    refine ⟨_, find_modify_self reg3 key _ tD h3, ?_⟩
    simp [hQ3]

/-- The loot table that `loadPokemon` gives a species which was not loaded
before, or which it reloads, has `countmax ≥ 1` in every entry at every depth,
when the `countmax` attributes of the `loot` section are `int32_t` values. -/
theorem loadPokemon_loot_countmax (env : SpeciesEnv) (depth : Nat) (file pokemonName : String)
    (reloading : Bool) (reg : Pokemons) (t : PokemonType)
    (hres : (loadPokemon env (lookupOutfit env depth) file pokemonName reloading reg).1 = some t)
    (hnew : reloading = true ∨ reg.find (asLowerCaseString pokemonName) = none)
    (hnodes : ∀ pn nodes, env.loadFile file = some (some pn) → pn.loot = some nodes →
      countmaxIsInt32List nodes = true) :
    countmaxPositiveList t.info.lootItems = true := by
  obtain ⟨pn, nm, hfile, hname⟩ : ∃ pn nm, env.loadFile file = some (some pn) ∧ pn.name = some nm := by
    rcases hf : env.loadFile file with _ | _ | pn
    · rw [loadPokemon_unreadable env _ file pokemonName reloading reg (Or.inl hf)] at hres
      cases hres
    · rw [loadPokemon_unreadable env _ file pokemonName reloading reg (Or.inr (Or.inl hf))] at hres
      cases hres
    · rcases hn : pn.name with _ | nm
      · rw [loadPokemon_unreadable env _ file pokemonName reloading reg
          (Or.inr (Or.inr ⟨pn, hf, hn⟩))] at hres
        cases hres
      · exact ⟨pn, nm, rfl, hn⟩
  obtain ⟨t1, h1, hloot⟩ := loadPokemon_lootItems env (lookupOutfit env depth) file
    pokemonName reloading reg pn nm hfile hname
    (fun n r t h => getPokemonType_keeps env depth n r _ t h)
  rw [hres] at h1
  cases h1
  have hempty : (targetType env reg (asLowerCaseString pokemonName) reloading).info.lootItems
      = [] := by
    unfold targetType
    rcases hnew with h | h
    · subst h
      cases reg.find (asLowerCaseString pokemonName) <;> rfl
    · rw [h]
      rfl
  rw [hloot, hempty]
  simp only [loadLootSection, List.nil_append, ← loadLootContainer_eq_filterMap]
  apply loadLootContainer_countmax
  cases hl : pn.loot with
  | none => rfl
  | some nodes => exact hnodes pn nodes hfile hl

end RubyServer
